import Mathlib

/-!
# os-updates-exporter: scrape orchestration, state reconciliation, compliance policy

A shallow embedding of the Go sources of `R4VXN/os-updates-exporter`.

* Go `int` and `int64` values are `Int`; an arithmetic operation of the source is
  wrapped by `wrapInt` (two's complement, 64 bit) unless the types of its operands bound
  the result, as for the hour and minute of the wall clock.
* A Go `map[string]T` is an association list, read with `mapIndex` (absent key gives
  the zero value, as in Go) and written with `mapAssign`.
* A Go `(T, error)` result is `Except String T`; a lone `error` is `Option String`.
* What a function observes of the operating system (files, child processes, the
  clock) is an explicit argument: a probe record or an outcome.
* Each Go package is a namespace: `state`, `config`, `reboot`, `collector`,
  `metrics`, and `cmd` for package `main` of `cmd/os-updates-exporter`.
-/

namespace Exporter

/-! ## Go primitives -/

/-- Two's-complement wrap-around of a signed 64-bit Go integer. -/
def wrapInt (x : Int) : Int := (x + 2 ^ 63) % 2 ^ 64 - 2 ^ 63

/-- The integer is representable as a signed 64-bit Go integer. -/
def fitsInt (x : Int) : Prop := -(2 ^ 63) ≤ x ∧ x < 2 ^ 63

instance (x : Int) : Decidable (fitsInt x) :=
  inferInstanceAs (Decidable (-(2 ^ 63) ≤ x ∧ x < 2 ^ 63))

/-- The number of low bits a 64-bit magnitude loses when it is rounded to the 53-bit
significand of a `float64`: its bit length minus 53, and 0 below `2 ^ 53`. -/
def significandShift (n : Nat) : Nat :=
  ((List.range 11).filter (fun k => decide (2 ^ (53 + k) ≤ n))).length

/-- Go conversion `float64(x)` of an `int64`: the nearest value with a 53-bit
significand, a tie going to the even significand. The value is an integer and is
returned as that integer. -/
def float64OfInt (x : Int) : Int :=
  let n := x.natAbs
  let e := significandShift n
  let q := n / 2 ^ e
  let r := n % 2 ^ e
  let q1 := if 2 * r > 2 ^ e ∨ (2 * r = 2 ^ e ∧ q % 2 = 1) then q + 1 else q
  if x < 0 then -((q1 * 2 ^ e : Nat) : Int) else ((q1 * 2 ^ e : Nat) : Int)

/-- The integer is one that `float64` holds exactly whatever its low bits: its magnitude
is at most `2 ^ 53`. -/
def fitsFloat64 (x : Int) : Prop := -(2 ^ 53) ≤ x ∧ x ≤ 2 ^ 53

instance (x : Int) : Decidable (fitsFloat64 x) :=
  inferInstanceAs (Decidable (-(2 ^ 53) ≤ x ∧ x ≤ 2 ^ 53))

/-- How a Go call ends: it returns a value, it returns an error, or it panics. A panic
returns nothing to the caller and unwinds it, as no function of this program recovers. -/
inductive Completion (α : Type) where
  | ok (value : α)
  | error (err : String)
  | panic (msg : String)
deriving DecidableEq, Repr

/-- The message of the panic raised by a method call through a nil pointer. -/
def nilDereference : String :=
  "runtime error: invalid memory address or nil pointer dereference"

/-- The message of the panic raised by indexing an empty slice at 0. -/
def indexOutOfRange : String := "runtime error: index out of range [0] with length 0"

/-- Go map index expression `m[k]`: the stored value, or the zero value when absent. -/
def mapIndex {β : Type} (zero : β) (m : List (String × β)) (k : String) : β :=
  (List.lookup k m).getD zero

/-- Go map assignment `m[k] = v`: the earlier binding of `k`, if any, is replaced. -/
def mapAssign {β : Type} (m : List (String × β)) (k : String) (v : β) : List (String × β) :=
  (k, v) :: m.filter (fun e => e.1 != k)

/-- Go `unicode.IsSpace`: the Latin-1 spaces and the code points of category Z
with the White_Space property. -/
def isSpace (c : Char) : Bool :=
  c == '\t' || c == '\n' || c.val == 0x0B || c.val == 0x0C || c == '\r' || c == ' ' ||
  c.val == 0x85 || c.val == 0xA0 || c.val == 0x1680 ||
  (0x2000 ≤ c.val && c.val ≤ 0x200A) ||
  c.val == 0x2028 || c.val == 0x2029 || c.val == 0x202F || c.val == 0x205F ||
  c.val == 0x3000

/-- Go `strings.TrimSpace`: leading and trailing white space removed. -/
def trimSpace (s : String) : String :=
  String.mk ((s.data.dropWhile isSpace).reverse.dropWhile isSpace).reverse

/-- Go `unicode.ToLower` of one rune. ASCII is lowered by the fixed rule; for the other
code points Go consults the table `unicode.CaseRanges`, which is the argument `lo`. -/
def lowerRune (lo : Char → Char) (c : Char) : Char :=
  if c.val < 128 then (if 'A' ≤ c ∧ c ≤ 'Z' then Char.ofNat (c.toNat + 32) else c) else lo c

/-- Go `strings.ToLower`: every rune mapped by `unicode.ToLower`. -/
def toLower (lo : Char → Char) (s : String) : String :=
  String.mk (s.data.map (lowerRune lo))

/-- Go `strings.Contains`. -/
def contains (s sub : String) : Bool := decide (sub.data <:+: s.data)

/-- Go `strings.HasSuffix`. -/
def hasSuffix (s suffix : String) : Bool := decide (suffix.data <:+ s.data)

/-- Value of a run of decimal digits appended to the accumulator `acc`; `none` when a
character is not a decimal digit (the loop of `strconv.Atoi`). -/
def digitsValue : List Char → Nat → Option Nat
  | [], acc => some acc
  | c :: cs, acc =>
    if c.isDigit then digitsValue cs (acc * 10 + (c.toNat - 48)) else none

/-- Go `strconv.Atoi`: an optional sign followed by at least one decimal digit; `none`
stands for a syntax or range error. -/
def atoi (s : String) : Option Int :=
  match s.data with
  | [] => none
  | c :: cs =>
    let ds := if c = '-' ∨ c = '+' then cs else c :: cs
    match ds with
    | [] => none
    | d :: rest =>
      match digitsValue (d :: rest) 0 with
      | none => none
      | some n =>
        let v : Int := if c = '-' then -(n : Int) else (n : Int)
        if fitsInt v then some v else none

/-- A `float64` received from a collaborator, kept as its 64 bits: the model does no
floating-point arithmetic. -/
structure Float64 where
  bits : Nat
deriving DecidableEq, Repr

/-! ## Package state (`internal/state/state.go`) -/

namespace state

/-- Go struct `ManagerState`. -/
structure ManagerState where
  PendingAll : Int
  PendingSecurity : Int
  PendingBugfix : Int
  RepoUnreachable : Int
  RepoTotal : Int
  RebootRequired : Bool
  OldestAllSeen : Int
  OldestSecuritySeen : Int
  OldestBugfixSeen : Int
deriving DecidableEq, Repr

/-- The Go zero value `ManagerState{}`. -/
def ManagerState.zero : ManagerState :=
  { PendingAll := 0, PendingSecurity := 0, PendingBugfix := 0,
    RepoUnreachable := 0, RepoTotal := 0, RebootRequired := false,
    OldestAllSeen := 0, OldestSecuritySeen := 0, OldestBugfixSeen := 0 }

/-- Go struct `State`; `Managers = none` is the nil map. -/
structure State where
  Version : Int
  LastRunTS : Int
  Managers : Option (List (String × ManagerState))
  LastUpdateCheckTS : Int
  LastUpdateAvailable : Bool
  LastUpdateRunTS : Int
  LastUpdateRunSuccess : Bool
deriving DecidableEq, Repr

/-- The Go zero value `State{}`, the target `json.Unmarshal` decodes into. -/
def State.zero : State :=
  { Version := 0, LastRunTS := 0, Managers := none,
    LastUpdateCheckTS := 0, LastUpdateAvailable := false,
    LastUpdateRunTS := 0, LastUpdateRunSuccess := false }

/-- Go `New` (state.go:35). -/
def New : State := { State.zero with Version := 1, Managers := some [] }

/-- Go `Load` (state.go:39). `readFile` is `os.ReadFile` and `unmarshal` is
`json.Unmarshal` into a zero `State`; an error of either is returned as it is. -/
def Load (readFile : String → Except String String)
    (unmarshal : String → Except String State) (path : String) : Except String State :=
  match readFile path with
  | .error e => .error e
  | .ok b =>
    match unmarshal b with
    | .error e => .error e
    | .ok s =>
      let s1 := if s.Version = 0 then { s with Version := 1 } else s
      let s2 := if s1.Managers = none then { s1 with Managers := some [] } else s1
      .ok s2

/-- Go `(*State).GetManager` (state.go:72); the receiver `none` is the nil pointer. -/
def GetManager (s : Option State) (name : String) : ManagerState :=
  match s with
  | none => ManagerState.zero
  | some st =>
    match st.Managers with
    | none => ManagerState.zero
    | some m => mapIndex ManagerState.zero m name

/-- Go `(*State).SetManager` (state.go:79), on a non-nil receiver. -/
def SetManager (s : State) (name : String) (ms : ManagerState) : State :=
  match s.Managers with
  | none => { s with Managers := some (mapAssign [] name ms) }
  | some m => { s with Managers := some (mapAssign m name ms) }

/-- Go `(*State).ensureManager` (state.go:86): the value read, and the state after
storing it back. -/
def ensureManager (s : State) (name : String) : ManagerState × State :=
  let ms := GetManager (some s) name
  (ms, SetManager s name ms)

/-- The aging timestamp of `ms` selected by the `switch typ` of `Oldest` and of the
closure `get` in `UpdateOldestSeen`. -/
def oldestField (typ : String) (ms : ManagerState) : Int :=
  if typ = "security" then ms.OldestSecuritySeen
  else if typ = "bugfix" then ms.OldestBugfixSeen
  else ms.OldestAllSeen

/-- Assignment through the pointer returned by the closure `get` (state.go:108). -/
def setOldestField (typ : String) (ms : ManagerState) (v : Int) : ManagerState :=
  if typ = "security" then { ms with OldestSecuritySeen := v }
  else if typ = "bugfix" then { ms with OldestBugfixSeen := v }
  else { ms with OldestAllSeen := v }

/-- Go `(*State).Oldest` (state.go:92). -/
def Oldest (s : Option State) (manager typ : String) : Int :=
  oldestField typ (GetManager s manager)

/-- Go `(*State).UpdateOldestSeen` (state.go:105), on a non-nil receiver. The first
component is the `float64` returned, the age in seconds, which is an integer: 0, or
`float64(now - *ptr)` (state.go:131). The second is the state after the call. -/
def UpdateOldestSeen (s : State) (manager typ : String) (pending now : Int) : Int × State :=
  let ms := (ensureManager s manager).1
  let s1 := (ensureManager s manager).2
  if pending ≤ 0 then
    (0, SetManager s1 manager (setOldestField typ ms 0))
  else if oldestField typ ms = 0 then
    (0, SetManager s1 manager (setOldestField typ ms now))
  else
    (float64OfInt (wrapInt (now - oldestField typ ms)), SetManager s1 manager ms)

end state

/-! ## Package config (`internal/config/config.go`) -/

namespace config

/-- Go struct `Config`; durations are nanoseconds, `FileMode` the permission bits. -/
structure Config where
  TextfileDir : String
  StateFile : String
  LockFile : String
  FileMode : Nat
  PatchThreshold : Int
  PatchThresholdSecurity : Int
  PatchThresholdBugfix : Int
  RepoDetails : Bool
  TopNPackages : Int
  TopNRepos : Int
  MWStart : String
  MWEnd : String
  RepoHeadTimeout : Int
  PkgmgrTimeout : Int
  OfflineMode : Bool
  FailOpen : Bool
  Debug : Bool
  DisableSelfUpdate : Bool
  UpdateChannel : String
  ChecksumRequired : Bool
  GitHubRepo : String
  AssetPrefix : String
  FSMounts : List String
deriving DecidableEq, Repr

/-- The wall clock as `InMaintenanceWindow` reads it: `time.Now().Hour()`, in 0..23, and
`time.Now().Minute()`, in 0..59. One evaluation of a verdict sees one clock value. -/
structure Clock where
  hour : Fin 24
  minute : Fin 60
deriving DecidableEq, Repr

/-- Go `parseHHMM` (config.go:129): -1 unless the trimmed text is four bytes that
`strconv.Atoi` accepts. -/
def parseHHMM (s : String) : Int :=
  let t := trimSpace s
  if t.utf8ByteSize ≠ 4 then -1
  else
    match atoi t with
    | none => -1
    | some v => v

/-- Go `Config.InMaintenanceWindow` (config.go:110). -/
def InMaintenanceWindow (c : Config) (clk : Clock) : Bool :=
  if c.MWStart = "" ∨ c.MWEnd = "" then false
  else
    let cur : Int := (clk.hour.val : Int) * 100 + (clk.minute.val : Int)
    let start := parseHHMM c.MWStart
    let stop := parseHHMM c.MWEnd
    if start < 0 ∨ stop < 0 then false
    else if start = stop then true
    else if start < stop then decide (cur ≥ start ∧ cur ≤ stop)
    else decide (cur ≥ start ∨ cur ≤ stop)

/-- The ASCII character of a decimal digit. -/
def digitChar (d : Fin 10) : Char := Char.ofNat (48 + d.val)

/-- The four-character text of an HHMM value with the decimal digits `h1 h2 m1 m2`, as
`MW_START` and `MW_END` give it: `hhmm 2 2 0 0` is the text 2200. -/
def hhmm (h1 h2 m1 m2 : Fin 10) : String :=
  String.mk [digitChar h1, digitChar h2, digitChar m1, digitChar m2]

/-- The number an HHMM value with the decimal digits `h1 h2 m1 m2` stands for. -/
def hhmmValue (h1 h2 m1 m2 : Fin 10) : Int :=
  1000 * (h1.val : Int) + 100 * (h2.val : Int) + 10 * (m1.val : Int) + (m2.val : Int)

/-- The configuration `LoadFromEnv` (config.go:46) builds when no variable of the
environment is set and `/var/lib/node_exporter` is the textfile directory. -/
def defaults : Config :=
  { TextfileDir := "/var/lib/node_exporter",
    StateFile := "/var/lib/os-updates-exporter/state.json",
    LockFile := "/run/os-updates-exporter.lock",
    FileMode := 0o640,
    PatchThreshold := 3, PatchThresholdSecurity := 0, PatchThresholdBugfix := 0,
    RepoDetails := false, TopNPackages := 0, TopNRepos := 0,
    MWStart := "", MWEnd := "",
    RepoHeadTimeout := 5000000000, PkgmgrTimeout := 90000000000,
    OfflineMode := false, FailOpen := true, Debug := false,
    DisableSelfUpdate := false, UpdateChannel := "latest", ChecksumRequired := true,
    GitHubRepo := "R4VXN/Prometheus", AssetPrefix := "os-updates-exporter_Linux_",
    FSMounts := [] }

end config

/-! ## Package reboot (`internal/reboot/reboot.go`) -/

namespace reboot

/-- What `Detect` observes of the host. -/
structure Probe where
  /-- The call `os.Stat("/var/run/reboot-required")` succeeds. -/
  rebootRequired : Bool
  /-- Content of `/var/run/reboot-required.pkgs`, `none` when it cannot be read. -/
  rebootPkgs : Option String
  /-- Go `has`: the binary is found by `exec.LookPath`. -/
  has : String → Bool
  /-- Combined output of the `needs-restarting` command line. -/
  needsRestarting : String
  /-- Combined output of the `zypper ps -s` command line. -/
  zypperPs : String

/-- Go `Detect` (reboot.go:12): the reboot flag and the reason tag. -/
def Detect (lo : Char → Char) (manager : String) (p : Probe) : Bool × String :=
  if p.rebootRequired then
    match p.rebootPkgs with
    | none => (true, "unknown")
    | some b =>
      let l := toLower lo b
      if contains l "linux-image" || contains l "linux-headers" || contains l "kernel" then
        (true, "kernel")
      else if contains l "libc" || contains l "glibc" then (true, "libc")
      else if contains l "systemd" then (true, "systemd")
      else (true, "other")
  else if (manager = "dnf" ∨ manager = "yum") ∧ p.has "needs-restarting" = true ∧
      hasSuffix (trimSpace p.needsRestarting) "1" = true then
    (true, "kernel")
  else if manager = "zypper" ∧ p.has "zypper" = true then
    let l := toLower lo p.zypperPs
    if contains l "kernel" then (true, "kernel")
    else if contains l "systemd" then (true, "systemd")
    else if trimSpace p.zypperPs ≠ "" then (true, "other")
    else (false, "unknown")
  else (false, "unknown")

end reboot

/-! ## Package collector (`internal/collector/collector.go`) -/

namespace collector

/-- Go struct `RepoResult`. -/
structure RepoResult where
  Valid : Bool
  Total : Int
  Unreachable : Int
  MetadataAgeSeconds : Float64
  HeadLatencySeconds : Float64
deriving DecidableEq, Repr

/-- Go struct `Result`. -/
structure Result where
  Manager : String
  OSName : String
  OSVersion : String
  PendingSecurity : Int
  PendingBugfix : Int
  PendingAll : Int
  RiskScore : Int
  RebootRequired : Bool
  RebootReason : String
  Repo : RepoResult
deriving DecidableEq, Repr

/-- The Go zero value `Result{}`. -/
def Result.zero : Result :=
  { Manager := "", OSName := "", OSVersion := "",
    PendingSecurity := 0, PendingBugfix := 0, PendingAll := 0, RiskScore := 0,
    RebootRequired := false, RebootReason := "",
    Repo := { Valid := false, Total := 0, Unreachable := 0,
              MetadataAgeSeconds := ⟨0⟩, HeadLatencySeconds := ⟨0⟩ } }

/-- Outcome `(all, sec, bug, err)` of one package-manager collector. -/
structure Counts where
  all : Int
  sec : Int
  bug : Int
  err : Option String

/-- What `Collect` observes of the host. -/
structure Probe where
  /-- Result of `detectOS()`. -/
  osInfo : String × String
  /-- Go `hasBin`: the binary is found by `exec.LookPath`. -/
  hasBin : String → Bool
  collectAPT : Counts
  collectDNF : Counts
  collectYUM : Counts
  collectZYPPER : Counts
  reboot : reboot.Probe

/-- Go `detectManager` (collector.go:127). -/
def detectManager (hasBin : String → Bool) : String :=
  if hasBin "apt-get" || hasBin "apt" then "apt"
  else if hasBin "dnf" then "dnf"
  else if hasBin "yum" then "yum"
  else if hasBin "zypper" then "zypper"
  else ""

/-- The `switch manager` of `Collect` (collector.go:51): the counts of the matching
collector; no case matching leaves the zero counts and a nil error. -/
def dispatch (manager : String) (p : Probe) : Counts :=
  if manager = "apt" then p.collectAPT
  else if manager = "dnf" then p.collectDNF
  else if manager = "yum" then p.collectYUM
  else if manager = "zypper" then p.collectZYPPER
  else { all := 0, sec := 0, bug := 0, err := none }

/-- Go `Collect` (collector.go:39): the result and the error. -/
def Collect (lo : Char → Char) (p : Probe) : Result × Option String :=
  let res0 : Result := { Result.zero with OSName := p.osInfo.1, OSVersion := p.osInfo.2 }
  let manager := detectManager p.hasBin
  if manager = "" then
    ({ res0 with Manager := "unknown" }, some "no supported package manager found")
  else
    let c := dispatch manager p
    let all := if c.all < 0 then 0 else c.all
    let sec := if c.sec < 0 then 0 else c.sec
    let bug := if c.bug < 0 then 0 else c.bug
    let risk := wrapInt (wrapInt (bug * 1) + wrapInt (sec * 5))
    let rb := reboot.Detect lo manager p.reboot
    let risk2 :=
      if toLower lo rb.2 = "kernel" ∧ sec > 0 then wrapInt (risk + wrapInt (sec * 5))
      else risk
    ({ res0 with Manager := manager, PendingAll := all, PendingSecurity := sec,
                 PendingBugfix := bug, RiskScore := risk2,
                 RebootRequired := rb.1, RebootReason := rb.2 }, c.err)

/-- The local `margin` of `EffectiveCompliant` (collector.go:89-92). -/
def margin (cfg : config.Config) (clk : config.Clock) : Int :=
  if config.InMaintenanceWindow cfg clk = true then 1 else 0

/-- Go `Result.EffectiveCompliant` (collector.go:77). Every call of
`cfg.InMaintenanceWindow()` reads the wall clock: `first` is the reading of the call at
collector.go:82 or, on the other path, of the call for the margin at collector.go:90,
`second` that of the call at collector.go:100 and `third` that of the call at
collector.go:103. -/
def EffectiveCompliant (r : Result) (cfg : config.Config)
    (first second third : config.Clock) : Bool :=
  let secTh := cfg.PatchThresholdSecurity
  let bugTh := cfg.PatchThresholdBugfix
  if secTh ≤ 0 ∧ bugTh ≤ 0 then
    if config.InMaintenanceWindow cfg first = true then
      decide (r.PendingAll ≤ wrapInt (cfg.PatchThreshold * 2))
    else decide (r.PendingAll ≤ cfg.PatchThreshold)
  else
    if secTh > 0 ∧ r.PendingSecurity > wrapInt (secTh + margin cfg first) then false
    else if bugTh > 0 ∧ r.PendingBugfix > wrapInt (bugTh + margin cfg first) then false
    else if r.PendingAll > wrapInt (cfg.PatchThreshold * 2) ∧
        config.InMaintenanceWindow cfg second = true then false
    else if config.InMaintenanceWindow cfg third = false ∧ r.PendingAll > cfg.PatchThreshold then
      false
    else true

end collector

/-! ## Package metrics (`internal/metrics/registry.go`) -/

namespace metrics

/-- A number as one `fmt.Sprintf` verb prints it. -/
inductive Num where
  /-- An integer printed with `%d`. -/
  | int (v : Int)
  /-- A `time.Duration` of `d` nanoseconds, its `Seconds()` printed with `%.3f`. -/
  | seconds (d : Int)
  /-- A `float64` whose value is the integer `v`, printed with `%.0f`. -/
  | whole (v : Int)
  /-- A collaborator's `float64` printed with `%.0f`. -/
  | float0 (x : Float64)
  /-- A collaborator's `float64` printed with `%.3f`. -/
  | float3 (x : Float64)
deriving DecidableEq, Repr

/-- One `WriteString` call on the registry buffer: a HELP line, a TYPE line, or a sample
with its metric name, its labels in the order of the format string (values before `%q`
quoting) and its number. -/
inductive Line where
  | help (name text : String)
  | type (name typ : String)
  | sample (name : String) (labels : List (String × String)) (value : Num)
deriving DecidableEq, Repr

/-- Go struct `Registry`; `buf` is the sequence of lines written so far. -/
structure Registry where
  buf : List Line
  helpEmitted : List (String × Bool)
  stageErrors : List (String × Bool)
  scrapeSet : Bool
  failClosed : Bool
deriving DecidableEq, Repr

/-- Go `NewRegistry` (registry.go:17). -/
def NewRegistry : Registry :=
  { buf := [], helpEmitted := [], stageErrors := [], scrapeSet := false, failClosed := false }

/-- Go `(*Registry).emitHelpType` (registry.go:24). -/
def emitHelpType (r : Registry) (name help typ : String) : Registry :=
  if mapIndex false r.helpEmitted name = true then r
  else
    { r with helpEmitted := mapAssign r.helpEmitted name true,
             buf := r.buf ++ [Line.help name help, Line.type name typ] }

/-- Append one sample line to the buffer (`r.buf.WriteString(fmt.Sprintf(...))`). -/
def write (r : Registry) (name : String) (labels : List (String × String)) (v : Num) :
    Registry :=
  { r with buf := r.buf ++ [Line.sample name labels v] }

/-- The sample value of a 0/1 gauge. -/
def flag (b : Bool) : Num := Num.int (if b then 1 else 0)

/-- Go `(*Registry).SetBuildInfo` (registry.go:33). -/
def SetBuildInfo (r : Registry) (version commit goVersion : String) : Registry :=
  write (emitHelpType r "os_updates_build_info" "Build information for os-updates-exporter"
    "gauge") "os_updates_build_info"
    [("version", version), ("commit", commit), ("go_version", goVersion)] (Num.int 1)

/-- Go `(*Registry).SetInfo` (registry.go:38). -/
def SetInfo (r : Registry) (manager outDir osName osVersion : String) (threshold : Int) :
    Registry :=
  write (emitHelpType r "os_updates_info" "Static host/exporter information" "gauge")
    "os_updates_info"
    [("manager", manager), ("exporter", "os-updates-exporter"), ("output_dir", outDir),
     ("os", osName), ("os_version", osVersion), ("threshold", toString threshold)]
    (Num.int 1)

/-- Go `(*Registry).SetPending` (registry.go:44). -/
def SetPending (r : Registry) (manager typ : String) (v : Int) : Registry :=
  write (emitHelpType r "os_pending_updates" "Number of pending updates" "gauge")
    "os_pending_updates" [("manager", manager), ("type", typ)] (Num.int v)

/-- Go `(*Registry).SetNewPending` (registry.go:49). -/
def SetNewPending (r : Registry) (manager typ : String) (v : Int) : Registry :=
  write (emitHelpType r "os_new_pending_updates" "New pending updates since last run" "gauge")
    "os_new_pending_updates" [("manager", manager), ("type", typ)] (Num.int v)

/-- Go `(*Registry).SetOldestAge` (registry.go:54); `seconds` is the value of the
`float64` the caller passes, which is an integer. -/
def SetOldestAge (r : Registry) (manager typ : String) (seconds : Int) : Registry :=
  write (emitHelpType r "os_pending_update_oldest_seconds"
    "Age of oldest pending update (best-effort, state based)" "gauge")
    "os_pending_update_oldest_seconds" [("manager", manager), ("type", typ)]
    (Num.whole seconds)

/-- Go `(*Registry).SetReboot` (registry.go:59). -/
def SetReboot (r : Registry) (required : Bool) : Registry :=
  write (emitHelpType r "os_pending_reboots" "Whether a reboot is required" "gauge")
    "os_pending_reboots" [] (flag required)

/-- The slice `reasons` of `SetRebootReason` (registry.go:70). -/
def reasons : List String := ["kernel", "libc", "systemd", "other", "unknown"]

/-- Go `(*Registry).SetRebootReason` (registry.go:68). -/
def SetRebootReason (lo : Char → Char) (r : Registry) (reason : String) : Registry :=
  let r1 := emitHelpType r "os_reboot_required" "Reboot reason (one-hot)" "gauge"
  let rr0 := toLower lo (trimSpace reason)
  let rr := if rr0 = "" then "unknown" else rr0
  reasons.foldl
    (fun acc x => write acc "os_reboot_required" [("reason", x)] (flag (decide (x = rr)))) r1

/-- Go `(*Registry).SetMaintenanceWindow` (registry.go:84). -/
def SetMaintenanceWindow (r : Registry) (inside : Bool) : Registry :=
  write (emitHelpType r "os_updates_in_maintenance_window"
    "Whether host is currently in maintenance window" "gauge")
    "os_updates_in_maintenance_window" [] (flag inside)

/-- Go `(*Registry).SetCompliant` (registry.go:93). -/
def SetCompliant (r : Registry) (ok : Bool) : Registry :=
  write (emitHelpType r "os_updates_compliant" "Compliance according to patch threshold"
    "gauge") "os_updates_compliant" [] (flag ok)

/-- Go `(*Registry).SetCompliantEffective` (registry.go:102). -/
def SetCompliantEffective (r : Registry) (ok : Bool) : Registry :=
  write (emitHelpType r "os_updates_compliant_effective"
    "Compliance considering maintenance window and type thresholds" "gauge")
    "os_updates_compliant_effective" [] (flag ok)

/-- Go `(*Registry).SetRiskScore` (registry.go:111). -/
def SetRiskScore (r : Registry) (manager : String) (v : Int) : Registry :=
  write (emitHelpType r "os_updates_risk_score" "Weighted risk score for pending updates"
    "gauge") "os_updates_risk_score" [("manager", manager)] (Num.int v)

/-- Go `(*Registry).SetRepoTotals` (registry.go:116). -/
def SetRepoTotals (r : Registry) (manager : String) (total unreachable : Int) : Registry :=
  let r1 := write (emitHelpType r "os_repo_total" "Total repositories detected" "gauge")
    "os_repo_total" [("manager", manager)] (Num.int total)
  write (emitHelpType r1 "os_repo_unreachable" "Repositories unreachable in this run" "gauge")
    "os_repo_unreachable" [("manager", manager)] (Num.int unreachable)

/-- Go `(*Registry).SetRepoNewlyUnreachable` (registry.go:123). -/
def SetRepoNewlyUnreachable (r : Registry) (manager : String) (v : Int) : Registry :=
  write (emitHelpType r "os_repo_newly_unreachable"
    "Newly unreachable repos since last run (best-effort)" "gauge")
    "os_repo_newly_unreachable" [("manager", manager)] (Num.int v)

/-- Go `(*Registry).SetRepoMetadataAge` (registry.go:128). -/
def SetRepoMetadataAge (r : Registry) (manager : String) (seconds : Float64) : Registry :=
  write (emitHelpType r "os_repo_metadata_age_seconds"
    "Repository metadata age in seconds (best-effort, max)" "gauge")
    "os_repo_metadata_age_seconds" [("manager", manager)] (Num.float0 seconds)

/-- Go `(*Registry).SetRepoHeadLatency` (registry.go:133). -/
def SetRepoHeadLatency (r : Registry) (manager : String) (seconds : Float64) : Registry :=
  write (emitHelpType r "os_repo_head_latency_seconds"
    "HTTP HEAD latency in seconds (best-effort, avg)" "gauge")
    "os_repo_head_latency_seconds" [("manager", manager)] (Num.float3 seconds)

/-- Go `(*Registry).SetStageError` (registry.go:138); `enable` is the parameter `on`. -/
def SetStageError (r : Registry) (stage : String) (enable : Bool) : Registry :=
  let r1 := emitHelpType r "os_updates_error" "Stage error indicator (one series per stage)"
    "gauge"
  if enable = true then
    write { r1 with stageErrors := mapAssign r1.stageErrors stage true }
      "os_updates_error" [("stage", stage)] (Num.int 1)
  else
    write r1 "os_updates_error" [("stage", stage)] (Num.int 0)

/-- Go `(*Registry).SetScrapeSuccess` (registry.go:148). -/
def SetScrapeSuccess (r : Registry) (ok : Bool) : Registry :=
  let r1 := write (emitHelpType r "os_updates_scrape_success"
    "1 if metrics were collected and written successfully" "gauge")
    "os_updates_scrape_success" [] (flag ok)
  { r1 with scrapeSet := true }

/-- Go `(*Registry).ScrapeSuccessUnset` (registry.go:158). -/
def ScrapeSuccessUnset (r : Registry) : Bool := !r.scrapeSet

/-- Go `(*Registry).HasFailClosed` (registry.go:160). -/
def HasFailClosed (r : Registry) (failOpen : Bool) : Bool :=
  if mapIndex false r.stageErrors "lock" || mapIndex false r.stageErrors "write" then true
  else if !failOpen && (mapIndex false r.stageErrors "pkgmgr" ||
      mapIndex false r.stageErrors "repo" || mapIndex false r.stageErrors "state") then true
  else false

/-- Go `(*Registry).SetLastRun` (registry.go:171); `unix` is `t.Unix()`. -/
def SetLastRun (r : Registry) (unix : Int) : Registry :=
  write (emitHelpType r "os_updates_last_run_timestamp_seconds"
    "Last run end time (unix seconds)" "gauge")
    "os_updates_last_run_timestamp_seconds" [] (Num.int unix)

/-- Go `(*Registry).SetStageDuration` (registry.go:176). -/
def SetStageDuration (r : Registry) (stage : String) (d : Int) : Registry :=
  write (emitHelpType r "os_updates_stage_duration_seconds" "Run duration per stage" "gauge")
    "os_updates_stage_duration_seconds" [("stage", stage)] (Num.seconds d)

/-- Go `(*Registry).SetRunDurations` (registry.go:181). -/
def SetRunDurations (r : Registry) (total : Int) : Registry :=
  SetStageDuration
    (write (emitHelpType r "os_updates_run_duration_seconds" "Total run duration" "gauge")
      "os_updates_run_duration_seconds" [] (Num.seconds total))
    "total" total

/-- Go `(*Registry).Render` (registry.go:187): the buffer as written. -/
def Render (r : Registry) : List Line := r.buf

end metrics

/-! ## Package main (`cmd/os-updates-exporter/main.go`) -/

namespace cmd

/-- Go package variable `Version`. -/
def Version : String := "dev"

/-- Go package variable `Commit`. -/
def Commit : String := "none"

/-- Go package variable `GoVersion`. -/
def GoVersion : String := "unknown"

/-- Go `max0` (main.go:241). -/
def max0 (v : Int) : Int := if v < 0 then 0 else v

/-- The argument of `reg.SetNewPending` for one category (main.go:117-119):
`max0(current - previous)`. -/
def newPending (cur prev : Int) : Int := max0 (wrapInt (cur - prev))

/-- What one invocation of `run` observes: the outcome of every call that leaves the
process, in the order of the source. -/
structure Env where
  /-- Result of `config.LoadFromEnv()`. -/
  loadFromEnv : Except String config.Config
  /-- Error of `lock.Acquire(cfg.LockFile)`, `none` when the lock is taken. -/
  acquire : Option String
  /-- Go `os.ReadFile`, as `state.Load` calls it. -/
  readFile : String → Except String String
  /-- Go `json.Unmarshal` into a zero `State`, as `state.Load` calls it. -/
  unmarshal : String → Except String state.State
  /-- The host as `collector.Collect` observes it. -/
  probe : collector.Probe
  /-- Result and error of `collector.CheckRepos` in a scrape in which the call returns.
  The code as written returns no error; a call that panics, as `parseYumRepos` does on a
  key without a value, ends the process and is no scrape of `run`. -/
  checkRepos : collector.RepoResult × Option String
  /-- The wall clock read by `cfg.InMaintenanceWindow()` at main.go:140. -/
  clock : config.Clock
  /-- The wall clock read by the calls of `cfg.InMaintenanceWindow()` inside
  `res.EffectiveCompliant(cfg)` at main.go:142, in the order of the source. -/
  readings : config.Clock × config.Clock × config.Clock
  /-- Value of `time.Now().Unix()` at main.go:121. -/
  unixNow : Int
  /-- Value of `time.Now().Unix()` at main.go:146. -/
  lastRun : Int
  /-- Values of `time.Since(...)` for the run and for each stage, in nanoseconds. -/
  sinceStart : Int
  sinceLock : Int
  sinceState : Int
  sincePkgmgr : Int
  sinceRepo : Int
  sinceWrite : Int
  /-- Error of the `metrics.WriteTextfileAtomic` call checked at main.go:156, `none`
  when the snapshot is written. -/
  writeTextfile : Option String
  /-- Error of `state.SaveAtomic` at main.go:178, `none` when the state is saved. -/
  saveAtomic : Option String

/-- An effect of `run` on the world outside the process. -/
inductive Event where
  /-- A call `metrics.WriteTextfileAtomic(cfg.TextfilePath(), content, mode)`, the path
  being `os_updates.prom` in directory `dir`. -/
  | writeTextfile (dir : String) (content : List metrics.Line) (mode : Nat)
  /-- A call `state.SaveAtomic(path, st)`. -/
  | saveAtomic (path : String) (st : state.State)
  /-- The deferred `l.Release()`. -/
  | release
deriving DecidableEq, Repr

/-- Exit code of `run` and its effects in order. -/
structure Outcome where
  exit : Int
  events : List Event
deriving DecidableEq, Repr

/-- Registry, state and collection result when `run` reaches the snapshot write
(main.go:154). -/
structure Prepared where
  reg : metrics.Registry
  st : state.State
  res : collector.Result

/-- The registry of `run` before the lock is requested (main.go:57-58). -/
def startRegistry : metrics.Registry :=
  metrics.SetBuildInfo metrics.NewRegistry Version Commit GoVersion

/-- Go `run`, main.go:63-70: the lock is not acquired. -/
def lockFailed (cfg : config.Config) (env : Env) : Outcome :=
  let r1 := metrics.SetStageError startRegistry "lock" true
  let r2 := metrics.SetScrapeSuccess r1 false
  let r3 := metrics.SetStageDuration r2 "lock" env.sinceLock
  let r4 := metrics.SetRunDurations r3 env.sinceStart
  { exit := 75,
    events := [Event.writeTextfile cfg.TextfileDir (metrics.Render r4) cfg.FileMode] }

/-- Go `run`, main.go:72-81: duration of the lock stage, then the state stage. -/
def loadState (cfg : config.Config) (env : Env) : metrics.Registry × state.State :=
  let r1 := metrics.SetStageDuration startRegistry "lock" env.sinceLock
  match state.Load env.readFile env.unmarshal cfg.StateFile with
  | .error _ =>
    (metrics.SetStageDuration (metrics.SetStageError r1 "state" true) "state" env.sinceState,
     state.New)
  | .ok st => (metrics.SetStageDuration r1 "state" env.sinceState, st)

/-- Go `run`, main.go:83-107: collection and the repository check. -/
def collectStage (lo : Char → Char) (cfg : config.Config) (env : Env)
    (r : metrics.Registry) : metrics.Registry × collector.Result :=
  let c := collector.Collect lo env.probe
  let r1 := if c.2 ≠ none then metrics.SetStageError r "pkgmgr" true else r
  let r2 := metrics.SetStageDuration r1 "pkgmgr" env.sincePkgmgr
  if cfg.OfflineMode = false then
    let r3 :=
      if env.checkRepos.2 ≠ none then
        let r31 := metrics.SetStageError r2 "repo" true
        if cfg.FailOpen = false then metrics.SetScrapeSuccess r31 false else r31
      else r2
    (metrics.SetStageDuration r3 "repo" env.sinceRepo, { c.1 with Repo := env.checkRepos.1 })
  else (metrics.SetStageDuration r2 "repo" env.sinceRepo, c.1)

/-- Go `run`, main.go:109-113: identity and pending counts. -/
def populate (cfg : config.Config) (r : metrics.Registry) (res : collector.Result) :
    metrics.Registry :=
  let r1 := metrics.SetInfo r res.Manager cfg.TextfileDir res.OSName res.OSVersion
    cfg.PatchThreshold
  let r2 := metrics.SetPending r1 res.Manager "security" res.PendingSecurity
  let r3 := metrics.SetPending r2 res.Manager "bugfix" res.PendingBugfix
  metrics.SetPending r3 res.Manager "all" res.PendingAll

/-- Go `run`, main.go:117-119: growth against the manager state `prev` read at
main.go:116. -/
def deltas (r : metrics.Registry) (res : collector.Result) (prev : state.ManagerState) :
    metrics.Registry :=
  let r1 := metrics.SetNewPending r res.Manager "security"
    (newPending res.PendingSecurity prev.PendingSecurity)
  let r2 := metrics.SetNewPending r1 res.Manager "bugfix"
    (newPending res.PendingBugfix prev.PendingBugfix)
  metrics.SetNewPending r2 res.Manager "all" (newPending res.PendingAll prev.PendingAll)

/-- Go `run`, main.go:122-124: the three aging transitions; the ages for all, security
and bugfix, and the state they leave. -/
def agingState (st : state.State) (res : collector.Result) (now : Int) :
    (Int × Int × Int) × state.State :=
  let u1 := state.UpdateOldestSeen st res.Manager "all" res.PendingAll now
  let u2 := state.UpdateOldestSeen u1.2 res.Manager "security" res.PendingSecurity now
  let u3 := state.UpdateOldestSeen u2.2 res.Manager "bugfix" res.PendingBugfix now
  ((u1.1, u2.1, u3.1), u3.2)

/-- Go `run`, main.go:125-127: the ages reported. -/
def aging (r : metrics.Registry) (res : collector.Result) (ages : Int × Int × Int) :
    metrics.Registry :=
  let r1 := metrics.SetOldestAge r res.Manager "all" ages.1
  let r2 := metrics.SetOldestAge r1 res.Manager "security" ages.2.1
  metrics.SetOldestAge r2 res.Manager "bugfix" ages.2.2

/-- Go `run`, main.go:129-135: repository metrics. -/
def repoMetrics (r : metrics.Registry) (res : collector.Result) (prev : state.ManagerState) :
    metrics.Registry :=
  if res.Repo.Valid = true then
    let a := metrics.SetRepoTotals r res.Manager res.Repo.Total res.Repo.Unreachable
    let b := metrics.SetRepoNewlyUnreachable a res.Manager
      (max0 (wrapInt (res.Repo.Unreachable - prev.RepoUnreachable)))
    let c := metrics.SetRepoMetadataAge b res.Manager res.Repo.MetadataAgeSeconds
    metrics.SetRepoHeadLatency c res.Manager res.Repo.HeadLatencySeconds
  else r

/-- Go `run`, main.go:137-143: reboot, maintenance window, compliance and risk. -/
def verdicts (lo : Char → Char) (cfg : config.Config) (clk : config.Clock)
    (ec : config.Clock × config.Clock × config.Clock)
    (r : metrics.Registry) (res : collector.Result) : metrics.Registry :=
  let r1 := metrics.SetReboot r res.RebootRequired
  let r2 := metrics.SetRebootReason lo r1 res.RebootReason
  let r3 := metrics.SetMaintenanceWindow r2 (config.InMaintenanceWindow cfg clk)
  let r4 := metrics.SetCompliant r3 (decide (res.PendingAll ≤ cfg.PatchThreshold))
  let r5 := metrics.SetCompliantEffective r4
    (collector.EffectiveCompliant res cfg ec.1 ec.2.1 ec.2.2)
  metrics.SetRiskScore r5 res.Manager res.RiskScore

/-- Go `run`, main.go:145-152: run durations, then the overall success unless an
earlier stage has set it. -/
def conclude (cfg : config.Config) (env : Env) (r : metrics.Registry) : metrics.Registry :=
  let r1 := metrics.SetLastRun r env.lastRun
  let r2 := metrics.SetRunDurations r1 env.sinceStart
  if metrics.ScrapeSuccessUnset r2 = true then
    metrics.SetScrapeSuccess r2 (!metrics.HasFailClosed r2 cfg.FailOpen)
  else r2

/-- Go `run`, main.go:72-152: everything between the lock and the snapshot write. -/
def prepare (lo : Char → Char) (cfg : config.Config) (env : Env) : Prepared :=
  let st := (loadState cfg env).2
  let cs := collectStage lo cfg env (loadState cfg env).1
  let res := cs.2
  let prev := state.GetManager (some st) res.Manager
  let ag := agingState st res env.unixNow
  let r1 := populate cfg cs.1 res
  let r2 := deltas r1 res prev
  let r3 := aging r2 res ag.1
  let r4 := repoMetrics r3 res prev
  let r5 := verdicts lo cfg env.clock env.readings r4 res
  { reg := conclude cfg env r5, st := ag.2, res := res }

/-- The state handed to `state.SaveAtomic` (main.go:166-177). -/
def persisted (p : Prepared) (now : Int) : state.State :=
  let st := { p.st with LastRunTS := now }
  state.SetManager st p.res.Manager
    { PendingAll := p.res.PendingAll,
      PendingSecurity := p.res.PendingSecurity,
      PendingBugfix := p.res.PendingBugfix,
      RepoUnreachable := p.res.Repo.Unreachable,
      RepoTotal := p.res.Repo.Total,
      RebootRequired := p.res.RebootRequired,
      OldestAllSeen := state.Oldest (some st) p.res.Manager "all",
      OldestSecuritySeen := state.Oldest (some st) p.res.Manager "security",
      OldestBugfixSeen := state.Oldest (some st) p.res.Manager "bugfix" }

/-- Go `run`, main.go:154-185: the snapshot write and the state save, with the lock
released on return. -/
def finish (cfg : config.Config) (env : Env) (p : Prepared) : Outcome :=
  let first := Event.writeTextfile cfg.TextfileDir (metrics.Render p.reg) cfg.FileMode
  match env.writeTextfile with
  | some _ =>
    let r1 := metrics.SetStageError p.reg "write" true
    let r2 := metrics.SetScrapeSuccess r1 false
    let r3 := metrics.SetStageDuration r2 "write" env.sinceWrite
    { exit := 20,
      events := [first, Event.writeTextfile cfg.TextfileDir (metrics.Render r3) cfg.FileMode,
                 Event.release] }
  | none =>
    let saved := Event.saveAtomic cfg.StateFile (persisted p env.unixNow)
    match env.saveAtomic with
    | some _ => { exit := 21, events := [first, saved, Event.release] }
    | none => { exit := 0, events := [first, saved, Event.release] }

/-- Go `run` (main.go:49): one scrape. -/
def run (lo : Char → Char) (env : Env) : Outcome :=
  match env.loadFromEnv with
  | .error _ => { exit := 1, events := [] }
  | .ok cfg =>
    match env.acquire with
    | some _ => lockFailed cfg env
    | none => finish cfg env (prepare lo cfg env)

end cmd

/-! ## Go primitives: paths, text fields, the file system -/

/-- Go `strings.TrimPrefix`. -/
def trimPrefix (s pre : String) : String :=
  if pre.data <+: s.data then String.mk (s.data.drop pre.data.length) else s

/-- Go `strings.HasPrefix`. -/
def hasPrefix (s pre : String) : Bool := decide (pre.data <+: s.data)

/-- Go `strings.Split(s, "\n")` over the runes left, `cur` holding the line being read in
reverse; empty lines are kept. -/
def splitNewline : List Char → List Char → List String
  | [], cur => [String.mk cur.reverse]
  | c :: cs, cur =>
    if c = '\n' then String.mk cur.reverse :: splitNewline cs [] else splitNewline cs (c :: cur)

/-- The loop of `strings.Fields` over the runes left, `cur` holding the field being read
in reverse. -/
def fieldsFrom : List Char → List Char → List String
  | [], cur => if cur = [] then [] else [String.mk cur.reverse]
  | c :: cs, cur =>
    if isSpace c then
      (if cur = [] then fieldsFrom cs [] else String.mk cur.reverse :: fieldsFrom cs [])
    else fieldsFrom cs (c :: cur)

/-- Go `strings.Fields`: the maximal runs of runes that are not white space. -/
def fields (s : String) : List String := fieldsFrom s.data []

/-- The elements of a slash-separated path, `cur` holding the element being read in
reverse; empty elements are kept. -/
def splitSlash : List Char → List Char → List (List Char)
  | [], cur => [cur.reverse]
  | c :: cs, cur => if c = '/' then cur.reverse :: splitSlash cs [] else splitSlash cs (c :: cur)

/-- One element of a path pushed on the stack of elements kept so far (last element
first), as `filepath.Clean` treats it: empty and dot elements are dropped, a dot-dot
element removes the element before it, is dropped at the root, and is kept at the start
of a relative path. -/
def cleanPush (rooted : Bool) (stack : List (List Char)) (elem : List Char) :
    List (List Char) :=
  if elem = [] ∨ elem = ['.'] then stack
  else if elem = ['.', '.'] then
    match stack with
    | [] => if rooted then [] else [elem]
    | top :: rest => if top = ['.', '.'] then elem :: stack else rest
  else elem :: stack

/-- Go `filepath.Clean` on a Unix path. -/
def pathClean (path : String) : String :=
  if path = "" then "."
  else
    let rooted : Bool := path.data.head? = some '/'
    let kept := ((splitSlash path.data []).foldl (cleanPush rooted) []).reverse
    let body := String.mk (List.intercalate ['/'] kept)
    if rooted then "/" ++ body
    else if body = "" then "."
    else body

/-- Go `filepath.Join` of two elements. -/
def pathJoin (a b : String) : String :=
  if a ≠ "" then pathClean (a ++ "/" ++ b)
  else if b ≠ "" then pathClean b
  else ""

/-- Go `filepath.Dir`: the path up to its last slash, cleaned. -/
def pathDir (path : String) : String :=
  pathClean (String.mk (path.data.reverse.dropWhile (fun c => c != '/')).reverse)

/-- Go `filepath.Base`: the last element of the path, trailing slashes removed. -/
def pathBase (path : String) : String :=
  if path = "" then "."
  else
    let trimmed := (path.data.reverse.dropWhile (fun c => c == '/')).reverse
    let last := (trimmed.reverse.takeWhile (fun c => c != '/')).reverse
    if last = [] then "/" else String.mk last

namespace os

/-- The regular files of the file system: path and content. -/
abbrev Files := List (String × String)

/-- Content of the file at `path`, if there is one. -/
def Files.read (fs : Files) (path : String) : Option String := List.lookup path fs

/-- The files with `path` removed. -/
def Files.erase (fs : Files) (path : String) : Files := fs.filter (fun e => e.1 != path)

/-- A call of package `os` that can change the file system. `create` is `os.Create`
followed by `io.Copy` of `data` into the file and `Close`. -/
inductive Call where
  | mkdirAll (dir : String) (perm : Nat)
  | writeFile (path data : String) (perm : Nat)
  | create (path data : String)
  | remove (path : String)
  | rename (src dst : String)
  | chmod (path : String) (mode : Nat)
deriving DecidableEq, Repr

/-- The paths a call names. -/
def Call.paths : Call → List String
  | .mkdirAll dir _ => [dir]
  | .writeFile path _ _ => [path]
  | .create path _ => [path]
  | .remove path => [path]
  | .rename src dst => [src, dst]
  | .chmod path _ => [path]

/-- What the operating system does to one call: let it `pass`, `refuse` it with an error
before anything changes, or `cut` a write with an error after `kept` reached the file. -/
inductive Fault where
  | pass
  | refuse (err : String)
  | cut (err : String) (kept : String)
deriving DecidableEq, Repr

/-- Error and file system after one call under a fault. A call the system lets pass
still fails when the file it needs is absent. -/
def effect (c : Call) (f : Fault) (fs : Files) : Option String × Files :=
  match f with
  | .refuse e => (some e, fs)
  | .cut e kept =>
    match c with
    | .writeFile path _ _ => (some e, mapAssign fs path kept)
    | .create path _ => (some e, mapAssign fs path kept)
    | _ => (some e, fs)
  | .pass =>
    match c with
    | .mkdirAll dir _ =>
      if (fs.read dir).isSome then (some "mkdir: not a directory", fs) else (none, fs)
    | .writeFile path data _ => (none, mapAssign fs path data)
    | .create path data => (none, mapAssign fs path data)
    | .remove path =>
      if (fs.read path).isSome then (none, fs.erase path)
      else (some "remove: no such file or directory", fs)
    | .rename src dst =>
      match fs.read src with
      | some content => (none, mapAssign (fs.erase src) dst content)
      | none => (some "rename: no such file or directory", fs)
    | .chmod path _ =>
      if (fs.read path).isSome then (none, fs)
      else (some "chmod: no such file or directory", fs)

/-- One call as it took place: the call, the fault and the error returned. -/
structure Step where
  call : Call
  fault : Fault
  err : Option String
deriving DecidableEq, Repr

/-- The file system, the calls made on it so far, and the invocations of
`persistUpdaterState` so far with their arguments `(updateAvailable, lastSuccess)`. -/
structure World where
  files : Files
  steps : List Step
  persists : List (Bool × Bool)
deriving DecidableEq, Repr

/-- One call made on the world: the error returned and the world after it. -/
def exec (c : Call) (f : Fault) (w : World) : Option String × World :=
  ((effect c f w.files).1,
   { w with files := (effect c f w.files).2,
            steps := w.steps ++ [{ call := c, fault := f, err := (effect c f w.files).1 }] })

/-- Go `os.ReadFile`, and `os.Open` followed by reading the file to its end: the
content, unless the system refuses or the file is absent. -/
def readFile (f : Fault) (w : World) (path : String) : Except String String :=
  match f with
  | .pass =>
    match w.files.read path with
    | some content => .ok content
    | none => .error "open: no such file or directory"
  | .refuse e => .error e
  | .cut e _ => .error e

/-- The file system after replaying steps on it. -/
def replay (steps : List Step) (fs : Files) : Files :=
  steps.foldl (fun acc s => (effect s.call s.fault acc).2) fs

end os

namespace os

/-- The faults met by the three calls of an atomic write: `os.MkdirAll`, `os.WriteFile`
and `os.Rename`. -/
structure AtomicFaults where
  mkdir : Fault
  write : Fault
  rename : Fault
deriving DecidableEq, Repr

/-- No fault at all. -/
def AtomicFaults.pass : AtomicFaults := { mkdir := .pass, write := .pass, rename := .pass }

end os

namespace state

/-- Go `SaveAtomic` (state.go:57); `marshal` is `json.MarshalIndent`. -/
def SaveAtomic (marshal : State → Except String String) (f : os.AtomicFaults)
    (path : String) (s : State) (w : os.World) : Option String × os.World :=
  let m := os.exec (.mkdirAll (pathDir path) 0o750) f.mkdir w
  match m.1 with
  | some e => (some e, m.2)
  | none =>
    let tmp := path ++ ".tmp"
    match marshal s with
    | .error e => (some e, m.2)
    | .ok b =>
      let wr := os.exec (.writeFile tmp b 0o640) f.write m.2
      match wr.1 with
      | some e => (some e, wr.2)
      | none => os.exec (.rename tmp path) f.rename wr.2

end state

namespace metrics

/-- Go `WriteTextfileAtomic` (write.go:8). -/
def WriteTextfileAtomic (f : os.AtomicFaults) (path content : String) (mode : Nat)
    (w : os.World) : Option String × os.World :=
  let dir := pathDir path
  let m := os.exec (.mkdirAll dir 0o755) f.mkdir w
  match m.1 with
  | some e => (some e, m.2)
  | none =>
    let tmp := path ++ ".tmp"
    let wr := os.exec (.writeFile tmp content mode) f.write m.2
    match wr.1 with
    | some e => (some e, wr.2)
    | none => os.exec (.rename tmp path) f.rename wr.2

end metrics

namespace config

/-- Go `Config.TextfilePath` (config.go:93). -/
def TextfilePath (c : Config) : String := pathJoin c.TextfileDir "os_updates.prom"

end config

/-! ## Package updater (`internal/updater/updater.go`) -/

namespace updater

/-- Go struct `Updater`, without its HTTP client. -/
structure Updater where
  cfg : config.Config
  current : String
deriving DecidableEq, Repr

/-- Go struct `CheckResult`. -/
structure CheckResult where
  Current : String
  Latest : String
  UpdateAvailable : Bool
deriving DecidableEq, Repr

/-- Go struct `RunResult`. -/
structure RunResult where
  Current : String
  Latest : String
  Updated : Bool
deriving DecidableEq, Repr

/-- One element of the `assets` array of a release. -/
structure Asset where
  Name : String
  BrowserDownloadURL : String
deriving DecidableEq, Repr

/-- An HTTP response: its status code and what the caller reads from its body. -/
structure Reply (α : Type) where
  StatusCode : Int
  body : α

/-- The call sites of `Run` that reach the network or the file system, each executed at
most once in a run. -/
inductive Site where
  | mkTmp | getTar | getSum | readSum | openTar
  | mkTarget | rmStaged | openArchive | extract | chmod
  | rmBackup | backupLive | install | rmLive | restore
  | loadState
deriving DecidableEq, Repr

/-- What one invocation of `Run` observes outside the process. -/
structure Env where
  /-- Go `runtime.GOARCH`. -/
  arch : String
  /-- Value of `time.Now().Unix()` in `persistUpdaterState`. -/
  now : Int
  /-- Go `http.NewRequestWithContext(ctx, "GET", url, nil)` returns a request: the URL
  parses. The callers discard its error, so for a URL that does not parse the request
  is nil and the `req.Header.Set` that follows panics. -/
  parses : String → Bool
  /-- Outcome of the GET of `releases/latest`: a transport error, or the status and the
  `tag_name` decoded from the body (or the decoding error). -/
  latest : Except String (Reply (Except String String))
  /-- Outcome of the GET of a release by tag, by attempt 0, 1, 2: a transport error, or
  the status and the assets decoded from the body (or the decoding error). -/
  release : Nat → Except String (Reply (Except String (List Asset)))
  /-- Outcome of the GET of a download at sites `getTar` and `getSum`: a transport
  error, or the status and the body. -/
  fetch : Site → Except String (Reply String)
  /-- Lower-case hexadecimal SHA-256 digest of a content. -/
  sha256hex : String → String
  /-- The entries `(name, data)` that `gzip.NewReader` and `tar.Reader.Next` yield for an
  archive content, each entry or the read error met in its place; the outer error is
  that of `gzip.NewReader`. -/
  untar : String → Except String (List (Except String (String × String)))
  /-- The fault met by the file-system call of a site. -/
  fault : Site → os.Fault
  /-- Go `json.Unmarshal` into a zero `State`. -/
  unmarshal : String → Except String state.State
  /-- Go `json.MarshalIndent` of a `State`. -/
  marshal : state.State → Except String String
  /-- The faults met by `state.SaveAtomic` in `persistUpdaterState`. -/
  save : os.AtomicFaults

/-- The scratch directory of `Run` (updater.go:84). -/
def tmpDir : String := "/var/lib/os-updates-exporter/tmp"

/-- The live install path (updater.go:111). -/
def target : String := "/usr/local/bin/os-updates-exporter"

/-- The directory of the live install path (updater.go:112). -/
def targetDir : String := pathDir target

/-- The staging path (updater.go:115). -/
def newBin : String := pathJoin targetDir ".os-updates-exporter.new"

/-- The backup path (updater.go:116). -/
def backup : String := target ++ ".bak"

/-- Go `normalizeVer` (updater.go:349). -/
def normalizeVer (s : String) : String := trimPrefix (trimSpace s) "v"

/-- The URL of the latest release (updater.go:164). -/
def latestURL (repo : String) : String :=
  "https://api.github.com/repos/" ++ repo ++ "/releases/latest"

/-- Go `(*Updater).fetchLatestVersion` (updater.go:156). -/
def fetchLatestVersion (u : Updater) (env : Env) : Completion String :=
  let ch := trimSpace u.cfg.UpdateChannel
  if ch ≠ "" ∧ ch ≠ "latest" ∧ ch ≠ "0" then .ok ch
  else if env.parses (latestURL u.cfg.GitHubRepo) = false then .panic nilDereference
  else
    match env.latest with
    | .error e => .error e
    | .ok resp =>
      if resp.StatusCode ≥ 400 then .error ("github api status " ++ toString resp.StatusCode)
      else
        match resp.body with
        | .error e => .error e
        | .ok tagName =>
          let tag := trimSpace tagName
          if tag = "" then .error "empty tag_name from github" else .ok tag

/-- Go `(*Updater).Check` (updater.go:50). -/
def Check (u : Updater) (env : Env) : Completion CheckResult :=
  match fetchLatestVersion u env with
  | .error e => .error e
  | .panic m => .panic m
  | .ok latest =>
    .ok { Current := u.current, Latest := latest,
          UpdateAvailable :=
            decide (latest ≠ "") && decide (normalizeVer latest ≠ normalizeVer u.current) }

/-- The slice `try` of `resolveAssetURLs` (updater.go:199): the URLs queried for a tag. -/
def tagURLs (repo tag : String) : List String :=
  [ "https://api.github.com/repos/" ++ repo ++ "/releases/tags/" ++ tag,
    "https://api.github.com/repos/" ++ repo ++ "/releases/tags/v" ++ trimPrefix tag "v",
    "https://api.github.com/repos/" ++ repo ++ "/releases/tags/" ++ trimPrefix tag "v" ]

/-- The loop of `resolveAssetURLs` (updater.go:206-220) from attempt `i` over the URLs
left: the response kept when the loop ends, or the panic of a request that could not be
built, and the URLs queried in order. -/
def tryTags (parses : String → Bool)
    (release : Nat → Except String (Reply (Except String (List Asset)))) :
    Nat → List String →
      Completion (Option (Reply (Except String (List Asset)))) × List String
  | _, [] => (.ok none, [])
  | i, url :: rest =>
    if parses url = false then (.panic nilDereference, [])
    else
      match release i with
      | .error _ =>
        ((tryTags parses release (i + 1) rest).1, url :: (tryTags parses release (i + 1) rest).2)
      | .ok resp =>
        if resp.StatusCode < 400 then (.ok (some resp), [url])
        else
          ((tryTags parses release (i + 1) rest).1,
           url :: (tryTags parses release (i + 1) rest).2)

/-- The loop over the assets (updater.go:238-245): the URL of the last asset of each
wanted name, empty when there is none. -/
def pickAssets (wantTar wantSha : String) (assets : List Asset) : String × String :=
  assets.foldl
    (fun acc a =>
      ((if a.Name = wantTar then a.BrowserDownloadURL else acc.1),
       (if a.Name = wantSha then a.BrowserDownloadURL else acc.2)))
    ("", "")

/-- Go `(*Updater).resolveAssetURLs` (updater.go:193): the archive URL and the checksum
URL, or the error, or the panic; and the release URLs queried in order. -/
def resolveAssetURLs (u : Updater) (env : Env) (tag assetName : String) :
    Completion (String × String) × List String :=
  let t := trimSpace tag
  if t = "" then (.error "empty tag", [])
  else
    let tried := tryTags env.parses env.release 0 (tagURLs u.cfg.GitHubRepo t)
    match tried.1 with
    | .panic m => (.panic m, tried.2)
    | .error e => (.error e, tried.2)
    | .ok none => (.error ("could not resolve release tag " ++ t), tried.2)
    | .ok (some resp) =>
      match resp.body with
      | .error e => (.error e, tried.2)
      | .ok assets =>
        let urls := pickAssets assetName (assetName ++ ".sha256") assets
        if urls.1 = "" then (.error ("asset not found: " ++ assetName), tried.2)
        else if u.cfg.ChecksumRequired = true ∧ urls.2 = "" then
          (.error ("checksum asset not found: " ++ assetName ++ ".sha256"), tried.2)
        else (.ok urls, tried.2)

/-- Go `(*Updater).downloadTo` (updater.go:255) of `url` at the site `site`. -/
def downloadTo (env : Env) (site : Site) (url path : String) (w : os.World) :
    Completion Unit × os.World :=
  if env.parses url = false then (.panic nilDereference, w)
  else
    match env.fetch site with
    | .error e => (.error e, w)
    | .ok resp =>
      if resp.StatusCode ≥ 400 then (.error ("download status " ++ toString resp.StatusCode), w)
      else
        match os.exec (.create path resp.body) (env.fault site) w with
        | (some e, w1) => (.error e, w1)
        | (none, w1) => (.ok (), w1)

/-- Go `verifySha256` (updater.go:280). -/
def verifySha256 (lo : Char → Char) (env : Env) (tarPath sumPath : String) (w : os.World) :
    Option String :=
  match os.readFile (env.fault .readSum) w sumPath with
  | .error e => some e
  | .ok sumText =>
    match fields sumText with
    | [] => some "invalid sha256 file"
    | first :: _ =>
      let want := toLower lo (trimSpace first)
      match os.readFile (env.fault .openTar) w tarPath with
      | .error e => some e
      | .ok archive =>
        let got := env.sha256hex archive
        if got ≠ want then some ("sha256 mismatch got=" ++ got ++ " want=" ++ want)
        else none

/-- The loop of `extractSingleBinary` (updater.go:322-345) over the entries left. -/
def extractFrom (env : Env) (outPath : String) :
    List (Except String (String × String)) → os.World → Option String × os.World
  | [], w => (some "binary not found in archive", w)
  | .error e :: _, w => (some e, w)
  | .ok entry :: rest, w =>
    if pathBase entry.1 ≠ "os-updates-exporter" then extractFrom env outPath rest w
    else os.exec (.create outPath entry.2) (env.fault .extract) w

/-- Go `extractSingleBinary` (updater.go:308). -/
def extractSingleBinary (env : Env) (tarGzPath outPath : String) (w : os.World) :
    Option String × os.World :=
  match os.readFile (env.fault .openArchive) w tarGzPath with
  | .error e => (some e, w)
  | .ok content =>
    match env.untar content with
    | .error e => (some e, w)
    | .ok entries => extractFrom env outPath entries w

/-- The state `persistUpdaterState` hands to `SaveAtomic` (updater.go:144-152). -/
def updaterStatus (u : Updater) (env : Env) (updateAvailable lastSuccess : Bool)
    (w : os.World) : state.State :=
  let st :=
    match state.Load (os.readFile (env.fault .loadState) w) env.unmarshal u.cfg.StateFile with
    | .ok s => s
    | .error _ => state.New
  { st with LastUpdateCheckTS := env.now, LastUpdateAvailable := updateAvailable,
            LastUpdateRunTS := env.now, LastUpdateRunSuccess := lastSuccess }

/-- The call of `state.SaveAtomic` in `persistUpdaterState` (updater.go:153): its error
and the world after it. -/
def persistSave (u : Updater) (env : Env) (updateAvailable lastSuccess : Bool)
    (w : os.World) : Option String × os.World :=
  state.SaveAtomic env.marshal env.save u.cfg.StateFile
    (updaterStatus u env updateAvailable lastSuccess w) w

/-- Go `(*Updater).persistUpdaterState` (updater.go:143): the error of the save is
dropped; the invocation is recorded in `persists`. -/
def persistUpdaterState (u : Updater) (env : Env) (updateAvailable lastSuccess : Bool)
    (w : os.World) : os.World :=
  let saved := (persistSave u env updateAvailable lastSuccess w).2
  { saved with persists := saved.persists ++ [(updateAvailable, lastSuccess)] }

/-- How `Run` ends, and the world it leaves. -/
structure Outcome where
  result : Completion RunResult
  world : os.World

/-- The asset name of `Run` (updater.go:75). -/
def assetName (u : Updater) (env : Env) : String := u.cfg.AssetPrefix ++ env.arch ++ ".tar.gz"

/-- The path the archive is downloaded to (updater.go:87). -/
def archivePath (u : Updater) (env : Env) : String := pathJoin tmpDir (assetName u env)

/-- The path the checksum file is downloaded to (updater.go:98). -/
def checksumPath (u : Updater) (env : Env) : String := archivePath u env ++ ".sha256"

/-- Go `Run`, updater.go:74-107: asset resolution, download and checksum verification.
The path of the verified archive, or the error returned after `persistUpdaterState`, or
the panic of a request that could not be built. -/
def acquire (lo : Char → Char) (u : Updater) (env : Env) (latest : String) (w : os.World) :
    Completion String × os.World :=
  match (resolveAssetURLs u env latest (assetName u env)).1 with
  | .panic m => (.panic m, w)
  | .error e => (.error e, persistUpdaterState u env true false w)
  | .ok urls =>
    let w1 := (os.exec (.mkdirAll tmpDir 0o750) (env.fault .mkTmp) w).2
    let d1 := downloadTo env .getTar urls.1 (archivePath u env) w1
    match d1.1 with
    | .panic m => (.panic m, d1.2)
    | .error e => (.error e, persistUpdaterState u env true false d1.2)
    | .ok _ =>
      if u.cfg.ChecksumRequired = true then
        if urls.2 = "" then
          (.error "checksum required but checksum URL is empty",
           persistUpdaterState u env true false d1.2)
        else
          let d2 := downloadTo env .getSum urls.2 (checksumPath u env) d1.2
          match d2.1 with
          | .panic m => (.panic m, d2.2)
          | .error e => (.error e, persistUpdaterState u env true false d2.2)
          | .ok _ =>
            match verifySha256 lo env (archivePath u env) (checksumPath u env) d2.2 with
            | some e => (.error e, persistUpdaterState u env true false d2.2)
            | none => (.ok (archivePath u env), d2.2)
      else (.ok (archivePath u env), d1.2)

/-- Go `Run`, updater.go:111-127: the binary extracted to the staging path and made
executable. The error is returned after `persistUpdaterState`. -/
def stageBinary (u : Updater) (env : Env) (tarPath : String) (w : os.World) :
    Option String × os.World :=
  let w1 := (os.exec (.mkdirAll targetDir 0o755) (env.fault .mkTarget) w).2
  let w2 := (os.exec (.remove newBin) (env.fault .rmStaged) w1).2
  let x := extractSingleBinary env tarPath newBin w2
  match x.1 with
  | some e => (some e, persistUpdaterState u env true false x.2)
  | none =>
    let c := os.exec (.chmod newBin 0o755) (env.fault .chmod) x.2
    match c.1 with
    | some e => (some e, persistUpdaterState u env true false c.2)
    | none => (none, c.2)

/-- Go `Run`, updater.go:129-130: an old backup removed and the live binary renamed to the
backup path. The error of the rename, which `Run` discards, and the world after it. -/
def setAside (env : Env) (w : os.World) : Option String × os.World :=
  let w1 := (os.exec (.remove backup) (env.fault .rmBackup) w).2
  os.exec (.rename target backup) (env.fault .backupLive) w1

/-- Go `Run`, updater.go:129-137: the live binary moved to the backup path and the
staged file renamed onto the live path, with the backup restored when that rename
fails. The error is returned after `persistUpdaterState`. -/
def replace (u : Updater) (env : Env) (w : os.World) : Option String × os.World :=
  let w2 := (setAside env w).2
  let r := os.exec (.rename newBin target) (env.fault .install) w2
  match r.1 with
  | some e =>
    let w3 := (os.exec (.remove target) (env.fault .rmLive) r.2).2
    let w4 := (os.exec (.rename backup target) (env.fault .restore) w3).2
    (some ("updater run: rename failed: " ++ e), persistUpdaterState u env true false w4)
  | none => (none, r.2)

/-- Go `(*Updater).Run` (updater.go:63). A panic ends `Run` where it is raised. -/
def Run (lo : Char → Char) (u : Updater) (env : Env) (w : os.World) : Outcome :=
  match Check u env with
  | .panic m => { result := .panic m, world := w }
  | .error e => { result := .error e, world := persistUpdaterState u env false false w }
  | .ok cr =>
    if cr.UpdateAvailable = false then
      { result := .ok { Current := cr.Current, Latest := cr.Latest, Updated := false },
        world := persistUpdaterState u env false true w }
    else
      let a := acquire lo u env cr.Latest w
      match a.1 with
      | .panic m => { result := .panic m, world := a.2 }
      | .error e => { result := .error e, world := a.2 }
      | .ok tarPath =>
        let s := stageBinary u env tarPath a.2
        match s.1 with
        | some e => { result := .error e, world := s.2 }
        | none =>
          let r := replace u env s.2
          match r.1 with
          | some e => { result := .error e, world := r.2 }
          | none =>
            { result := .ok { Current := cr.Current, Latest := cr.Latest, Updated := true },
              world := persistUpdaterState u env true true r.2 }

/-- The URLs for which `acquire` may build a request: those of the three spellings of
the tag, the URL of the archive and, when a checksum is required, the URL of the
checksum file, as `resolveAssetURLs` returns them. -/
def acquireURLs (u : Updater) (env : Env) (latest : String) : List String :=
  tagURLs u.cfg.GitHubRepo (trimSpace latest) ++
    (match (resolveAssetURLs u env latest (assetName u env)).1 with
     | .ok urls =>
       if u.cfg.ChecksumRequired = true ∧ urls.2 ≠ "" then [urls.1, urls.2] else [urls.1]
     | _ => [])

/-- The URLs for which `Run` may build a request: the URL of the latest release unless
the channel is pinned, and those of `acquire` when `Check` finds an update. -/
def requestURLs (u : Updater) (env : Env) : List String :=
  (if trimSpace u.cfg.UpdateChannel ≠ "" ∧ trimSpace u.cfg.UpdateChannel ≠ "latest" ∧
      trimSpace u.cfg.UpdateChannel ≠ "0" then []
   else [latestURL u.cfg.GitHubRepo]) ++
  (match Check u env with
   | .ok cr => if cr.UpdateAvailable = true then acquireURLs u env cr.Latest else []
   | _ => [])

end updater

namespace updater

/-- The GET of attempt `i` in `resolveAssetURLs` returns a response whose status is below
400, the test that ends the loop (updater.go:212-217). -/
def answered (env : Env) (i : Nat) : Bool :=
  match env.release i with
  | .ok resp => decide (resp.StatusCode < 400)
  | .error _ => false

end updater

namespace os

/-- From the world `w` to the world `w'` only calls naming paths of `paths` were made,
and every file outside `paths` is as it was. -/
def Confined (paths : List String) (w w' : World) : Prop :=
  (∃ l, w'.steps = w.steps ++ l ∧ ∀ st ∈ l, ∀ p ∈ st.call.paths, p ∈ paths) ∧
  (∀ q, q ∉ paths → w'.files.read q = w.files.read q)

end os

namespace updater

/-- The hash a checksum file declares, as `verifySha256` reads it (updater.go:285-289):
its first field, trimmed and lower-cased; `none` when the file has no field. -/
def declaredSum (lo : Char → Char) (sumText : String) : Option String :=
  match fields sumText with
  | [] => none
  | first :: _ => some (toLower lo (trimSpace first))

/-- The live install path, its staging path and its backup path. -/
def installPaths : List String := [target, newBin, backup]

/-- The paths `persistUpdaterState` names through `SaveAtomic`. -/
def statePaths (u : Updater) : List String :=
  [pathDir u.cfg.StateFile, u.cfg.StateFile ++ ".tmp", u.cfg.StateFile]

/-- The paths `Run` names before the checksum is verified. -/
def scratchPaths (u : Updater) (env : Env) : List String :=
  [tmpDir, archivePath u env, checksumPath u env]

end updater

namespace state

/-- Consecutive calls of `UpdateOldestSeen` on one manager and category, one for each
pair `(pending, now)` of `calls` in order: the ages returned and the state after the
last call. -/
def updateOldestSeenAll (s : State) (manager typ : String) : List (Int × Int) → List Int × State
  | [] => ([], s)
  | call :: rest =>
    let first := UpdateOldestSeen s manager typ call.1 call.2
    let later := updateOldestSeenAll first.2 manager typ rest
    (first.1 :: later.1, later.2)

end state

namespace metrics

/-- The values of the samples of `os_updates_scrape_success` in a snapshot, in the order
they were written. -/
def scrapeSuccessValues (lines : List Line) : List Num :=
  lines.filterMap fun l =>
    match l with
    | .sample name _ v => if name = "os_updates_scrape_success" then some v else none
    | _ => none

/-- What the overall success of a scrape is decided from: the stage errors recorded, the
field `scrapeSet`, and the values of `os_updates_scrape_success` written so far. -/
def successState (r : Registry) : List (String × Bool) × Bool × List Num :=
  (r.stageErrors, r.scrapeSet, scrapeSuccessValues r.buf)

end metrics

namespace cmd

/-- The stages of `run` that fail under the fail-closed policy: the state load, the
collection, or the repository check when it is made. -/
def stageFailed (lo : Char → Char) (cfg : config.Config) (env : Env) : Bool :=
  (match state.Load env.readFile env.unmarshal cfg.StateFile with
   | .error _ => true
   | .ok _ => false) ||
  (collector.Collect lo env.probe).2.isSome ||
  (!cfg.OfflineMode && env.checkRepos.2.isSome)

end cmd

/-! ## Repository sources (`internal/collector/repo.go`) -/

namespace collector

/-- An entry `filepath.Walk` hands to its callback: the path, whether the walk reports
an error or no file information for it, whether it is a directory, and the outcome of
`os.ReadFile` on it. -/
structure WalkEntry where
  path : String
  failed : Bool
  isDir : Bool
  read : Except String String

/-- One `if` of the loop of `parseYumRepos` (repo.go:111-117 for `baseurl=`, 118-124 for
`mirrorlist=`): when the trimmed line starts with the key, the first field of the
trimmed value is taken by `strings.Fields(u)[0]`, which panics for a value without a
field, and is appended when it starts with `http`. -/
def yumValue (ln key : String) (out : List String) : Completion (List String) :=
  if hasPrefix ln key = true then
    match fields (trimSpace (trimPrefix ln key)) with
    | [] => .panic indexOutOfRange
    | u :: _ => if hasPrefix u "http" = true then .ok (out ++ [u]) else .ok out
  else .ok out

/-- The loop over the lines of one file (repo.go:109-125). -/
def yumLines : List String → List String → Completion (List String)
  | [], out => .ok out
  | ln :: rest, out =>
    match yumValue (trimSpace ln) "baseurl=" out with
    | .ok out1 =>
      match yumValue (trimSpace ln) "mirrorlist=" out1 with
      | .ok out2 => yumLines rest out2
      | .error e => .error e
      | .panic m => .panic m
    | .error e => .error e
    | .panic m => .panic m

/-- The callback of the walk in `parseYumRepos` (repo.go:103-128) over the entries left:
only regular files whose path ends in `.repo` and that can be read are parsed. A panic
of the callback unwinds the walk. -/
def yumWalk : List WalkEntry → List String → Completion (List String)
  | [], out => .ok out
  | entry :: rest, out =>
    if entry.failed = false ∧ entry.isDir = false ∧ hasSuffix entry.path ".repo" = true then
      match entry.read with
      | .error _ => yumWalk rest out
      | .ok b =>
        match yumLines (splitNewline b.data []) out with
        | .ok out1 => yumWalk rest out1
        | .error e => .error e
        | .panic m => .panic m
    else yumWalk rest out

/-- Go `parseYumRepos` (repo.go:101) for the entries of the walk of `/etc/yum.repos.d`. -/
def parseYumRepos (walk : List WalkEntry) : Completion (List String) := yumWalk walk []

end collector

/-! ## Sample inputs -/

namespace collector

/-- A Debian host: `apt` is installed, seven updates are pending, two of them security
updates, and a new kernel image asks for a reboot. -/
def debianHost : Probe :=
  { osInfo := ("Debian GNU/Linux", "12"),
    hasBin := fun b => b == "apt-get" || b == "apt",
    collectAPT := { all := 7, sec := 2, bug := 5, err := none },
    collectDNF := { all := 0, sec := 0, bug := 0, err := none },
    collectYUM := { all := 0, sec := 0, bug := 0, err := none },
    collectZYPPER := { all := 0, sec := 0, bug := 0, err := none },
    reboot :=
      { rebootRequired := true,
        rebootPkgs := some "linux-image-6.1.0-18-amd64",
        has := fun _ => false,
        needsRestarting := "",
        zypperPs := "" } }

end collector

namespace cmd

/-- A first scrape of `collector.debianHost` with the default configuration: no state
file exists yet, the repositories answer, and every write succeeds. -/
def firstRun : Env :=
  { loadFromEnv := .ok config.defaults,
    acquire := none,
    readFile := fun _ => .error "open /var/lib/os-updates-exporter/state.json: no such file",
    unmarshal := fun _ => .error "unexpected end of JSON input",
    probe := collector.debianHost,
    checkRepos := ({ Valid := true, Total := 3, Unreachable := 0,
                     MetadataAgeSeconds := ⟨0⟩, HeadLatencySeconds := ⟨0⟩ }, none),
    clock := { hour := 12, minute := 0 },
    readings := ({ hour := 12, minute := 0 }, { hour := 12, minute := 0 },
                 { hour := 12, minute := 0 }),
    unixNow := 1700000000,
    lastRun := 1700000001,
    sinceStart := 1500000000,
    sinceLock := 1000000,
    sinceState := 1000000,
    sincePkgmgr := 900000000,
    sinceRepo := 500000000,
    sinceWrite := 2000000,
    writeTextfile := none,
    saveAtomic := none }

end cmd

namespace updater

/-- A host on which release `v1.3.0` is published for a build that runs `1.2.3`: a URL
parses unless it holds a percent sign, the feed answers every request, the checksum
file declares the digest of the archive, the archive holds the binary, and no call on
the file system fails. -/
def published : Env :=
  { arch := "amd64",
    now := 1700000000,
    parses := fun url => decide ('%' ∉ url.data),
    latest := .ok { StatusCode := 200, body := .ok "v1.3.0" },
    release := fun _ =>
      .ok { StatusCode := 200,
            body := .ok [ { Name := "os-updates-exporter_Linux_amd64.tar.gz",
                            BrowserDownloadURL := "https://example.org/exporter.tar.gz" },
                          { Name := "os-updates-exporter_Linux_amd64.tar.gz.sha256",
                            BrowserDownloadURL := "https://example.org/exporter.sha256" } ] },
    fetch := fun site =>
      if site = Site.getSum then
        .ok { StatusCode := 200, body := "ab12  os-updates-exporter_Linux_amd64.tar.gz" }
      else .ok { StatusCode := 200, body := "archive-1.3.0" },
    sha256hex := fun content => if content = "archive-1.3.0" then "ab12" else "ffff",
    untar := fun _ => .ok [.ok ("README.md", "readme"), .ok ("./os-updates-exporter", "binary-1.3.0")],
    fault := fun _ => os.Fault.pass,
    unmarshal := fun _ => .error "unexpected end of JSON input",
    marshal := fun st => .ok (if st.LastUpdateRunSuccess then "success" else "failure"),
    save := os.AtomicFaults.pass }

/-- The updater of a build `1.2.3` under the default configuration. -/
def running : Updater := { cfg := config.defaults, current := "1.2.3" }

/-- The updater of a build `1.2.3` whose update channel is pinned to `channel`. -/
def pinned (channel : String) : Updater :=
  { cfg := { config.defaults with UpdateChannel := channel }, current := "1.2.3" }

/-- A file system on which version 1.2.3 is installed at the live path. -/
def installed : os.World :=
  { files := [(target, "binary-1.2.3")], steps := [], persists := [] }

end updater

namespace updater

/-- The host `published` with a feed that does not know the first spelling of the tag:
attempt 0 is answered with status 404, the later attempts as in `published`. -/
def retagged : Env :=
  { published with
    release := fun i =>
      if i = 0 then .ok { StatusCode := 404, body := .error "unexpected end of JSON input" }
      else published.release i }

/-- The host `published` with a checksum file that declares another digest than the one
of the archive. -/
def tampered : Env :=
  { published with
    fetch := fun site =>
      if site = Site.getSum then
        .ok { StatusCode := 200, body := "0000  os-updates-exporter_Linux_amd64.tar.gz" }
      else published.fetch site }

/-- The host `published` on which the rename of the staged file onto the live path is
refused. -/
def stuck : Env :=
  { published with
    fault := fun site =>
      if site = Site.install then os.Fault.refuse "rename: text file busy" else os.Fault.pass }

/-- The host `published` on which the directory of the state file cannot be created. -/
def readOnly : Env :=
  { published with
    save := { mkdir := os.Fault.refuse "mkdir /var/lib/os-updates-exporter: read-only file system",
              write := os.Fault.pass, rename := os.Fault.pass } }

/-- The host `published` with a feed that knows no spelling of the tag. -/
def untagged : Env :=
  { published with
    release := fun _ => .ok { StatusCode := 404, body := .error "unexpected end of JSON input" } }

end updater

namespace cmd

/-- The scrape `firstRun` under the fail-closed policy. -/
def strictRun : Env :=
  { firstRun with loadFromEnv := .ok { config.defaults with FailOpen := false } }

/-- The scrape `firstRun` while another process holds the lock. -/
def busyRun : Env :=
  { firstRun with acquire := some "lock busy: resource temporarily unavailable" }

end cmd

namespace collector

/-- A repository file of a dnf host with a mirror URL. -/
def mirrored : List WalkEntry :=
  [ { path := "/etc/yum.repos.d", failed := false, isDir := true,
      read := .error "read /etc/yum.repos.d: is a directory" },
    { path := "/etc/yum.repos.d/base.repo", failed := false, isDir := false,
      read := .ok "[base]\nname=Base\nbaseurl=https://mirror.example.org/os/\nenabled=1\n" } ]

/-- The repository files `mirrored` and one more file, in which the value of `baseurl`
is empty. -/
def unset : List WalkEntry :=
  mirrored ++
  [ { path := "/etc/yum.repos.d/local.repo", failed := false, isDir := false,
      read := .ok "[local]\nname=Local\nbaseurl=\nenabled=0\n" } ]

end collector

/-! # Properties -/

/-! ## Go primitives -/

theorem wrapInt_of_fitsInt {x : Int} (h : fitsInt x) : wrapInt x = x := by
  unfold fitsInt at h
  unfold wrapInt
  omega

theorem wrapInt_add_wrapInt (a b : Int) : wrapInt (wrapInt a + wrapInt b) = wrapInt (a + b) := by
  unfold wrapInt
  omega

theorem wrapInt_add_left (a b : Int) : wrapInt (a + wrapInt b) = wrapInt (a + b) := by
  unfold wrapInt
  omega

theorem wrapInt_wrapInt (a : Int) : wrapInt (wrapInt a) = wrapInt a := by
  unfold wrapInt
  omega

theorem fitsInt_of_fitsFloat64 {x : Int} (h : fitsFloat64 x) : fitsInt x := by
  unfold fitsFloat64 at h
  unfold fitsInt
  omega

theorem significandShift_small {n : Nat} (h : n < 2 ^ 53) : significandShift n = 0 := by
  unfold significandShift
  rw [List.length_eq_zero, List.filter_eq_nil_iff]
  intro k _
  have hle : 2 ^ 53 ≤ 2 ^ (53 + k) := Nat.pow_le_pow_right (by decide) (Nat.le_add_right 53 k)
  simp only [decide_eq_true_eq]
  omega

/-- The conversion to `float64` is exact up to magnitude `2 ^ 53`. -/
theorem float64OfInt_exact {x : Int} (h : fitsFloat64 x) : float64OfInt x = x := by
  unfold fitsFloat64 at h
  by_cases hsmall : x.natAbs < 2 ^ 53
  · unfold float64OfInt
    simp only [significandShift_small hsmall, pow_zero, Nat.div_one, Nat.mod_one, mul_zero,
      mul_one]
    have hq : (if (0 : Nat) > 1 ∨ (0 : Nat) = 1 ∧ x.natAbs % 2 = 1 then x.natAbs + 1
        else x.natAbs) = x.natAbs := by
      rw [if_neg]
      omega
    rw [hq]
    split_ifs <;> omega
  · have hx : x = 2 ^ 53 ∨ x = -(2 ^ 53) := by omega
    rcases hx with hx | hx <;> subst hx <;> decide

/-- Beyond `2 ^ 53` the conversion rounds: `float64(2^53 + 1)` is `2^53`, and
`float64(2^53 + 3)` is `2^53 + 4`. -/
theorem float64OfInt_rounds :
    float64OfInt (2 ^ 53 + 1) = 2 ^ 53 ∧ float64OfInt (2 ^ 53 + 3) = 2 ^ 53 + 4 ∧
    float64OfInt (-(2 ^ 53 + 1)) = -(2 ^ 53) := by
  decide

theorem mapIndex_mapAssign_self {β : Type} (zero : β) (m : List (String × β)) (k : String)
    (v : β) : mapIndex zero (mapAssign m k v) k = v := by
  simp [mapIndex, mapAssign, List.lookup]

theorem lookup_filter_ne {β : Type} (m : List (String × β)) (k j : String) (h : j ≠ k) :
    List.lookup j (m.filter (fun e => e.1 != k)) = List.lookup j m := by
  induction m with
  | nil => rfl
  | cons e rest ih =>
    obtain ⟨a, b⟩ := e
    by_cases hak : a = k
    · subst hak
      have hja : (j == a) = false := by simpa using h
      simp [List.filter, List.lookup, hja, ih]
    · have hne : (a != k) = true := by simpa using hak
      simp only [List.filter, hne, List.lookup]
      cases hj : (j == a) <;> simp [ih]

theorem mapIndex_mapAssign_ne {β : Type} (zero : β) (m : List (String × β)) (k j : String)
    (v : β) (h : j ≠ k) : mapIndex zero (mapAssign m k v) j = mapIndex zero m j := by
  have hjk : (j == k) = false := by simpa using h
  simp [mapIndex, mapAssign, List.lookup, hjk, lookup_filter_ne m k j h]

namespace state

theorem getManager_setManager_self (s : State) (name : String) (ms : ManagerState) :
    GetManager (some (SetManager s name ms)) name = ms := by
  unfold GetManager SetManager
  cases s.Managers <;> simp [mapIndex_mapAssign_self]

theorem getManager_setManager_ne (s : State) (name other : String) (ms : ManagerState)
    (h : other ≠ name) :
    GetManager (some (SetManager s name ms)) other = GetManager (some s) other := by
  unfold GetManager SetManager
  cases hm : s.Managers with
  | none =>
    simp only [hm]
    rw [mapIndex_mapAssign_ne _ _ _ _ _ h]
    rfl
  | some m =>
    simp only [hm]
    rw [mapIndex_mapAssign_ne _ _ _ _ _ h]

theorem oldestField_setOldestField (typ : String) (ms : ManagerState) (v : Int) :
    oldestField typ (setOldestField typ ms v) = v := by
  unfold oldestField setOldestField
  split_ifs <;> rfl

/-- The aging timestamp stored after `UpdateOldestSeen`, by the branch taken. -/
theorem oldest_updateOldestSeen (s : State) (manager typ : String) (pending now : Int) :
    Oldest (some (UpdateOldestSeen s manager typ pending now).2) manager typ =
      if pending ≤ 0 then 0
      else if Oldest (some s) manager typ = 0 then now
      else Oldest (some s) manager typ := by
  unfold UpdateOldestSeen Oldest ensureManager
  simp only
  split_ifs <;> simp_all [getManager_setManager_self, oldestField_setOldestField]

/-- The age returned by `UpdateOldestSeen`, by the branch taken. -/
theorem age_updateOldestSeen (s : State) (manager typ : String) (pending now : Int) :
    (UpdateOldestSeen s manager typ pending now).1 =
      if pending ≤ 0 then 0
      else if Oldest (some s) manager typ = 0 then 0
      else float64OfInt (wrapInt (now - Oldest (some s) manager typ)) := by
  unfold UpdateOldestSeen Oldest ensureManager
  simp only
  split_ifs <;> simp_all

end state

namespace metrics

theorem buf_write (r : Registry) (name : String) (labels : List (String × String))
    (v : Num) : (write r name labels v).buf = r.buf ++ [Line.sample name labels v] := rfl

theorem buf_emitHelpType (r : Registry) (name help typ : String) :
    (emitHelpType r name help typ).buf =
      r.buf ++ (if mapIndex false r.helpEmitted name = true then []
                else [Line.help name help, Line.type name typ]) := by
  unfold emitHelpType
  split_ifs <;> simp

/-! ### The registry buffer only grows -/

theorem prefix_emitHelpType (r : Registry) (name help typ : String) :
    r.buf <+: (emitHelpType r name help typ).buf := by
  rw [buf_emitHelpType]
  exact List.prefix_append _ _

theorem prefix_write (r : Registry) (name : String) (labels : List (String × String))
    (v : Num) : r.buf <+: (write r name labels v).buf := by
  rw [buf_write]
  exact List.prefix_append _ _

theorem prefix_emit_write (r : Registry) (name help typ metric : String)
    (labels : List (String × String)) (v : Num) :
    r.buf <+: (write (emitHelpType r name help typ) metric labels v).buf :=
  (prefix_emitHelpType r name help typ).trans (prefix_write _ _ _ _)

theorem prefix_SetInfo (r : Registry) (a b c d : String) (t : Int) :
    r.buf <+: (SetInfo r a b c d t).buf := prefix_emit_write _ _ _ _ _ _ _

theorem prefix_SetPending (r : Registry) (a b : String) (v : Int) :
    r.buf <+: (SetPending r a b v).buf := prefix_emit_write _ _ _ _ _ _ _

theorem prefix_SetNewPending (r : Registry) (a b : String) (v : Int) :
    r.buf <+: (SetNewPending r a b v).buf := prefix_emit_write _ _ _ _ _ _ _

theorem prefix_SetOldestAge (r : Registry) (a b : String) (v : Int) :
    r.buf <+: (SetOldestAge r a b v).buf := prefix_emit_write _ _ _ _ _ _ _

theorem prefix_SetReboot (r : Registry) (b : Bool) :
    r.buf <+: (SetReboot r b).buf := prefix_emit_write _ _ _ _ _ _ _

theorem prefix_SetRebootReason (lo : Char → Char) (r : Registry) (reason : String) :
    r.buf <+: (SetRebootReason lo r reason).buf := by
  unfold SetRebootReason reasons
  simp only [List.foldl]
  exact (prefix_emitHelpType r _ _ _).trans
    ((prefix_write _ _ _ _).trans ((prefix_write _ _ _ _).trans ((prefix_write _ _ _ _).trans
      ((prefix_write _ _ _ _).trans (prefix_write _ _ _ _)))))

theorem prefix_SetMaintenanceWindow (r : Registry) (b : Bool) :
    r.buf <+: (SetMaintenanceWindow r b).buf := prefix_emit_write _ _ _ _ _ _ _

theorem prefix_SetCompliant (r : Registry) (b : Bool) :
    r.buf <+: (SetCompliant r b).buf := prefix_emit_write _ _ _ _ _ _ _

theorem prefix_SetCompliantEffective (r : Registry) (b : Bool) :
    r.buf <+: (SetCompliantEffective r b).buf := prefix_emit_write _ _ _ _ _ _ _

theorem prefix_SetRiskScore (r : Registry) (a : String) (v : Int) :
    r.buf <+: (SetRiskScore r a v).buf := prefix_emit_write _ _ _ _ _ _ _

theorem prefix_SetRepoTotals (r : Registry) (a : String) (t u : Int) :
    r.buf <+: (SetRepoTotals r a t u).buf :=
  (prefix_emit_write r _ _ _ _ _ _).trans (prefix_emit_write _ _ _ _ _ _ _)

theorem prefix_SetRepoNewlyUnreachable (r : Registry) (a : String) (v : Int) :
    r.buf <+: (SetRepoNewlyUnreachable r a v).buf := prefix_emit_write _ _ _ _ _ _ _

theorem prefix_SetRepoMetadataAge (r : Registry) (a : String) (x : Float64) :
    r.buf <+: (SetRepoMetadataAge r a x).buf := prefix_emit_write _ _ _ _ _ _ _

theorem prefix_SetRepoHeadLatency (r : Registry) (a : String) (x : Float64) :
    r.buf <+: (SetRepoHeadLatency r a x).buf := prefix_emit_write _ _ _ _ _ _ _

theorem prefix_SetStageError (r : Registry) (stage : String) (enable : Bool) :
    r.buf <+: (SetStageError r stage enable).buf := by
  unfold SetStageError
  cases enable
  · exact prefix_emit_write _ _ _ _ _ _ _
  · exact (prefix_emitHelpType r _ _ _).trans (prefix_write _ _ _ _)

theorem prefix_SetScrapeSuccess (r : Registry) (ok : Bool) :
    r.buf <+: (SetScrapeSuccess r ok).buf := prefix_emit_write _ _ _ _ _ _ _

theorem prefix_SetLastRun (r : Registry) (t : Int) :
    r.buf <+: (SetLastRun r t).buf := prefix_emit_write _ _ _ _ _ _ _

theorem prefix_SetStageDuration (r : Registry) (stage : String) (d : Int) :
    r.buf <+: (SetStageDuration r stage d).buf := prefix_emit_write _ _ _ _ _ _ _

theorem prefix_SetRunDurations (r : Registry) (d : Int) :
    r.buf <+: (SetRunDurations r d).buf :=
  (prefix_emit_write r _ _ _ _ _ _).trans (prefix_SetStageDuration _ _ _)

end metrics

namespace cmd

theorem prefix_populate (cfg : config.Config) (r : metrics.Registry) (res : collector.Result) :
    r.buf <+: (populate cfg r res).buf :=
  (metrics.prefix_SetInfo r _ _ _ _ _).trans ((metrics.prefix_SetPending _ _ _ _).trans
    ((metrics.prefix_SetPending _ _ _ _).trans (metrics.prefix_SetPending _ _ _ _)))

theorem prefix_deltas (r : metrics.Registry) (res : collector.Result)
    (prev : state.ManagerState) : r.buf <+: (deltas r res prev).buf :=
  (metrics.prefix_SetNewPending r _ _ _).trans ((metrics.prefix_SetNewPending _ _ _ _).trans
    (metrics.prefix_SetNewPending _ _ _ _))

theorem prefix_aging (r : metrics.Registry) (res : collector.Result) (ages : Int × Int × Int) :
    r.buf <+: (aging r res ages).buf :=
  (metrics.prefix_SetOldestAge r _ _ _).trans ((metrics.prefix_SetOldestAge _ _ _ _).trans
    (metrics.prefix_SetOldestAge _ _ _ _))

theorem prefix_repoMetrics (r : metrics.Registry) (res : collector.Result)
    (prev : state.ManagerState) : r.buf <+: (repoMetrics r res prev).buf := by
  unfold repoMetrics
  split_ifs
  · exact (metrics.prefix_SetRepoTotals r _ _ _).trans
      ((metrics.prefix_SetRepoNewlyUnreachable _ _ _).trans
        ((metrics.prefix_SetRepoMetadataAge _ _ _).trans (metrics.prefix_SetRepoHeadLatency _ _ _)))
  · exact List.prefix_refl _

theorem prefix_verdicts (lo : Char → Char) (cfg : config.Config) (clk : config.Clock)
    (ec : config.Clock × config.Clock × config.Clock)
    (r : metrics.Registry) (res : collector.Result) :
    r.buf <+: (verdicts lo cfg clk ec r res).buf :=
  (metrics.prefix_SetReboot r _).trans ((metrics.prefix_SetRebootReason lo _ _).trans
    ((metrics.prefix_SetMaintenanceWindow _ _).trans ((metrics.prefix_SetCompliant _ _).trans
      ((metrics.prefix_SetCompliantEffective _ _).trans (metrics.prefix_SetRiskScore _ _ _)))))

theorem prefix_conclude (cfg : config.Config) (env : Env) (r : metrics.Registry) :
    r.buf <+: (conclude cfg env r).buf := by
  unfold conclude
  simp only
  split_ifs
  · exact (metrics.prefix_SetLastRun r _).trans ((metrics.prefix_SetRunDurations _ _).trans
      (metrics.prefix_SetScrapeSuccess _ _))
  · exact (metrics.prefix_SetLastRun r _).trans (metrics.prefix_SetRunDurations _ _)

theorem prefix_prepared (lo : Char → Char) (cfg : config.Config) (env : Env) :
    (deltas (populate cfg (collectStage lo cfg env (loadState cfg env).1).1
        (prepare lo cfg env).res) (prepare lo cfg env).res
        (state.GetManager (some (loadState cfg env).2) (prepare lo cfg env).res.Manager)).buf <+:
      (prepare lo cfg env).reg.buf := by
  unfold prepare
  simp only
  exact (prefix_aging _ _ _).trans ((prefix_repoMetrics _ _ _).trans
    ((prefix_verdicts _ _ _ _ _ _).trans (prefix_conclude _ _ _)))

theorem mem_deltas (r : metrics.Registry) (res : collector.Result) (prev : state.ManagerState) :
    metrics.Line.sample "os_new_pending_updates" [("manager", res.Manager), ("type", "all")]
        (metrics.Num.int (newPending res.PendingAll prev.PendingAll)) ∈ (deltas r res prev).buf ∧
    metrics.Line.sample "os_new_pending_updates" [("manager", res.Manager), ("type", "security")]
        (metrics.Num.int (newPending res.PendingSecurity prev.PendingSecurity)) ∈
      (deltas r res prev).buf ∧
    metrics.Line.sample "os_new_pending_updates" [("manager", res.Manager), ("type", "bugfix")]
        (metrics.Num.int (newPending res.PendingBugfix prev.PendingBugfix)) ∈
      (deltas r res prev).buf := by
  unfold deltas
  simp [metrics.SetNewPending, metrics.buf_write, metrics.buf_emitHelpType, List.mem_append]

/-- Once the configuration loads and the lock is taken, the first effect of `run` is the
write of the prepared snapshot. -/
theorem run_events (lo : Char → Char) (env : Env) (cfg : config.Config)
    (hcfg : env.loadFromEnv = .ok cfg) (hlock : env.acquire = none) :
    cmd.Event.writeTextfile cfg.TextfileDir (metrics.Render (prepare lo cfg env).reg)
      cfg.FileMode ∈ (run lo env).events := by
  unfold run finish
  rw [hcfg, hlock]
  simp only
  cases env.writeTextfile <;> cases env.saveAtomic <;> simp

theorem newPending_eq {cur prev : Int} (hc : 0 ≤ cur) (hp : 0 ≤ prev) (fc : fitsInt cur)
    (fp : fitsInt prev) : newPending cur prev = max 0 (cur - prev) := by
  unfold fitsInt at fc fp
  have hw : wrapInt (cur - prev) = cur - prev := wrapInt_of_fitsInt (by unfold fitsInt; omega)
  unfold newPending max0
  rw [hw]
  split_ifs with h
  · rw [max_eq_left (by omega)]
  · rw [max_eq_right (by omega)]

end cmd

namespace state

theorem getManager_absent (st : State) (name : String)
    (h : ∀ m, st.Managers = some m → List.lookup name m = none) :
    GetManager (some st) name = ManagerState.zero := by
  unfold GetManager
  cases hm : st.Managers with
  | none => simp only [hm]
  | some m => simp only [hm, mapIndex, h m hm, Option.getD_none]

end state

namespace cmd

/-- C1. For non-negative pending counts `cur` and `prev`, the value `run` passes to
`SetNewPending` is `max 0 (cur - prev)`: it is `cur - prev` when `cur >= prev`, `0`
otherwise, never negative; for a manager absent from the loaded state `GetManager`
returns the zero value and the reported growth is `cur` in each category; and a run that
takes the lock writes a snapshot holding the three samples so computed. -/
theorem newPending_clamped_growth (cur prev : Int) (hc : 0 ≤ cur) (hp : 0 ≤ prev)
    (fc : fitsInt cur) (fp : fitsInt prev) :
    newPending cur prev = max 0 (cur - prev) ∧
    (prev ≤ cur → newPending cur prev = cur - prev) ∧
    (cur < prev → newPending cur prev = 0) ∧
    0 ≤ newPending cur prev ∧
    (∀ (st : state.State) (name : String),
      (∀ m, st.Managers = some m → List.lookup name m = none) →
        state.GetManager (some st) name = state.ManagerState.zero ∧
        newPending cur (state.GetManager (some st) name).PendingAll = cur ∧
        newPending cur (state.GetManager (some st) name).PendingSecurity = cur ∧
        newPending cur (state.GetManager (some st) name).PendingBugfix = cur) ∧
    (∀ (lo : Char → Char) (env : Env) (cfg : config.Config),
      env.loadFromEnv = .ok cfg → env.acquire = none →
      ∃ content, Event.writeTextfile cfg.TextfileDir content cfg.FileMode ∈ (run lo env).events ∧
        ∀ prevState, prevState = state.GetManager (some (loadState cfg env).2)
            (prepare lo cfg env).res.Manager →
          metrics.Line.sample "os_new_pending_updates"
              [("manager", (prepare lo cfg env).res.Manager), ("type", "all")]
              (metrics.Num.int
                (newPending (prepare lo cfg env).res.PendingAll prevState.PendingAll)) ∈ content ∧
          metrics.Line.sample "os_new_pending_updates"
              [("manager", (prepare lo cfg env).res.Manager), ("type", "security")]
              (metrics.Num.int
                (newPending (prepare lo cfg env).res.PendingSecurity prevState.PendingSecurity)) ∈
            content ∧
          metrics.Line.sample "os_new_pending_updates"
              [("manager", (prepare lo cfg env).res.Manager), ("type", "bugfix")]
              (metrics.Num.int
                (newPending (prepare lo cfg env).res.PendingBugfix prevState.PendingBugfix)) ∈
            content) := by
  have hmain := newPending_eq hc hp fc fp
  have hzero : newPending cur 0 = cur := by
    have h0 := newPending_eq hc (le_refl 0) fc (by unfold fitsInt; omega)
    rw [h0, sub_zero, max_eq_right hc]
  refine ⟨hmain, ?_, ?_, ?_, ?_, ?_⟩
  · intro h
    rw [hmain, max_eq_right (by omega)]
  · intro h
    rw [hmain, max_eq_left (by omega)]
  · rw [hmain]
    exact le_max_left _ _
  · intro st name habs
    have hz := state.getManager_absent st name habs
    rw [hz]
    exact ⟨rfl, hzero, hzero, hzero⟩
  · intro lo env cfg hcfg hlock
    refine ⟨metrics.Render (prepare lo cfg env).reg, run_events lo env cfg hcfg hlock, ?_⟩
    intro prevState hprev
    subst hprev
    have hsub := (prefix_prepared lo cfg env).subset
    have hmem := mem_deltas (populate cfg (collectStage lo cfg env (loadState cfg env).1).1
      (prepare lo cfg env).res) (prepare lo cfg env).res
      (state.GetManager (some (loadState cfg env).2) (prepare lo cfg env).res.Manager)
    exact ⟨hsub hmem.1, hsub hmem.2.1, hsub hmem.2.2⟩

end cmd

namespace cmd

theorem newPending_clamped_growth_witness :
    newPending 7 4 = max 0 (7 - 4) ∧ newPending 4 7 = 0 :=
  ⟨(newPending_clamped_growth 7 4 (by decide) (by decide) (by decide) (by decide)).1,
   (newPending_clamped_growth 4 7 (by decide) (by decide) (by decide) (by decide)).2.2.1
     (by decide)⟩

end cmd

namespace state

/-- C2. For a pending count `pending >= 0`, `UpdateOldestSeen` has exactly one of three
outcomes on the stored aging timestamp `ts` of the category: `pending = 0`, then the
timestamp becomes 0 and the age is 0; `pending > 0` and `ts = 0`, then the timestamp
becomes `now` and the age is 0; `pending > 0` and `ts` non-zero, then the timestamp is
unchanged and the age is `now - ts`, for a difference `now - ts` of magnitude at most
`2 ^ 53`, which the conversion to `float64` of the returned age keeps exact. -/
theorem updateOldestSeen_outcomes (s : State) (manager typ : String) (pending now : Int)
    (hp : 0 ≤ pending) (hexact : fitsFloat64 (now - Oldest (some s) manager typ)) :
    (pending = 0 ∧
      Oldest (some (UpdateOldestSeen s manager typ pending now).2) manager typ = 0 ∧
      (UpdateOldestSeen s manager typ pending now).1 = 0) ∨
    (0 < pending ∧ Oldest (some s) manager typ = 0 ∧
      Oldest (some (UpdateOldestSeen s manager typ pending now).2) manager typ = now ∧
      (UpdateOldestSeen s manager typ pending now).1 = 0) ∨
    (0 < pending ∧ Oldest (some s) manager typ ≠ 0 ∧
      Oldest (some (UpdateOldestSeen s manager typ pending now).2) manager typ =
        Oldest (some s) manager typ ∧
      (UpdateOldestSeen s manager typ pending now).1 = now - Oldest (some s) manager typ) := by
  rw [oldest_updateOldestSeen, age_updateOldestSeen,
    wrapInt_of_fitsInt (fitsInt_of_fitsFloat64 hexact), float64OfInt_exact hexact]
  rcases eq_or_lt_of_le hp with h0 | hpos
  · left
    have hle : pending ≤ 0 := le_of_eq h0.symm
    simp [hle, h0.symm]
  · have hnle : ¬ pending ≤ 0 := not_le.mpr hpos
    by_cases hts : Oldest (some s) manager typ = 0
    · right; left
      simp [hnle, hts, hpos]
    · right; right
      simp [hnle, hts, hpos]

theorem updateOldestSeen_outcomes_witness :
    (UpdateOldestSeen (UpdateOldestSeen New "apt" "security" 2 1700000000).2
        "apt" "security" 3 1700003600).1 = 3600 ∧
    Oldest (some (UpdateOldestSeen (UpdateOldestSeen New "apt" "security" 2 1700000000).2
        "apt" "security" 3 1700003600).2) "apt" "security" = 1700000000 := by
  have h := updateOldestSeen_outcomes (UpdateOldestSeen New "apt" "security" 2 1700000000).2
    "apt" "security" 3 1700003600 (by decide) (by decide)
  rcases h with h | h | h
  · exact absurd h.1 (by decide)
  · exact absurd h.2.1 (by decide)
  · exact ⟨h.2.2.2.trans (by decide), h.2.2.1.trans (by decide)⟩

/-- C3, as the code has it. For a timestamp `now` other than 0, the aging timestamp
stored by `UpdateOldestSeen` is 0 exactly when `pending <= 0`; for a non-negative count
that is exactly when `pending` is 0. -/
theorem updateOldestSeen_zero_iff (s : State) (manager typ : String) (pending now : Int)
    (hnow : now ≠ 0) :
    (Oldest (some (UpdateOldestSeen s manager typ pending now).2) manager typ = 0 ↔
      pending ≤ 0) ∧
    (0 ≤ pending →
      (Oldest (some (UpdateOldestSeen s manager typ pending now).2) manager typ = 0 ↔
        pending = 0)) := by
  rw [oldest_updateOldestSeen]
  have key : (if pending ≤ 0 then (0 : Int)
      else if Oldest (some s) manager typ = 0 then now
      else Oldest (some s) manager typ) = 0 ↔ pending ≤ 0 := by
    split_ifs with h1 h2
    · exact ⟨fun _ => h1, fun _ => rfl⟩
    · exact ⟨fun h => absurd h hnow, fun h => absurd h h1⟩
    · exact ⟨fun h => absurd h h2, fun h => absurd h h1⟩
  refine ⟨key, fun hp => key.trans ⟨fun h => le_antisymm h hp, fun h => le_of_eq h⟩⟩

theorem updateOldestSeen_zero_iff_witness :
    (1700000000 : Int) ≠ 0 ∧
    (Oldest (some (UpdateOldestSeen New "apt" "all" 5 1700000000).2) "apt" "all" = 0 ↔
      (5 : Int) ≤ 0) :=
  ⟨by decide, (updateOldestSeen_zero_iff New "apt" "all" 5 1700000000 (by decide)).1⟩

/-- C3, as the claim states it, fails. At the Unix epoch (`now = 0`) with `pending = 5`
and no timestamp stored, the stored timestamp is 0 although `pending` is not 0; and with
`pending = -1` the timestamp is reset to 0 although `pending` is not 0. -/
theorem updateOldestSeen_zero_iff_counterexample :
    ¬ (Oldest (some (UpdateOldestSeen New "apt" "all" 5 0).2) "apt" "all" = 0 ↔ (5 : Int) = 0) ∧
    ¬ (Oldest (some (UpdateOldestSeen
          (UpdateOldestSeen New "apt" "all" 5 1700000000).2 "apt" "all" (-1) 1700003600).2)
        "apt" "all" = 0 ↔ (-1 : Int) = 0) := by
  decide

end state

namespace collector

end collector

namespace collector

/-- When the window opens during an evaluation the readings give no single verdict: with
a security threshold configured, the first two readings before a window from 22:00 to
06:00 and the third inside it, neither check of `PendingAll` applies, and
`EffectiveCompliant` holds for a `PendingAll` far above twice the patch threshold. -/
theorem effectiveCompliant_crossing :
    EffectiveCompliant { Result.zero with Manager := "apt", PendingAll := 1000 }
      { config.defaults with MWStart := "2200", MWEnd := "0600", PatchThresholdSecurity := 2 }
      { hour := 21, minute := 58 } { hour := 21, minute := 59 } { hour := 22, minute := 0 } =
        true := by
  have h1 : config.InMaintenanceWindow
      { config.defaults with MWStart := "2200", MWEnd := "0600", PatchThresholdSecurity := 2 }
      { hour := 21, minute := 58 } = false := by decide
  have h2 : config.InMaintenanceWindow
      { config.defaults with MWStart := "2200", MWEnd := "0600", PatchThresholdSecurity := 2 }
      { hour := 21, minute := 59 } = false := by decide
  have h3 : config.InMaintenanceWindow
      { config.defaults with MWStart := "2200", MWEnd := "0600", PatchThresholdSecurity := 2 }
      { hour := 22, minute := 0 } = true := by decide
  unfold EffectiveCompliant margin
  simp only [h1, h2, h3]
  decide

end collector

namespace reboot

/-- Go `Detect` returns one of its five literal reason tags. -/
theorem detect_reason (lo : Char → Char) (manager : String) (p : Probe) :
    (Detect lo manager p).2 = "kernel" ∨ (Detect lo manager p).2 = "libc" ∨
    (Detect lo manager p).2 = "systemd" ∨ (Detect lo manager p).2 = "other" ∨
    (Detect lo manager p).2 = "unknown" := by
  unfold Detect
  by_cases h1 : p.rebootRequired = true
  · rw [if_pos h1]
    cases p.rebootPkgs with
    | none => simp
    | some b =>
      simp only
      split_ifs <;> simp
  · rw [if_neg h1]
    simp only
    split_ifs <;> simp

end reboot

namespace collector

theorem toLower_kernel_iff (lo : Char → Char) (reason : String)
    (h : reason = "kernel" ∨ reason = "libc" ∨ reason = "systemd" ∨ reason = "other" ∨
      reason = "unknown") : toLower lo reason = "kernel" ↔ reason = "kernel" := by
  have hk : toLower lo "kernel" = "kernel" := rfl
  have hl : toLower lo "libc" = "libc" := rfl
  have hs : toLower lo "systemd" = "systemd" := rfl
  have ho : toLower lo "other" = "other" := rfl
  have hu : toLower lo "unknown" = "unknown" := rfl
  rcases h with h | h | h | h | h <;> subst h
  · rw [hk]
  · rw [hl]
  · rw [hs]
  · rw [ho]
  · rw [hu]

theorem risk_plain (b s : Int) :
    wrapInt (wrapInt (b * 1) + wrapInt (s * 5)) = wrapInt (b + 5 * s) := by
  unfold wrapInt
  omega

theorem risk_boost (b s : Int) :
    wrapInt (wrapInt (wrapInt (b * 1) + wrapInt (s * 5)) + wrapInt (s * 5)) =
      wrapInt (b + 5 * s + 5 * s) := by
  unfold wrapInt
  omega

/-- The risk score of `Collect` is the weighted sum in 64-bit arithmetic. -/
theorem collect_riskScore_wrapInt (lo : Char → Char) (p : Probe) :
    (Collect lo p).1.RiskScore =
      wrapInt ((Collect lo p).1.PendingBugfix + 5 * (Collect lo p).1.PendingSecurity +
        (if (Collect lo p).1.RebootReason = "kernel" ∧ 0 < (Collect lo p).1.PendingSecurity
          then 5 * (Collect lo p).1.PendingSecurity else 0)) := by
  unfold Collect
  simp only
  by_cases hm : detectManager p.hasBin = ""
  · rw [if_pos hm]
    simp [Result.zero]
    decide
  · rw [if_neg hm]
    simp only [toLower_kernel_iff lo _ (reboot.detect_reason lo _ _), gt_iff_lt]
    generalize (if (dispatch (detectManager p.hasBin) p).bug < 0 then (0 : Int)
      else (dispatch (detectManager p.hasBin) p).bug) = b
    generalize (if (dispatch (detectManager p.hasBin) p).sec < 0 then (0 : Int)
      else (dispatch (detectManager p.hasBin) p).sec) = s
    by_cases hk : (reboot.Detect lo (detectManager p.hasBin) p.reboot).2 = "kernel" ∧ 0 < s
    · rw [if_pos hk, if_pos hk, risk_boost]
    · rw [if_neg hk, if_neg hk, risk_plain, add_zero]

end collector

namespace config

theorem digitChar_facts (d : Fin 10) :
    isSpace (digitChar d) = false ∧ (digitChar d).isDigit = true ∧
    (digitChar d).toNat - 48 = d.val ∧ digitChar d ≠ '-' ∧ digitChar d ≠ '+' ∧
    (digitChar d).utf8Size = 1 := by
  fin_cases d <;> decide

theorem trimSpace_hhmm (a b c d : Fin 10) : trimSpace (hhmm a b c d) = hhmm a b c d := by
  unfold trimSpace hhmm
  simp [List.dropWhile, (digitChar_facts a).1, (digitChar_facts d).1]

theorem utf8ByteSize_hhmm (a b c d : Fin 10) : (hhmm a b c d).utf8ByteSize = 4 := by
  unfold hhmm
  simp [String.utf8ByteSize, String.utf8ByteSize.go, (digitChar_facts a).2.2.2.2.2,
    (digitChar_facts b).2.2.2.2.2, (digitChar_facts c).2.2.2.2.2, (digitChar_facts d).2.2.2.2.2]

theorem atoi_hhmm (a b c d : Fin 10) : atoi (hhmm a b c d) = some (hhmmValue a b c d) := by
  have ha := digitChar_facts a
  have hb := digitChar_facts b
  have hc := digitChar_facts c
  have hd := digitChar_facts d
  have hfit : fitsInt (hhmmValue a b c d) := by
    unfold fitsInt hhmmValue
    omega
  unfold atoi hhmm
  simp only [ha.2.2.2.1, ha.2.2.2.2.1, or_self, if_false, digitsValue, ha.2.1, hb.2.1, hc.2.1,
    hd.2.1, if_true, ha.2.2.1, hb.2.2.1, hc.2.2.1, hd.2.2.1]
  have hval : (((((0 * 10 + a.val) * 10 + b.val) * 10 + c.val) * 10 + d.val : Nat) : Int) =
      hhmmValue a b c d := by
    unfold hhmmValue
    push_cast
    ring
  rw [hval, if_pos hfit]

theorem hhmm_ne_empty (a b c d : Fin 10) : hhmm a b c d ≠ "" := by
  intro h
  have hlen := congrArg String.length h
  simp [hhmm, String.length] at hlen

/-- Go `parseHHMM` reads the four-digit text of an HHMM value as its number. -/
theorem parseHHMM_hhmm (a b c d : Fin 10) : parseHHMM (hhmm a b c d) = hhmmValue a b c d := by
  unfold parseHHMM
  simp only [trimSpace_hhmm, utf8ByteSize_hhmm, atoi_hhmm, ne_eq, not_true_eq_false, if_false]

theorem hhmmValue_nonneg (a b c d : Fin 10) : 0 ≤ hhmmValue a b c d := by
  unfold hhmmValue
  omega

/-- C7. For a window whose bounds are given as HHMM values `start` and `stop` (four
decimal digits each) and the current time `cur = hour * 100 + minute`,
`InMaintenanceWindow` is true when `start = stop`; it is `start <= cur` and `cur <= stop`
when `start < stop`; it is `start <= cur` or `cur <= stop` when `start > stop`. With the
window 2200 to 0600, 23:00 is inside and 12:00 is outside. -/
theorem inMaintenanceWindow_hhmm (c : Config) (clk : Clock) (a1 a2 a3 a4 b1 b2 b3 b4 : Fin 10)
    (hs : c.MWStart = hhmm a1 a2 a3 a4) (he : c.MWEnd = hhmm b1 b2 b3 b4) :
    (hhmmValue a1 a2 a3 a4 = hhmmValue b1 b2 b3 b4 → InMaintenanceWindow c clk = true) ∧
    (hhmmValue a1 a2 a3 a4 < hhmmValue b1 b2 b3 b4 →
      (InMaintenanceWindow c clk = true ↔
        hhmmValue a1 a2 a3 a4 ≤ (clk.hour.val : Int) * 100 + (clk.minute.val : Int) ∧
        (clk.hour.val : Int) * 100 + (clk.minute.val : Int) ≤ hhmmValue b1 b2 b3 b4)) ∧
    (hhmmValue a1 a2 a3 a4 > hhmmValue b1 b2 b3 b4 →
      (InMaintenanceWindow c clk = true ↔
        hhmmValue a1 a2 a3 a4 ≤ (clk.hour.val : Int) * 100 + (clk.minute.val : Int) ∨
        (clk.hour.val : Int) * 100 + (clk.minute.val : Int) ≤ hhmmValue b1 b2 b3 b4)) ∧
    (hhmmValue a1 a2 a3 a4 = 2200 → hhmmValue b1 b2 b3 b4 = 600 →
      (clk = { hour := 23, minute := 0 } → InMaintenanceWindow c clk = true) ∧
      (clk = { hour := 12, minute := 0 } → InMaintenanceWindow c clk = false)) := by
  have hsa := hhmmValue_nonneg a1 a2 a3 a4
  have hsb := hhmmValue_nonneg b1 b2 b3 b4
  have hneg : ¬ (hhmmValue a1 a2 a3 a4 < 0 ∨ hhmmValue b1 b2 b3 b4 < 0) := by omega
  have hempty : ¬ (c.MWStart = "" ∨ c.MWEnd = "") := by
    rw [hs, he]
    intro h
    rcases h with h | h
    · exact hhmm_ne_empty _ _ _ _ h
    · exact hhmm_ne_empty _ _ _ _ h
  have hdef : InMaintenanceWindow c clk =
      if hhmmValue a1 a2 a3 a4 = hhmmValue b1 b2 b3 b4 then true
      else if hhmmValue a1 a2 a3 a4 < hhmmValue b1 b2 b3 b4 then
        decide ((clk.hour.val : Int) * 100 + (clk.minute.val : Int) ≥ hhmmValue a1 a2 a3 a4 ∧
          (clk.hour.val : Int) * 100 + (clk.minute.val : Int) ≤ hhmmValue b1 b2 b3 b4)
      else
        decide ((clk.hour.val : Int) * 100 + (clk.minute.val : Int) ≥ hhmmValue a1 a2 a3 a4 ∨
          (clk.hour.val : Int) * 100 + (clk.minute.val : Int) ≤ hhmmValue b1 b2 b3 b4) := by
    unfold InMaintenanceWindow
    rw [if_neg hempty]
    simp only [hs, he, parseHHMM_hhmm]
    rw [if_neg hneg]
  refine ⟨?_, ?_, ?_, ?_⟩
  · intro heq
    rw [hdef, if_pos heq]
  · intro hlt
    rw [hdef, if_neg (ne_of_lt hlt), if_pos hlt]
    simp
  · intro hgt
    rw [hdef, if_neg (ne_of_gt hgt), if_neg (not_lt.mpr (le_of_lt hgt))]
    simp
  · intro h1 h2
    rw [hdef, h1, h2]
    refine ⟨?_, ?_⟩
    · intro hc
      subst hc
      decide
    · intro hc
      subst hc
      decide

theorem inMaintenanceWindow_hhmm_witness :
    InMaintenanceWindow { defaults with MWStart := "2200", MWEnd := "0600" }
      { hour := 23, minute := 0 } = true ∧
    InMaintenanceWindow { defaults with MWStart := "2200", MWEnd := "0600" }
      { hour := 12, minute := 0 } = false :=
  ⟨((inMaintenanceWindow_hhmm { defaults with MWStart := "2200", MWEnd := "0600" }
      { hour := 23, minute := 0 } 2 2 0 0 0 6 0 0 (by decide) (by decide)).2.2.2
      (by decide) (by decide)).1 rfl,
   ((inMaintenanceWindow_hhmm { defaults with MWStart := "2200", MWEnd := "0600" }
      { hour := 12, minute := 0 } 2 2 0 0 0 6 0 0 (by decide) (by decide)).2.2.2
      (by decide) (by decide)).2 rfl⟩

end config

namespace collector

/-- C6. The risk score `Collect` produces is `bugfix + 5 * security`, plus a further
`5 * security` exactly when the reboot reason is the tag kernel and `security > 0` (then
`10 * security + bugfix`); with any other reason, or `security = 0`, nothing is added.
The score is a value a 64-bit integer can hold. -/
theorem collect_riskScore (lo : Char → Char) (p : Probe)
    (hfit : fitsInt ((Collect lo p).1.PendingBugfix + 5 * (Collect lo p).1.PendingSecurity +
      (if (Collect lo p).1.RebootReason = "kernel" ∧ 0 < (Collect lo p).1.PendingSecurity
        then 5 * (Collect lo p).1.PendingSecurity else 0))) :
    (Collect lo p).1.RiskScore =
      (Collect lo p).1.PendingBugfix + 5 * (Collect lo p).1.PendingSecurity +
        (if (Collect lo p).1.RebootReason = "kernel" ∧ 0 < (Collect lo p).1.PendingSecurity
          then 5 * (Collect lo p).1.PendingSecurity else 0) ∧
    ((Collect lo p).1.RebootReason = "kernel" → 0 < (Collect lo p).1.PendingSecurity →
      (Collect lo p).1.RiskScore =
        10 * (Collect lo p).1.PendingSecurity + (Collect lo p).1.PendingBugfix) ∧
    (¬ ((Collect lo p).1.RebootReason = "kernel" ∧ 0 < (Collect lo p).1.PendingSecurity) →
      (Collect lo p).1.RiskScore =
        (Collect lo p).1.PendingBugfix + 5 * (Collect lo p).1.PendingSecurity) := by
  have hrisk := collect_riskScore_wrapInt lo p
  rw [wrapInt_of_fitsInt hfit] at hrisk
  refine ⟨hrisk, ?_, ?_⟩
  · intro hk hs
    rw [hrisk, if_pos ⟨hk, hs⟩]
    ring
  · intro hn
    rw [hrisk, if_neg hn, add_zero]

theorem collect_riskScore_witness :
    (Collect id debianHost).1.RebootReason = "kernel" ∧
    (Collect id debianHost).1.PendingSecurity = 2 ∧
    (Collect id debianHost).1.PendingBugfix = 5 ∧
    (Collect id debianHost).1.RiskScore = 25 := by
  have h := (collect_riskScore id debianHost (by decide)).2.1 (by decide) (by decide)
  exact ⟨by decide, by decide, by decide, h.trans (by decide)⟩

end collector

namespace metrics

theorem stageErrors_emitHelpType (r : Registry) (name help typ : String) :
    (emitHelpType r name help typ).stageErrors = r.stageErrors := by
  unfold emitHelpType
  split_ifs <;> rfl

theorem stageErrors_SetStageError_true (r : Registry) (stage : String) :
    (SetStageError r stage true).stageErrors = mapAssign r.stageErrors stage true := by
  simp [SetStageError, write, stageErrors_emitHelpType]

theorem stageErrors_SetStageError_false (r : Registry) (stage : String) :
    (SetStageError r stage false).stageErrors = r.stageErrors := by
  simp [SetStageError, write, stageErrors_emitHelpType]

theorem stageErrors_SetStageDuration (r : Registry) (stage : String) (d : Int) :
    (SetStageDuration r stage d).stageErrors = r.stageErrors := by
  simp [SetStageDuration, write, stageErrors_emitHelpType]

/-- After `SetStageError r stage true` exactly the stage and the stages flagged before
have an error. -/
theorem hasError_SetStageError (r : Registry) (stage t : String) :
    mapIndex false (SetStageError r stage true).stageErrors t = true ↔
      t = stage ∨ mapIndex false r.stageErrors t = true := by
  rw [stageErrors_SetStageError_true]
  by_cases h : t = stage
  · subst h
    simp [mapIndex_mapAssign_self]
  · rw [mapIndex_mapAssign_ne _ _ _ _ _ h]
    simp [h]

/-- The stages with an error after recording `stages` one by one on `r`. -/
theorem hasError_recorded (stages : List String) (r : Registry) (t : String) :
    mapIndex false (stages.foldl (fun acc s => SetStageError acc s true) r).stageErrors t = true ↔
      t ∈ stages ∨ mapIndex false r.stageErrors t = true := by
  induction stages generalizing r with
  | nil => simp
  | cons s rest ih =>
    rw [List.foldl_cons, ih, hasError_SetStageError, List.mem_cons]
    constructor
    · rintro (h | h | h)
      · exact Or.inl (Or.inr h)
      · exact Or.inl (Or.inl h)
      · exact Or.inr h
    · rintro ((h | h) | h)
      · exact Or.inr (Or.inl h)
      · exact Or.inl h
      · exact Or.inr (Or.inr h)

/-- C8. `HasFailClosed` is true exactly when the lock or the write stage has an error,
or the policy is fail-closed (`failOpen = false`) and one of the stages pkgmgr, repo,
state has an error; under the fail-open policy errors of pkgmgr, repo and state alone
never force failure. The same holds of every list of stage errors recorded with
`SetStageError` on a new registry. -/
theorem hasFailClosed_iff (r : Registry) (failOpen : Bool) :
    (HasFailClosed r failOpen = true ↔
      (mapIndex false r.stageErrors "lock" = true ∨ mapIndex false r.stageErrors "write" = true) ∨
      (failOpen = false ∧
        (mapIndex false r.stageErrors "pkgmgr" = true ∨
         mapIndex false r.stageErrors "repo" = true ∨
         mapIndex false r.stageErrors "state" = true))) ∧
    (failOpen = true → mapIndex false r.stageErrors "lock" = false →
      mapIndex false r.stageErrors "write" = false → HasFailClosed r failOpen = false) ∧
    (∀ stages : List String,
      HasFailClosed (stages.foldl (fun acc s => SetStageError acc s true) NewRegistry) failOpen
          = true ↔
        ("lock" ∈ stages ∨ "write" ∈ stages) ∨
        (failOpen = false ∧ ("pkgmgr" ∈ stages ∨ "repo" ∈ stages ∨ "state" ∈ stages))) := by
  have hgen : ∀ q : Registry, HasFailClosed q failOpen = true ↔
      (mapIndex false q.stageErrors "lock" = true ∨ mapIndex false q.stageErrors "write" = true) ∨
      (failOpen = false ∧
        (mapIndex false q.stageErrors "pkgmgr" = true ∨
         mapIndex false q.stageErrors "repo" = true ∨
         mapIndex false q.stageErrors "state" = true)) := by
    intro q
    unfold HasFailClosed
    cases failOpen <;>
      cases mapIndex false q.stageErrors "lock" <;>
      cases mapIndex false q.stageErrors "write" <;>
      cases mapIndex false q.stageErrors "pkgmgr" <;>
      cases mapIndex false q.stageErrors "repo" <;>
      cases mapIndex false q.stageErrors "state" <;> decide
  refine ⟨hgen r, ?_, ?_⟩
  · intro ho hl hw
    cases hf : HasFailClosed r failOpen
    · rfl
    · rcases (hgen r).mp hf with (h | h) | h
      · rw [hl] at h
        exact absurd h (by decide)
      · rw [hw] at h
        exact absurd h (by decide)
      · rw [ho] at h
        exact absurd h.1 (by decide)
  · intro stages
    have hnew : ∀ t, mapIndex false NewRegistry.stageErrors t = false := fun _ => rfl
    rw [hgen]
    simp only [hasError_recorded, hnew, Bool.false_eq_true, or_false]

end metrics

namespace cmd

/-- The exit code of `run` once the configuration has loaded, by the outcome of the
lock, of the snapshot write and of the state save. -/
theorem run_exit (lo : Char → Char) (env : Env) (cfg : config.Config)
    (hcfg : env.loadFromEnv = .ok cfg) :
    (run lo env).exit =
      if env.acquire ≠ none then 75
      else if env.writeTextfile ≠ none then 20
      else if env.saveAtomic ≠ none then 21
      else 0 := by
  unfold run
  rw [hcfg]
  simp only
  cases env.acquire with
  | some e => simp [lockFailed]
  | none =>
    unfold finish
    cases env.writeTextfile with
    | some e => simp
    | none => cases env.saveAtomic <;> simp

/-- C9. For a scrape whose configuration loads, the exit code is 75 when the lock is not
acquired, 20 when the snapshot write fails, 21 when the write succeeds and the state save
fails, and 0 when all three succeed; the three failure codes are non-zero and pairwise
distinct. -/
theorem run_exit_codes (lo : Char → Char) (env : Env) (cfg : config.Config)
    (hcfg : env.loadFromEnv = .ok cfg) :
    (env.acquire ≠ none → (run lo env).exit = 75) ∧
    (env.acquire = none → env.writeTextfile ≠ none → (run lo env).exit = 20) ∧
    (env.acquire = none → env.writeTextfile = none → env.saveAtomic ≠ none →
      (run lo env).exit = 21) ∧
    (env.acquire = none → env.writeTextfile = none → env.saveAtomic = none →
      (run lo env).exit = 0) ∧
    (∀ (busy unwritten unsaved : Env) (c1 c2 c3 : config.Config),
      busy.loadFromEnv = .ok c1 → unwritten.loadFromEnv = .ok c2 → unsaved.loadFromEnv = .ok c3 →
      busy.acquire ≠ none →
      unwritten.acquire = none → unwritten.writeTextfile ≠ none →
      unsaved.acquire = none → unsaved.writeTextfile = none → unsaved.saveAtomic ≠ none →
      (run lo busy).exit ≠ 0 ∧ (run lo unwritten).exit ≠ 0 ∧ (run lo unsaved).exit ≠ 0 ∧
      (run lo busy).exit ≠ (run lo unwritten).exit ∧
      (run lo busy).exit ≠ (run lo unsaved).exit ∧
      (run lo unwritten).exit ≠ (run lo unsaved).exit) := by
  refine ⟨?_, ?_, ?_, ?_, ?_⟩
  · intro h
    rw [run_exit lo env cfg hcfg, if_pos h]
  · intro h1 h2
    rw [run_exit lo env cfg hcfg, if_neg (not_not.mpr h1), if_pos h2]
  · intro h1 h2 h3
    rw [run_exit lo env cfg hcfg, if_neg (not_not.mpr h1), if_neg (not_not.mpr h2), if_pos h3]
  · intro h1 h2 h3
    rw [run_exit lo env cfg hcfg, if_neg (not_not.mpr h1), if_neg (not_not.mpr h2),
      if_neg (not_not.mpr h3)]
  · intro busy unwritten unsaved c1 c2 c3 hc1 hc2 hc3 hb hw1 hw2 hs1 hs2 hs3
    rw [run_exit lo busy c1 hc1, run_exit lo unwritten c2 hc2, run_exit lo unsaved c3 hc3,
      if_pos hb, if_neg (not_not.mpr hw1), if_pos hw2, if_neg (not_not.mpr hs1),
      if_neg (not_not.mpr hs2), if_pos hs3]
    decide

theorem run_exit_codes_witness :
    (run id firstRun).exit = 0 ∧
    (run id { firstRun with acquire := some "lock busy: resource temporarily unavailable" }).exit
      = 75 :=
  ⟨(run_exit_codes id firstRun config.defaults rfl).2.2.2.1 rfl rfl rfl,
   (run_exit_codes id { firstRun with acquire := some "lock busy: resource temporarily unavailable" }
      config.defaults rfl).1 (by decide)⟩

/-- C10, as the code has it. When the state file cannot be read, or its content is not a
valid state document, `Load` returns the error and no state; `run` then records the error
of the state stage and goes on with the state `New`: version 1, an empty managers map,
every timestamp 0. -/
theorem load_failure_falls_back (cfg : config.Config) (env : Env)
    (hfail : (∃ e, env.readFile cfg.StateFile = .error e) ∨
      (∃ b e, env.readFile cfg.StateFile = .ok b ∧ env.unmarshal b = .error e)) :
    (∃ e, state.Load env.readFile env.unmarshal cfg.StateFile = .error e) ∧
    (loadState cfg env).2 = state.New ∧
    mapIndex false (loadState cfg env).1.stageErrors "state" = true ∧
    state.New.Version = 1 ∧ state.New.Managers = some [] ∧
    state.New.LastRunTS = 0 ∧ state.New.LastUpdateCheckTS = 0 ∧ state.New.LastUpdateRunTS = 0 ∧
    (∀ manager typ, state.Oldest (some state.New) manager typ = 0) := by
  have hload : ∃ e, state.Load env.readFile env.unmarshal cfg.StateFile = .error e := by
    unfold state.Load
    rcases hfail with ⟨e, he⟩ | ⟨b, e, hb, he⟩
    · exact ⟨e, by rw [he]⟩
    · exact ⟨e, by rw [hb]; simp only; rw [he]⟩
  obtain ⟨e, he⟩ := hload
  refine ⟨⟨e, he⟩, ?_, ?_, rfl, rfl, rfl, rfl, rfl, ?_⟩
  · unfold loadState
    rw [he]
  · unfold loadState
    rw [he]
    simp only
    rw [metrics.stageErrors_SetStageDuration, metrics.stageErrors_SetStageError_true,
      mapIndex_mapAssign_self]
  · intro manager typ
    unfold state.Oldest state.oldestField
    split_ifs <;> rfl

theorem load_failure_falls_back_witness :
    (∃ e, state.Load firstRun.readFile firstRun.unmarshal config.defaults.StateFile = .error e) ∧
    (loadState config.defaults firstRun).2 = state.New :=
  ⟨(load_failure_falls_back config.defaults firstRun (Or.inl ⟨_, rfl⟩)).1,
   (load_failure_falls_back config.defaults firstRun (Or.inl ⟨_, rfl⟩)).2.1⟩

/-- C10, as the claim states it, fails. For an absent state file, and for a file whose
content is not a state document, `Load` returns an error, not the state `New`. -/
theorem load_failure_counterexample :
    (state.Load (fun _ => .error "open /var/lib/os-updates-exporter/state.json: no such file")
        (fun _ => .ok state.State.zero) "/var/lib/os-updates-exporter/state.json" =
      .error "open /var/lib/os-updates-exporter/state.json: no such file" ∧
     state.Load (fun _ => .error "open /var/lib/os-updates-exporter/state.json: no such file")
        (fun _ => .ok state.State.zero) "/var/lib/os-updates-exporter/state.json" ≠
      .ok state.New) ∧
    (state.Load (fun _ => .ok "not a state document")
        (fun _ => .error "invalid character in literal null")
        "/var/lib/os-updates-exporter/state.json" =
      .error "invalid character in literal null" ∧
     state.Load (fun _ => .ok "not a state document")
        (fun _ => .error "invalid character in literal null")
        "/var/lib/os-updates-exporter/state.json" ≠
      .ok state.New) :=
  ⟨⟨rfl, fun h => by cases h⟩, ⟨rfl, fun h => by cases h⟩⟩

end cmd

namespace state

/-- C18. `GetManager n` is the zero `ManagerState` when the state is nil, its map is nil,
or `n` is absent from the map; after `SetManager n v`, `GetManager n` is `v`; and for `m`
other than `n`, `GetManager m` is what it was before the `SetManager` call. -/
theorem getManager_setManager (s : State) (n m : String) (v : ManagerState) :
    GetManager none n = ManagerState.zero ∧
    (s.Managers = none → GetManager (some s) n = ManagerState.zero) ∧
    ((∀ mp, s.Managers = some mp → List.lookup n mp = none) →
      GetManager (some s) n = ManagerState.zero) ∧
    GetManager (some (SetManager s n v)) n = v ∧
    (m ≠ n → GetManager (some (SetManager s n v)) m = GetManager (some s) m) := by
  refine ⟨rfl, ?_, getManager_absent s n, getManager_setManager_self s n v,
    getManager_setManager_ne s n m v⟩
  intro h
  unfold GetManager
  simp only [h]

end state

namespace cmd

theorem getManager_persisted (p : Prepared) (now : Int) :
    state.GetManager (some (persisted p now)) p.res.Manager =
      { PendingAll := p.res.PendingAll,
        PendingSecurity := p.res.PendingSecurity,
        PendingBugfix := p.res.PendingBugfix,
        RepoUnreachable := p.res.Repo.Unreachable,
        RepoTotal := p.res.Repo.Total,
        RebootRequired := p.res.RebootRequired,
        OldestAllSeen := state.Oldest (some p.st) p.res.Manager "all",
        OldestSecuritySeen := state.Oldest (some p.st) p.res.Manager "security",
        OldestBugfixSeen := state.Oldest (some p.st) p.res.Manager "bugfix" } := by
  unfold persisted
  simp only
  rw [state.getManager_setManager_self]
  rfl

theorem lastRunTS_persisted (p : Prepared) (now : Int) : (persisted p now).LastRunTS = now := by
  unfold persisted state.SetManager
  simp only
  split <;> rfl

/-- A run that takes the lock and writes the snapshot hands the state `persisted` to
`SaveAtomic`. -/
theorem run_saves (lo : Char → Char) (env : Env) (cfg : config.Config)
    (hcfg : env.loadFromEnv = .ok cfg) (hlock : env.acquire = none)
    (hwrite : env.writeTextfile = none) :
    Event.saveAtomic cfg.StateFile (persisted (prepare lo cfg env) env.unixNow) ∈
      (run lo env).events := by
  unfold run finish
  rw [hcfg, hlock]
  simp only
  rw [hwrite]
  cases env.saveAtomic <;> simp

/-- C19. A scrape that reaches state persistence hands `SaveAtomic` a state in which the
entry of the collected manager has the pending counts, the repository counts and the
reboot flag of the collection result, the three aging timestamps left by the three
`UpdateOldestSeen` calls of the run, and whose `LastRunTS` is the `now` of the run. -/
theorem run_persists_manager (lo : Char → Char) (env : Env) (cfg : config.Config)
    (hcfg : env.loadFromEnv = .ok cfg) (hlock : env.acquire = none)
    (hwrite : env.writeTextfile = none) :
    ∃ st, Event.saveAtomic cfg.StateFile st ∈ (run lo env).events ∧
      st.LastRunTS = env.unixNow ∧
      (state.GetManager (some st) (prepare lo cfg env).res.Manager).PendingAll =
        (prepare lo cfg env).res.PendingAll ∧
      (state.GetManager (some st) (prepare lo cfg env).res.Manager).PendingSecurity =
        (prepare lo cfg env).res.PendingSecurity ∧
      (state.GetManager (some st) (prepare lo cfg env).res.Manager).PendingBugfix =
        (prepare lo cfg env).res.PendingBugfix ∧
      (state.GetManager (some st) (prepare lo cfg env).res.Manager).RepoTotal =
        (prepare lo cfg env).res.Repo.Total ∧
      (state.GetManager (some st) (prepare lo cfg env).res.Manager).RepoUnreachable =
        (prepare lo cfg env).res.Repo.Unreachable ∧
      (state.GetManager (some st) (prepare lo cfg env).res.Manager).RebootRequired =
        (prepare lo cfg env).res.RebootRequired ∧
      (prepare lo cfg env).st =
        (agingState (loadState cfg env).2 (prepare lo cfg env).res env.unixNow).2 ∧
      (∀ typ, state.Oldest (some st) (prepare lo cfg env).res.Manager typ =
        state.Oldest (some (prepare lo cfg env).st) (prepare lo cfg env).res.Manager typ) := by
  refine ⟨persisted (prepare lo cfg env) env.unixNow, run_saves lo env cfg hcfg hlock hwrite,
    lastRunTS_persisted _ _, ?_, ?_, ?_, ?_, ?_, ?_, rfl, ?_⟩
  · rw [getManager_persisted]
  · rw [getManager_persisted]
  · rw [getManager_persisted]
  · rw [getManager_persisted]
  · rw [getManager_persisted]
  · rw [getManager_persisted]
  · intro typ
    have hall : state.Oldest (some (prepare lo cfg env).st) (prepare lo cfg env).res.Manager "all" =
        (state.GetManager (some (prepare lo cfg env).st)
          (prepare lo cfg env).res.Manager).OldestAllSeen := by
      unfold state.Oldest state.oldestField
      rw [if_neg (by decide), if_neg (by decide)]
    have hsec : state.Oldest (some (prepare lo cfg env).st) (prepare lo cfg env).res.Manager
        "security" = (state.GetManager (some (prepare lo cfg env).st)
          (prepare lo cfg env).res.Manager).OldestSecuritySeen := by
      unfold state.Oldest state.oldestField
      rw [if_pos rfl]
    have hbug : state.Oldest (some (prepare lo cfg env).st) (prepare lo cfg env).res.Manager
        "bugfix" = (state.GetManager (some (prepare lo cfg env).st)
          (prepare lo cfg env).res.Manager).OldestBugfixSeen := by
      unfold state.Oldest state.oldestField
      rw [if_neg (by decide), if_pos rfl]
    have hleft : state.Oldest (some (persisted (prepare lo cfg env) env.unixNow))
        (prepare lo cfg env).res.Manager typ =
        state.oldestField typ (state.GetManager (some (persisted (prepare lo cfg env) env.unixNow))
          (prepare lo cfg env).res.Manager) := rfl
    rw [hleft, getManager_persisted, hall, hsec, hbug]
    rfl

theorem run_persists_manager_witness :
    ∃ st, Event.saveAtomic config.defaults.StateFile st ∈ (run id firstRun).events ∧
      st.LastRunTS = 1700000000 ∧
      (state.GetManager (some st) "apt").PendingAll = 7 ∧
      state.Oldest (some st) "apt" "security" = 1700000000 := by
  obtain ⟨st, hmem, hts, hall, _, _, _, _, _, _, hold⟩ :=
    run_persists_manager id firstRun config.defaults rfl rfl rfl
  refine ⟨st, hmem, hts, ?_, ?_⟩
  · exact hall.trans (by decide)
  · exact (hold "security").trans (by decide)

end cmd

namespace collector

/-- The reboot reason of a collection result is empty (no package manager found) or the
reason `reboot.Detect` returns. -/
theorem collect_rebootReason (lo : Char → Char) (p : Probe) :
    (Collect lo p).1.RebootReason = "" ∨
    (Collect lo p).1.RebootReason = (reboot.Detect lo (detectManager p.hasBin) p.reboot).2 := by
  unfold Collect
  simp only
  by_cases hm : detectManager p.hasBin = ""
  · rw [if_pos hm]
    left
    rfl
  · rw [if_neg hm]
    right
    rfl

end collector

namespace metrics

/-- The lines `SetRebootReason` appends: HELP and TYPE when not yet emitted, then one
sample per label of `reasons`, in that order, 1 for the label equal to the trimmed,
lower-cased reason (`unknown` standing for the empty reason) and 0 for the others. -/
theorem buf_SetRebootReason (lo : Char → Char) (r : Registry) (reason : String) :
    (SetRebootReason lo r reason).buf =
      (emitHelpType r "os_reboot_required" "Reboot reason (one-hot)" "gauge").buf ++
        reasons.map (fun x => Line.sample "os_reboot_required" [("reason", x)]
          (flag (decide (x = if toLower lo (trimSpace reason) = "" then "unknown"
            else toLower lo (trimSpace reason))))) := by
  unfold SetRebootReason reasons
  simp [List.foldl, buf_write]

/-- For a reason that, trimmed and lower-cased, is empty or one of the five labels,
`SetRebootReason` emits the five samples in the order of the labels and exactly one of
them has value 1. -/
theorem setRebootReason_known (lo : Char → Char) (r : Registry) (reason : String)
    (hknown : toLower lo (trimSpace reason) = "" ∨ toLower lo (trimSpace reason) ∈ reasons) :
    ∃ k l s o n : Bool,
      (SetRebootReason lo r reason).buf =
        (emitHelpType r "os_reboot_required" "Reboot reason (one-hot)" "gauge").buf ++
          [Line.sample "os_reboot_required" [("reason", "kernel")] (flag k),
           Line.sample "os_reboot_required" [("reason", "libc")] (flag l),
           Line.sample "os_reboot_required" [("reason", "systemd")] (flag s),
           Line.sample "os_reboot_required" [("reason", "other")] (flag o),
           Line.sample "os_reboot_required" [("reason", "unknown")] (flag n)] ∧
      [k, l, s, o, n].count true = 1 := by
  refine ⟨_, _, _, _, _, buf_SetRebootReason lo r reason, ?_⟩
  rcases hknown with h | h
  · rw [h]
    decide
  · generalize toLower lo (trimSpace reason) = rr at h
    simp only [reasons, List.mem_cons, List.mem_singleton, List.not_mem_nil, or_false] at h
    rcases h with h | h | h | h | h <;> subst h <;> decide

/-- Every reason `reboot.Detect` returns is, trimmed and lower-cased, one of the five
labels. -/
theorem detect_reason_known (lo : Char → Char) (manager : String) (probe : reboot.Probe) :
    toLower lo (trimSpace (reboot.Detect lo manager probe).2) ∈ reasons := by
  have hk : toLower lo (trimSpace "kernel") = "kernel" := rfl
  have hl : toLower lo (trimSpace "libc") = "libc" := rfl
  have hs : toLower lo (trimSpace "systemd") = "systemd" := rfl
  have ho : toLower lo (trimSpace "other") = "other" := rfl
  have hu : toLower lo (trimSpace "unknown") = "unknown" := rfl
  rcases reboot.detect_reason lo manager probe with h | h | h | h | h <;> rw [h]
  · rw [hk]; decide
  · rw [hl]; decide
  · rw [hs]; decide
  · rw [ho]; decide
  · rw [hu]; decide

/-- The reason of every collection result is, trimmed and lower-cased, empty or one of
the five labels. -/
theorem collect_reason_known (lo : Char → Char) (p : collector.Probe) :
    toLower lo (trimSpace (collector.Collect lo p).1.RebootReason) = "" ∨
    toLower lo (trimSpace (collector.Collect lo p).1.RebootReason) ∈ reasons := by
  have he : toLower lo (trimSpace "") = "" := rfl
  rcases collector.collect_rebootReason lo p with h | h
  · left
    rw [h]
    exact he
  · right
    rw [h]
    exact detect_reason_known lo _ _

/-- The reason `run` passes to `SetRebootReason` (main.go:139) is the reason of the
collection result, whether the repository check ran or not. -/
theorem collectStage_rebootReason (lo : Char → Char) (cfg : config.Config) (env : cmd.Env)
    (r : Registry) :
    (cmd.collectStage lo cfg env r).2.RebootReason =
      (collector.Collect lo env.probe).1.RebootReason := by
  unfold cmd.collectStage
  simp only
  split_ifs <;> rfl

/-- C17: for every reason string passed to `SetRebootReason` the registry emits exactly
five samples of `os_reboot_required`, one per label kernel, libc, systemd, other,
unknown, in this order, and exactly one of them has value 1. The reason passed is the
reason of the collection result (main.go:139), which is empty or the reason
`reboot.Detect` returns; the five samples are emitted for any string, and exactly one
has value 1 for any string that, trimmed and lower-cased, is empty or one of the
labels. -/
theorem setRebootReason_one_hot (lo : Char → Char) (r : Registry) :
    (∀ cfg env r0, ∃ k l s o n : Bool,
      (SetRebootReason lo r (cmd.collectStage lo cfg env r0).2.RebootReason).buf =
        (emitHelpType r "os_reboot_required" "Reboot reason (one-hot)" "gauge").buf ++
          [Line.sample "os_reboot_required" [("reason", "kernel")] (flag k),
           Line.sample "os_reboot_required" [("reason", "libc")] (flag l),
           Line.sample "os_reboot_required" [("reason", "systemd")] (flag s),
           Line.sample "os_reboot_required" [("reason", "other")] (flag o),
           Line.sample "os_reboot_required" [("reason", "unknown")] (flag n)] ∧
      [k, l, s, o, n].count true = 1) ∧
    (∀ p, ∃ k l s o n : Bool,
      (SetRebootReason lo r (collector.Collect lo p).1.RebootReason).buf =
        (emitHelpType r "os_reboot_required" "Reboot reason (one-hot)" "gauge").buf ++
          [Line.sample "os_reboot_required" [("reason", "kernel")] (flag k),
           Line.sample "os_reboot_required" [("reason", "libc")] (flag l),
           Line.sample "os_reboot_required" [("reason", "systemd")] (flag s),
           Line.sample "os_reboot_required" [("reason", "other")] (flag o),
           Line.sample "os_reboot_required" [("reason", "unknown")] (flag n)] ∧
      [k, l, s, o, n].count true = 1) ∧
    (∀ manager probe, ∃ k l s o n : Bool,
      (SetRebootReason lo r (reboot.Detect lo manager probe).2).buf =
        (emitHelpType r "os_reboot_required" "Reboot reason (one-hot)" "gauge").buf ++
          [Line.sample "os_reboot_required" [("reason", "kernel")] (flag k),
           Line.sample "os_reboot_required" [("reason", "libc")] (flag l),
           Line.sample "os_reboot_required" [("reason", "systemd")] (flag s),
           Line.sample "os_reboot_required" [("reason", "other")] (flag o),
           Line.sample "os_reboot_required" [("reason", "unknown")] (flag n)] ∧
      [k, l, s, o, n].count true = 1) ∧
    (∀ reason, ∃ k l s o n : Bool,
      (SetRebootReason lo r reason).buf =
        (emitHelpType r "os_reboot_required" "Reboot reason (one-hot)" "gauge").buf ++
          [Line.sample "os_reboot_required" [("reason", "kernel")] (flag k),
           Line.sample "os_reboot_required" [("reason", "libc")] (flag l),
           Line.sample "os_reboot_required" [("reason", "systemd")] (flag s),
           Line.sample "os_reboot_required" [("reason", "other")] (flag o),
           Line.sample "os_reboot_required" [("reason", "unknown")] (flag n)] ∧
      ((toLower lo (trimSpace reason) = "" ∨ toLower lo (trimSpace reason) ∈ reasons) →
        [k, l, s, o, n].count true = 1)) := by
  refine ⟨?_, ?_, ?_, ?_⟩
  · intro cfg env r0
    rw [collectStage_rebootReason]
    exact setRebootReason_known lo r _ (collect_reason_known lo env.probe)
  · intro p
    exact setRebootReason_known lo r _ (collect_reason_known lo p)
  · intro manager probe
    exact setRebootReason_known lo r _ (Or.inr (detect_reason_known lo manager probe))
  · intro reason
    refine ⟨_, _, _, _, _, buf_SetRebootReason lo r reason, ?_⟩
    intro hknown
    rcases hknown with h | h
    · rw [h]
      decide
    · generalize toLower lo (trimSpace reason) = rr at h
      simp only [reasons, List.mem_cons, List.mem_singleton, List.not_mem_nil, or_false] at h
      rcases h with h | h | h | h | h <;> subst h <;> decide

/-- The reason ` Kernel ` is trimmed and lower-cased: the sample of the label kernel has
value 1 and the four others 0. -/
theorem setRebootReason_example :
    (SetRebootReason id NewRegistry " Kernel ").buf =
      [Line.help "os_reboot_required" "Reboot reason (one-hot)",
       Line.type "os_reboot_required" "gauge",
       Line.sample "os_reboot_required" [("reason", "kernel")] (Num.int 1),
       Line.sample "os_reboot_required" [("reason", "libc")] (Num.int 0),
       Line.sample "os_reboot_required" [("reason", "systemd")] (Num.int 0),
       Line.sample "os_reboot_required" [("reason", "other")] (Num.int 0),
       Line.sample "os_reboot_required" [("reason", "unknown")] (Num.int 0)] := by
  decide

/-- A string that is none of the five labels, which no caller passes, is compared with
each label and matches none (registry.go:71-79): for `firmware` all five samples have
value 0. -/
theorem setRebootReason_unlisted :
    (SetRebootReason id NewRegistry "firmware").buf =
      [Line.help "os_reboot_required" "Reboot reason (one-hot)",
       Line.type "os_reboot_required" "gauge",
       Line.sample "os_reboot_required" [("reason", "kernel")] (Num.int 0),
       Line.sample "os_reboot_required" [("reason", "libc")] (Num.int 0),
       Line.sample "os_reboot_required" [("reason", "systemd")] (Num.int 0),
       Line.sample "os_reboot_required" [("reason", "other")] (Num.int 0),
       Line.sample "os_reboot_required" [("reason", "unknown")] (Num.int 0)] := by
  decide

end metrics

namespace updater

/-- A latest identifier `fetchLatestVersion` returns is not empty. -/
theorem fetchLatestVersion_ne_empty (u : Updater) (env : Env) (latest : String)
    (h : fetchLatestVersion u env = .ok latest) : latest ≠ "" := by
  unfold fetchLatestVersion at h
  simp only at h
  split_ifs at h with hch
  · cases h
    exact hch.1
  · cases hl : env.latest with
    | error e => rw [hl] at h; cases h
    | ok resp =>
      rw [hl] at h
      simp only at h
      split_ifs at h with hst
      cases hb : resp.body with
      | error e => rw [hb] at h; cases h
      | ok tagName =>
        rw [hb] at h
        simp only at h
        split_ifs at h with ht
        cases h
        exact ht

/-- C14. For every latest identifier that `fetchLatestVersion` returns and every running
version, `Check` reports an update available exactly when the normalized form of the
latest identifier differs from the normalized form of the running version, the
normalized form being `normalizeVer`: surrounding white space trimmed, one leading `v`
stripped, case preserved. Latest `v1.2.3` against running `1.2.3` reports no update;
latest `V1.2.3` against running `1.2.3` reports an update. -/
theorem check_updateAvailable (u : Updater) (env : Env) (latest : String)
    (h : fetchLatestVersion u env = .ok latest) :
    (∃ cr, Check u env = .ok cr ∧ cr.Latest = latest ∧ cr.Current = u.current ∧
      (cr.UpdateAvailable = true ↔ normalizeVer latest ≠ normalizeVer u.current)) ∧
    (∀ s, normalizeVer s = trimPrefix (trimSpace s) "v") ∧
    normalizeVer "v1.2.3" = "1.2.3" ∧ normalizeVer "V1.2.3" = "V1.2.3" ∧
    normalizeVer "1.2.3" = "1.2.3" ∧
    (u.current = "1.2.3" → latest = "v1.2.3" →
      ∃ cr, Check u env = .ok cr ∧ cr.UpdateAvailable = false) ∧
    (u.current = "1.2.3" → latest = "V1.2.3" →
      ∃ cr, Check u env = .ok cr ∧ cr.UpdateAvailable = true) := by
  have hne := fetchLatestVersion_ne_empty u env latest h
  have hcheck : Check u env = .ok ⟨u.current, latest,
      decide (latest ≠ "") && decide (normalizeVer latest ≠ normalizeVer u.current)⟩ := by
    unfold Check
    rw [h]
  have hav : (decide (latest ≠ "") && decide (normalizeVer latest ≠ normalizeVer u.current))
      = true ↔ normalizeVer latest ≠ normalizeVer u.current := by
    simp [hne]
  refine ⟨⟨_, hcheck, rfl, rfl, hav⟩, fun _ => rfl, by decide, by decide, by decide, ?_, ?_⟩
  · intro hc hl
    refine ⟨_, hcheck, ?_⟩
    simp only
    rw [hc, hl]
    decide
  · intro hc hl
    refine ⟨_, hcheck, ?_⟩
    simp only
    rw [hc, hl]
    decide

end updater

namespace updater

theorem check_updateAvailable_witness :
    fetchLatestVersion (pinned "V1.2.3") published = .ok "V1.2.3" ∧
    (∃ cr, Check (pinned "V1.2.3") published = .ok cr ∧ cr.UpdateAvailable = true) ∧
    fetchLatestVersion (pinned "v1.2.3") published = .ok "v1.2.3" ∧
    (∃ cr, Check (pinned "v1.2.3") published = .ok cr ∧ cr.UpdateAvailable = false) :=
  ⟨rfl,
   (check_updateAvailable (pinned "V1.2.3") published "V1.2.3" rfl).2.2.2.2.2.2 rfl rfl,
   rfl,
   (check_updateAvailable (pinned "v1.2.3") published "v1.2.3" rfl).2.2.2.2.2.1 rfl rfl⟩

theorem tryTags_three (parses : String → Bool)
    (release : Nat → Except String (Reply (Except String (List Asset))))
    (a b c : String) (ha : parses a = true) (hb : parses b = true) (hc : parses c = true) :
    (tryTags parses release 0 [a, b, c]).2 =
      if (match release 0 with
          | .ok resp => decide (resp.StatusCode < 400)
          | .error _ => false) = true then [a]
      else if (match release 1 with
          | .ok resp => decide (resp.StatusCode < 400)
          | .error _ => false) = true then [a, b]
      else [a, b, c] := by
  unfold tryTags tryTags tryTags tryTags
  rw [if_neg (by rw [ha]; decide), if_neg (by rw [hb]; decide), if_neg (by rw [hc]; decide)]
  cases release 0 <;> cases release 1 <;> cases release 2 <;> simp <;> split_ifs <;> simp

end updater

namespace updater

theorem tryTags_three_none (parses : String → Bool)
    (release : Nat → Except String (Reply (Except String (List Asset))))
    (a b c : String) (ha : parses a = true) (hb : parses b = true) (hc : parses c = true)
    (h0 : (match release 0 with
          | .ok resp => decide (resp.StatusCode < 400)
          | .error _ => false) = false)
    (h1 : (match release 1 with
          | .ok resp => decide (resp.StatusCode < 400)
          | .error _ => false) = false)
    (h2 : (match release 2 with
          | .ok resp => decide (resp.StatusCode < 400)
          | .error _ => false) = false) :
    (tryTags parses release 0 [a, b, c]).1 = .ok none := by
  unfold tryTags tryTags tryTags tryTags
  rw [if_neg (by rw [ha]; decide), if_neg (by rw [hb]; decide), if_neg (by rw [hc]; decide)]
  cases hr0 : release 0 <;> cases hr1 : release 1 <;> cases hr2 : release 2 <;>
    simp_all <;> (repeat' split_ifs) <;> first | rfl | omega

/-- The loop of `resolveAssetURLs` ends without a panic when every URL it is given
parses. -/
theorem tryTags_returns (parses : String → Bool)
    (release : Nat → Except String (Reply (Except String (List Asset))))
    (urls : List String) (i : Nat) (h : ∀ url ∈ urls, parses url = true) :
    (∃ r, (tryTags parses release i urls).1 = .ok r) := by
  induction urls generalizing i with
  | nil => exact ⟨none, rfl⟩
  | cons url rest ih =>
    have hu : parses url = true := h url (List.mem_cons_self _ _)
    have hr := ih (i + 1) (fun x hx => h x (List.mem_cons_of_mem _ hx))
    unfold tryTags
    rw [if_neg (by rw [hu]; decide)]
    cases hrel : release i with
    | error e => exact hr
    | ok resp =>
      by_cases hst : resp.StatusCode < 400
      · exact ⟨some resp, by simp only [if_pos hst]⟩
      · simp only [if_neg hst]
        exact hr

/-- The URLs `resolveAssetURLs` queries are those its loop queries. -/
theorem resolveAssetURLs_queried (u : Updater) (env : Env) (tag asset : String)
    (htag : trimSpace tag ≠ "") :
    (resolveAssetURLs u env tag asset).2 =
      (tryTags env.parses env.release 0 (tagURLs u.cfg.GitHubRepo (trimSpace tag))).2 := by
  unfold resolveAssetURLs
  simp only
  rw [if_neg htag]
  split
  · rfl
  · rfl
  · rfl
  · split
    · rfl
    · split_ifs <;> rfl

/-- For a tag whose first request URL does not parse, `resolveAssetURLs` panics before
it queries the feed: the discarded error of `http.NewRequestWithContext` leaves a nil
request, on which `req.Header.Set` is called (updater.go:207-208). -/
theorem resolveAssetURLs_nil_request :
    tagURLs "R4VXN/Prometheus" (trimSpace "100%") =
      [ "https://api.github.com/repos/R4VXN/Prometheus/releases/tags/100%",
        "https://api.github.com/repos/R4VXN/Prometheus/releases/tags/v100%",
        "https://api.github.com/repos/R4VXN/Prometheus/releases/tags/100%" ] ∧
    published.parses "https://api.github.com/repos/R4VXN/Prometheus/releases/tags/100%" = false ∧
    resolveAssetURLs running published "100%" "os-updates-exporter_Linux_amd64.tar.gz" =
      (.panic nilDereference, []) := by
  decide

/-- C15, as the code has it. For a tag that is not empty once trimmed and whose three
request URLs parse, `resolveAssetURLs` queries the release feed with up to three
spellings in this order: the tag itself, the tag with one leading `v` stripped and a `v`
put in front, the tag with one leading `v` stripped. It stops at the first query
answered with a status below 400 and returns an error when none is. -/
theorem resolveAssetURLs_order (u : Updater) (env : Env) (tag asset : String)
    (htag : trimSpace tag ≠ "")
    (hparse : ∀ url ∈ tagURLs u.cfg.GitHubRepo (trimSpace tag), env.parses url = true) :
    tagURLs u.cfg.GitHubRepo (trimSpace tag) =
      [ "https://api.github.com/repos/" ++ u.cfg.GitHubRepo ++ "/releases/tags/" ++
          trimSpace tag,
        "https://api.github.com/repos/" ++ u.cfg.GitHubRepo ++ "/releases/tags/v" ++
          trimPrefix (trimSpace tag) "v",
        "https://api.github.com/repos/" ++ u.cfg.GitHubRepo ++ "/releases/tags/" ++
          trimPrefix (trimSpace tag) "v" ] ∧
    (answered env 0 = true →
      (resolveAssetURLs u env tag asset).2 =
        (tagURLs u.cfg.GitHubRepo (trimSpace tag)).take 1) ∧
    (answered env 0 = false → answered env 1 = true →
      (resolveAssetURLs u env tag asset).2 =
        (tagURLs u.cfg.GitHubRepo (trimSpace tag)).take 2) ∧
    (answered env 0 = false → answered env 1 = false →
      (resolveAssetURLs u env tag asset).2 = tagURLs u.cfg.GitHubRepo (trimSpace tag)) ∧
    (answered env 0 = false → answered env 1 = false → answered env 2 = false →
      (resolveAssetURLs u env tag asset).1 =
        .error ("could not resolve release tag " ++ trimSpace tag)) := by
  have hq := resolveAssetURLs_queried u env tag asset htag
  unfold tagURLs at hq hparse ⊢
  have ha := hparse _ (List.mem_cons_self _ _)
  have hb := hparse _ (List.mem_cons_of_mem _ (List.mem_cons_self _ _))
  have hc := hparse _ (List.mem_cons_of_mem _ (List.mem_cons_of_mem _ (List.mem_cons_self _ _)))
  rw [tryTags_three env.parses env.release _ _ _ ha hb hc] at hq
  unfold answered
  refine ⟨rfl, ?_, ?_, ?_, ?_⟩
  · intro h0
    rw [hq, if_pos h0]
    rfl
  · intro h0 h1
    rw [hq, if_neg (by rw [h0]; decide), if_pos h1]
    rfl
  · intro h0 h1
    rw [hq, if_neg (by rw [h0]; decide), if_neg (by rw [h1]; decide)]
  · intro h0 h1 h2
    have hnone := tryTags_three_none env.parses env.release _ _ _ ha hb hc h0 h1 h2
    unfold resolveAssetURLs tagURLs
    simp only
    rw [if_neg htag, hnone]

theorem resolveAssetURLs_order_witness :
    trimSpace "1.3.0" ≠ "" ∧
    (resolveAssetURLs running retagged "1.3.0" "os-updates-exporter_Linux_amd64.tar.gz").2 =
      [ "https://api.github.com/repos/R4VXN/Prometheus/releases/tags/1.3.0",
        "https://api.github.com/repos/R4VXN/Prometheus/releases/tags/v1.3.0" ] :=
  ⟨by decide,
   ((resolveAssetURLs_order running retagged "1.3.0" "os-updates-exporter_Linux_amd64.tar.gz"
      (by decide) (by decide)).2.2.1 rfl rfl).trans (by decide)⟩

/-- C15, as the claim states it, fails. For the tag `1.3.0` and a feed that answers no
request, the second URL queried is the spelling with a `v` put in front and the third
the spelling with the leading `v` stripped, not the other way round. -/
theorem resolveAssetURLs_order_counterexample :
    (resolveAssetURLs running untagged "1.3.0" "os-updates-exporter_Linux_amd64.tar.gz").2 =
      [ "https://api.github.com/repos/R4VXN/Prometheus/releases/tags/1.3.0",
        "https://api.github.com/repos/R4VXN/Prometheus/releases/tags/v1.3.0",
        "https://api.github.com/repos/R4VXN/Prometheus/releases/tags/1.3.0" ] ∧
    (resolveAssetURLs running untagged "1.3.0" "os-updates-exporter_Linux_amd64.tar.gz").2 ≠
      [ "https://api.github.com/repos/R4VXN/Prometheus/releases/tags/1.3.0",
        "https://api.github.com/repos/R4VXN/Prometheus/releases/tags/" ++ trimPrefix "1.3.0" "v",
        "https://api.github.com/repos/R4VXN/Prometheus/releases/tags/" ++ "v" ++ "1.3.0" ] := by
  decide

end updater

/-! ## The file system -/

theorem lookup_mapAssign_self {β : Type} (m : List (String × β)) (k : String) (v : β) :
    List.lookup k (mapAssign m k v) = some v := by
  simp [mapAssign, List.lookup]

theorem lookup_mapAssign_ne {β : Type} (m : List (String × β)) (k j : String) (v : β)
    (h : j ≠ k) : List.lookup j (mapAssign m k v) = List.lookup j m := by
  have hjk : (j == k) = false := by simpa using h
  simp [mapAssign, List.lookup, hjk, lookup_filter_ne m k j h]

theorem lookup_filter_self {β : Type} (m : List (String × β)) (k : String) :
    List.lookup k (m.filter (fun e => e.1 != k)) = none := by
  induction m with
  | nil => rfl
  | cons e rest ih =>
    obtain ⟨a, b⟩ := e
    by_cases hak : a = k
    · subst hak
      simp [List.filter, ih]
    · have hne : (a != k) = true := by simpa using hak
      have hka : (k == a) = false := by simpa using fun h : k = a => hak h.symm
      simp only [List.filter, hne, List.lookup, hka, ih]

theorem append_ne_self (path suffix : String) (h : suffix ≠ "") : path ++ suffix ≠ path := by
  intro heq
  have hlen := congrArg String.length heq
  rw [String.length_append] at hlen
  have hs : suffix.length = 0 := by omega
  apply h
  apply String.ext
  exact List.length_eq_zero.mp hs

namespace os

theorem read_mapAssign_self (fs : Files) (p content : String) :
    Files.read (mapAssign fs p content) p = some content :=
  lookup_mapAssign_self fs p content

theorem read_mapAssign_ne (fs : Files) (p q content : String) (h : q ≠ p) :
    Files.read (mapAssign fs p content) q = Files.read fs q :=
  lookup_mapAssign_ne fs p q content h

theorem read_erase_self (fs : Files) (p : String) : Files.read (Files.erase fs p) p = none :=
  lookup_filter_self fs p

theorem read_erase_ne (fs : Files) (p q : String) (h : q ≠ p) :
    Files.read (Files.erase fs p) q = Files.read fs q :=
  lookup_filter_ne fs p q h

/-- A call leaves every file it does not name as it was. -/
theorem effect_frame (c : Call) (f : Fault) (fs : Files) (q : String) (h : q ∉ c.paths) :
    Files.read (effect c f fs).2 q = Files.read fs q := by
  cases f with
  | refuse e => rfl
  | cut e kept =>
    cases c <;> simp only [effect] <;> first
      | rfl
      | (apply read_mapAssign_ne; simpa [Call.paths] using h)
  | pass =>
    cases c with
    | mkdirAll dir perm =>
      simp only [effect]
      split_ifs <;> rfl
    | writeFile path data perm =>
      simp only [effect]
      apply read_mapAssign_ne
      simpa [Call.paths] using h
    | create path data =>
      simp only [effect]
      apply read_mapAssign_ne
      simpa [Call.paths] using h
    | remove path =>
      simp only [effect]
      split_ifs
      · apply read_erase_ne
        simpa [Call.paths] using h
      · rfl
    | rename src dst =>
      simp only [effect]
      have hq : q ≠ src ∧ q ≠ dst := by simpa [Call.paths] using h
      cases hs : Files.read fs src with
      | none => rfl
      | some content =>
        simp only
        rw [read_mapAssign_ne _ _ _ _ hq.2, read_erase_ne _ _ _ hq.1]
    | chmod path mode =>
      simp only [effect]
      split_ifs <;> rfl

/-- A `MkdirAll` changes no file. -/
theorem effect_mkdirAll (dir : String) (perm : Nat) (f : Fault) (fs : Files) :
    (effect (.mkdirAll dir perm) f fs).2 = fs := by
  cases f <;> simp only [effect]
  split_ifs <;> rfl

/-- A rename that returns an error changes no file. -/
theorem effect_rename_error (src dst : String) (f : Fault) (fs : Files)
    (h : (effect (.rename src dst) f fs).1 ≠ none) : (effect (.rename src dst) f fs).2 = fs := by
  cases f with
  | refuse e => rfl
  | cut e kept => rfl
  | pass =>
    simp only [effect] at h ⊢
    cases hs : Files.read fs src with
    | none => rfl
    | some content =>
      rw [hs] at h
      exact absurd rfl h

/-- A rename that returns no error moves the content of the source to the destination. -/
theorem effect_rename_ok (src dst : String) (f : Fault) (fs : Files)
    (h : (effect (.rename src dst) f fs).1 = none) :
    Files.read (effect (.rename src dst) f fs).2 dst = Files.read fs src ∧
    (Files.read fs src).isSome = true := by
  cases f with
  | refuse e => cases h
  | cut e kept => cases h
  | pass =>
    simp only [effect] at h ⊢
    cases hs : Files.read fs src with
    | none =>
      rw [hs] at h
      cases h
    | some content =>
      simp only
      exact ⟨read_mapAssign_self _ _ _, rfl⟩

/-- A write that returns no error leaves the data in the file. -/
theorem effect_writeFile_ok (path data : String) (perm : Nat) (f : Fault) (fs : Files)
    (h : (effect (.writeFile path data perm) f fs).1 = none) :
    Files.read (effect (.writeFile path data perm) f fs).2 path = some data := by
  cases f with
  | refuse e => cases h
  | cut e kept => cases h
  | pass => exact read_mapAssign_self _ _ _

/-- A call under a fault other than `pass` returns an error. -/
theorem effect_fault (c : Call) (f : Fault) (fs : Files) (h : f ≠ Fault.pass) :
    (effect c f fs).1 ≠ none := by
  cases f with
  | pass => exact absurd rfl h
  | refuse e => simp [effect]
  | cut e kept => cases c <;> simp [effect]

end os

namespace os

theorem exec_err (c : Call) (f : Fault) (w : World) : (exec c f w).1 = (effect c f w.files).1 :=
  rfl

theorem exec_files (c : Call) (f : Fault) (w : World) :
    (exec c f w).2.files = (effect c f w.files).2 := rfl

theorem exec_steps (c : Call) (f : Fault) (w : World) :
    (exec c f w).2.steps = w.steps ++ [{ call := c, fault := f, err := (effect c f w.files).1 }] :=
  rfl

theorem exec_persists (c : Call) (f : Fault) (w : World) : (exec c f w).2.persists = w.persists :=
  rfl

theorem exec_steps2 (c1 c2 : Call) (f1 f2 : Fault) (w : World) :
    (exec c2 f2 (exec c1 f1 w).2).2.steps =
      w.steps ++ [{ call := c1, fault := f1, err := (effect c1 f1 w.files).1 },
                  { call := c2, fault := f2, err := (effect c2 f2 (exec c1 f1 w).2.files).1 }] := by
  rw [exec_steps, exec_steps, List.append_assoc]
  rfl

theorem exec_steps3 (c1 c2 c3 : Call) (f1 f2 f3 : Fault) (w : World) :
    (exec c3 f3 (exec c2 f2 (exec c1 f1 w).2).2).2.steps =
      w.steps ++ [{ call := c1, fault := f1, err := (effect c1 f1 w.files).1 },
                  { call := c2, fault := f2, err := (effect c2 f2 (exec c1 f1 w).2.files).1 },
                  { call := c3, fault := f3,
                    err := (effect c3 f3 (exec c2 f2 (exec c1 f1 w).2).2.files).1 }] := by
  rw [exec_steps, exec_steps2, List.append_assoc]
  rfl

end os

namespace state

/-- What `SaveAtomic` does, by the outcome of its calls. -/
theorem saveAtomic_outcome (marshal : State → Except String String) (f : os.AtomicFaults)
    (path : String) (s : State) (w : os.World) :
    ((SaveAtomic marshal f path s w).1 ≠ none →
      os.Files.read (SaveAtomic marshal f path s w).2.files path = os.Files.read w.files path) ∧
    ((SaveAtomic marshal f path s w).1 = none →
      ∃ b, marshal s = .ok b ∧
        os.Files.read (SaveAtomic marshal f path s w).2.files path = some b) ∧
    (f.mkdir ≠ os.Fault.pass → (SaveAtomic marshal f path s w).1 ≠ none) ∧
    ((∃ e, marshal s = .error e) → (SaveAtomic marshal f path s w).1 ≠ none) ∧
    (f.write ≠ os.Fault.pass → (SaveAtomic marshal f path s w).1 ≠ none) ∧
    (SaveAtomic marshal f path s w).2.persists = w.persists ∧
    (∃ l, (SaveAtomic marshal f path s w).2.steps = w.steps ++ l ∧
      l.map os.Step.call <+:
        (match marshal s with
         | .ok b => [os.Call.mkdirAll (pathDir path) 0o750,
                     os.Call.writeFile (path ++ ".tmp") b 0o640,
                     os.Call.rename (path ++ ".tmp") path]
         | .error _ => [os.Call.mkdirAll (pathDir path) 0o750])) := by
  have htmp : path ≠ path ++ ".tmp" := fun h => append_ne_self path ".tmp" (by decide) h.symm
  have hmk : (os.exec (.mkdirAll (pathDir path) 0o750) f.mkdir w).2.files = w.files :=
    os.effect_mkdirAll _ _ _ _
  unfold SaveAtomic
  simp only
  cases h1 : (os.exec (.mkdirAll (pathDir path) 0o750) f.mkdir w).1 with
  | some e =>
    simp only
    refine ⟨?_, ?_, ?_, ?_, ?_, rfl, ⟨_, os.exec_steps _ _ _, ?_⟩⟩
    · intro _
      rw [hmk]
    · intro h
      cases h
    · intro _ h
      cases h
    · intro _ h
      cases h
    · intro _ h
      cases h
    · cases marshal s <;> simp
  | none =>
    have hpass : f.mkdir = os.Fault.pass := by
      by_contra hne
      exact os.effect_fault _ _ w.files hne h1
    simp only
    cases h2 : marshal s with
    | error e =>
      simp only
      refine ⟨?_, ?_, ?_, ?_, ?_, rfl, ⟨_, os.exec_steps _ _ _, ?_⟩⟩
      · intro _
        rw [hmk]
      · intro h
        cases h
      · intro h
        exact absurd hpass h
      · intro _ h
        cases h
      · intro _ h
        cases h
      · simp
    | ok b =>
      simp only
      have hwfr : os.Files.read (os.exec (.writeFile (path ++ ".tmp") b 0o640) f.write
          (os.exec (.mkdirAll (pathDir path) 0o750) f.mkdir w).2).2.files path =
          os.Files.read w.files path := by
        rw [os.exec_files, os.effect_frame _ _ _ _ (by simpa [os.Call.paths] using htmp), hmk]
      cases h3 : (os.exec (.writeFile (path ++ ".tmp") b 0o640) f.write
          (os.exec (.mkdirAll (pathDir path) 0o750) f.mkdir w).2).1 with
      | some e =>
        simp only
        refine ⟨?_, ?_, ?_, ?_, ?_, rfl, ⟨_, os.exec_steps2 _ _ _ _ _, ?_⟩⟩
        · intro _
          exact hwfr
        · intro h
          cases h
        · intro h
          exact absurd hpass h
        · rintro ⟨e', he'⟩
          cases he'
        · intro _ h
          cases h
        · simp
      | none =>
        have hwpass : f.write = os.Fault.pass := by
          by_contra hne
          exact os.effect_fault _ _ _ hne h3
        have hwritten := os.effect_writeFile_ok _ _ _ _ _ h3
        simp only
        refine ⟨?_, ?_, ?_, ?_, ?_, rfl, ⟨_, os.exec_steps3 _ _ _ _ _ _ _, ?_⟩⟩
        · intro herr
          rw [os.exec_files, os.effect_rename_error _ _ _ _ herr]
          exact hwfr
        · intro hok
          refine ⟨b, rfl, ?_⟩
          rw [os.exec_files, (os.effect_rename_ok _ _ _ _ hok).1]
          exact hwritten
        · intro h
          exact absurd hpass h
        · rintro ⟨e', he'⟩
          cases he'
        · intro h
          exact absurd hwpass h
        · simp

end state

/-- The temporary file of an atomic write lies in the directory of its target. -/
theorem pathDir_tmp (path : String) : pathDir (path ++ ".tmp") = pathDir path := by
  unfold pathDir
  have h : (path ++ ".tmp").data = path.data ++ ['.', 't', 'm', 'p'] := by
    rw [String.data_append]
  rw [h]
  simp [List.dropWhile]

namespace metrics

/-- What `WriteTextfileAtomic` does, by the outcome of its calls. -/
theorem writeTextfileAtomic_outcome (f : os.AtomicFaults) (path content : String) (mode : Nat)
    (w : os.World) :
    ((WriteTextfileAtomic f path content mode w).1 ≠ none →
      os.Files.read (WriteTextfileAtomic f path content mode w).2.files path =
        os.Files.read w.files path) ∧
    ((WriteTextfileAtomic f path content mode w).1 = none →
      os.Files.read (WriteTextfileAtomic f path content mode w).2.files path = some content) ∧
    (f.mkdir ≠ os.Fault.pass → (WriteTextfileAtomic f path content mode w).1 ≠ none) ∧
    (f.write ≠ os.Fault.pass → (WriteTextfileAtomic f path content mode w).1 ≠ none) ∧
    (∃ l, (WriteTextfileAtomic f path content mode w).2.steps = w.steps ++ l ∧
      l.map os.Step.call <+:
        [os.Call.mkdirAll (pathDir path) 0o755,
         os.Call.writeFile (path ++ ".tmp") content mode,
         os.Call.rename (path ++ ".tmp") path]) := by
  have htmp : path ≠ path ++ ".tmp" := fun h => append_ne_self path ".tmp" (by decide) h.symm
  have hmk : (os.exec (.mkdirAll (pathDir path) 0o755) f.mkdir w).2.files = w.files :=
    os.effect_mkdirAll _ _ _ _
  unfold WriteTextfileAtomic
  simp only
  cases h1 : (os.exec (.mkdirAll (pathDir path) 0o755) f.mkdir w).1 with
  | some e =>
    simp only
    refine ⟨?_, ?_, ?_, ?_, ⟨_, os.exec_steps _ _ _, ?_⟩⟩
    · intro _
      rw [hmk]
    · intro h
      cases h
    · intro _ h
      cases h
    · intro _ h
      cases h
    · simp
  | none =>
    have hpass : f.mkdir = os.Fault.pass := by
      by_contra hne
      exact os.effect_fault _ _ w.files hne h1
    simp only
    have hwfr : os.Files.read (os.exec (.writeFile (path ++ ".tmp") content mode) f.write
        (os.exec (.mkdirAll (pathDir path) 0o755) f.mkdir w).2).2.files path =
        os.Files.read w.files path := by
      rw [os.exec_files, os.effect_frame _ _ _ _ (by simpa [os.Call.paths] using htmp), hmk]
    cases h3 : (os.exec (.writeFile (path ++ ".tmp") content mode) f.write
        (os.exec (.mkdirAll (pathDir path) 0o755) f.mkdir w).2).1 with
    | some e =>
      simp only
      refine ⟨?_, ?_, ?_, ?_, ⟨_, os.exec_steps2 _ _ _ _ _, ?_⟩⟩
      · intro _
        exact hwfr
      · intro h
        cases h
      · intro h
        exact absurd hpass h
      · intro _ h
        cases h
      · simp
    | none =>
      have hwpass : f.write = os.Fault.pass := by
        by_contra hne
        exact os.effect_fault _ _ _ hne h3
      have hwritten := os.effect_writeFile_ok _ _ _ _ _ h3
      simp only
      refine ⟨?_, ?_, ?_, ?_, ⟨_, os.exec_steps3 _ _ _ _ _ _ _, ?_⟩⟩
      · intro herr
        rw [os.exec_files, os.effect_rename_error _ _ _ _ herr]
        exact hwfr
      · intro hok
        rw [os.exec_files, (os.effect_rename_ok _ _ _ _ hok).1]
        exact hwritten
      · intro h
        exact absurd hpass h
      · intro h
        exact absurd hwpass h
      · simp

end metrics

namespace os

theorem confined_refl (paths : List String) (w : World) : Confined paths w w :=
  ⟨⟨[], by simp, by simp⟩, fun _ _ => rfl⟩

theorem confined_trans {paths : List String} {w1 w2 w3 : World}
    (h12 : Confined paths w1 w2) (h23 : Confined paths w2 w3) : Confined paths w1 w3 := by
  obtain ⟨⟨l1, hl1, hp1⟩, hf1⟩ := h12
  obtain ⟨⟨l2, hl2, hp2⟩, hf2⟩ := h23
  refine ⟨⟨l1 ++ l2, by rw [hl2, hl1, List.append_assoc], ?_⟩, ?_⟩
  · intro st hst p hp
    rcases List.mem_append.mp hst with h | h
    · exact hp1 st h p hp
    · exact hp2 st h p hp
  · intro q hq
    rw [hf2 q hq, hf1 q hq]

theorem confined_mono {paths more : List String} {w w' : World}
    (hsub : ∀ p ∈ paths, p ∈ more) (h : Confined paths w w') : Confined more w w' := by
  obtain ⟨⟨l, hl, hp⟩, hf⟩ := h
  refine ⟨⟨l, hl, fun st hst p hpp => hsub p (hp st hst p hpp)⟩, ?_⟩
  intro q hq
  exact hf q (fun hin => hq (hsub q hin))

theorem confined_exec (paths : List String) (c : Call) (f : Fault) (w : World)
    (hc : ∀ p ∈ c.paths, p ∈ paths) : Confined paths w (exec c f w).2 := by
  refine ⟨⟨_, exec_steps c f w, ?_⟩, ?_⟩
  · intro st hst p hp
    rw [List.mem_singleton] at hst
    subst hst
    exact hc p hp
  · intro q hq
    rw [exec_files]
    exact effect_frame c f w.files q (fun hin => hq (hc q hin))

/-- A `create` that returns no error leaves the data in the file. -/
theorem effect_create_ok (path data : String) (f : Fault) (fs : Files)
    (h : (effect (.create path data) f fs).1 = none) :
    Files.read (effect (.create path data) f fs).2 path = some data := by
  cases f with
  | refuse e => cases h
  | cut e kept => cases h
  | pass => exact read_mapAssign_self _ _ _

end os

namespace state

/-- `SaveAtomic` names only the directory of its target, its temporary file and its
target. -/
theorem saveAtomic_confined (marshal : State → Except String String) (f : os.AtomicFaults)
    (path : String) (s : State) (w : os.World) :
    os.Confined [pathDir path, path ++ ".tmp", path] w (SaveAtomic marshal f path s w).2 := by
  have c1 : os.Confined [pathDir path, path ++ ".tmp", path] w
      (os.exec (.mkdirAll (pathDir path) 0o750) f.mkdir w).2 :=
    os.confined_exec _ _ _ _ (by simp [os.Call.paths])
  unfold SaveAtomic
  simp only
  cases (os.exec (.mkdirAll (pathDir path) 0o750) f.mkdir w).1 with
  | some e => exact c1
  | none =>
    simp only
    cases marshal s with
    | error e => exact c1
    | ok b =>
      simp only
      have c2 := os.confined_trans c1 (os.confined_exec [pathDir path, path ++ ".tmp", path]
        (.writeFile (path ++ ".tmp") b 0o640) f.write
        (os.exec (.mkdirAll (pathDir path) 0o750) f.mkdir w).2 (by simp [os.Call.paths]))
      cases (os.exec (.writeFile (path ++ ".tmp") b 0o640) f.write
          (os.exec (.mkdirAll (pathDir path) 0o750) f.mkdir w).2).1 with
      | some e => exact c2
      | none =>
        exact os.confined_trans c2 (os.confined_exec _ _ _ _ (by simp [os.Call.paths]))

end state

namespace updater

theorem persistUpdaterState_persists (u : Updater) (env : Env) (a b : Bool) (w : os.World) :
    (persistUpdaterState u env a b w).persists = w.persists ++ [(a, b)] := by
  unfold persistUpdaterState persistSave
  simp only
  rw [(state.saveAtomic_outcome _ _ _ _ _).2.2.2.2.2.1]

theorem persistUpdaterState_files (u : Updater) (env : Env) (a b : Bool) (w : os.World) :
    (persistUpdaterState u env a b w).files = (persistSave u env a b w).2.files := rfl

theorem persistUpdaterState_steps (u : Updater) (env : Env) (a b : Bool) (w : os.World) :
    (persistUpdaterState u env a b w).steps = (persistSave u env a b w).2.steps := rfl

/-- `persistUpdaterState` names only the paths of the state file. -/
theorem persistUpdaterState_confined (u : Updater) (env : Env) (a b : Bool) (w : os.World) :
    os.Confined (statePaths u) w (persistUpdaterState u env a b w) := by
  have h := state.saveAtomic_confined env.marshal env.save u.cfg.StateFile
    (updaterStatus u env a b w) w
  exact h

theorem downloadTo_confined (env : Env) (site : Site) (url path : String) (w : os.World)
    (paths : List String) (hp : path ∈ paths) :
    os.Confined paths w (downloadTo env site url path w).2 ∧
    (downloadTo env site url path w).2.persists = w.persists ∧
    ((downloadTo env site url path w).1 = .ok () →
      ∃ resp, env.fetch site = .ok resp ∧
        (downloadTo env site url path w).2.files.read path = some resp.body) ∧
    (∀ m, (downloadTo env site url path w).1 = .panic m → env.parses url = false) ∧
    (env.parses url = false → (downloadTo env site url path w) = (.panic nilDereference, w)) := by
  by_cases hu : env.parses url = false
  · have heq : downloadTo env site url path w = (.panic nilDereference, w) := by
      unfold downloadTo
      rw [if_pos hu]
    rw [heq]
    exact ⟨os.confined_refl _ _, rfl, fun h => (by cases h), fun _ _ => hu, fun _ => rfl⟩
  · cases hf : env.fetch site with
    | error e =>
      have heq : downloadTo env site url path w = (.error e, w) := by
        unfold downloadTo
        rw [if_neg hu, hf]
      rw [heq]
      exact ⟨os.confined_refl _ _, rfl, fun h => (by cases h), fun _ h => (by cases h),
        fun h => absurd h hu⟩
    | ok resp =>
      by_cases hst : resp.StatusCode ≥ 400
      · have heq : downloadTo env site url path w =
            (.error ("download status " ++ toString resp.StatusCode), w) := by
          unfold downloadTo
          rw [if_neg hu, hf]
          simp only [if_pos hst]
        rw [heq]
        exact ⟨os.confined_refl _ _, rfl, fun h => (by cases h), fun _ h => (by cases h),
          fun h => absurd h hu⟩
      · cases hx : (os.exec (.create path resp.body) (env.fault site) w).1 with
        | some e =>
          have heq : downloadTo env site url path w =
              (.error e, (os.exec (.create path resp.body) (env.fault site) w).2) := by
            unfold downloadTo
            rw [if_neg hu, hf]
            simp only [if_neg hst]
            split
            · rename_i e1 w1 hm
              rw [hm] at hx
              cases hx
              rw [hm]
            · rename_i w1 hm
              rw [hm] at hx
              cases hx
          rw [heq]
          exact ⟨os.confined_exec _ _ _ _ (by simpa [os.Call.paths] using hp), rfl,
            fun h => (by cases h), fun _ h => (by cases h), fun h => absurd h hu⟩
        | none =>
          have heq : downloadTo env site url path w =
              (.ok (), (os.exec (.create path resp.body) (env.fault site) w).2) := by
            unfold downloadTo
            rw [if_neg hu, hf]
            simp only [if_neg hst]
            split
            · rename_i e1 w1 hm
              rw [hm] at hx
              cases hx
            · rename_i w1 hm
              rw [hm]
          rw [heq]
          refine ⟨os.confined_exec _ _ _ _ (by simpa [os.Call.paths] using hp), rfl,
            fun _ => ⟨resp, rfl, os.effect_create_ok _ _ _ _ hx⟩, fun _ h => (by cases h),
            fun h => absurd h hu⟩

/-- When `resolveAssetURLs` panics, one of the three request URLs does not parse. -/
theorem resolveAssetURLs_panic (u : Updater) (env : Env) (tag asset m : String)
    (h : (resolveAssetURLs u env tag asset).1 = .panic m) :
    ∃ url ∈ tagURLs u.cfg.GitHubRepo (trimSpace tag), env.parses url = false := by
  by_contra hall
  have hall2 : ∀ url ∈ tagURLs u.cfg.GitHubRepo (trimSpace tag), env.parses url = true := by
    intro url hurl
    cases hp : env.parses url
    · exact absurd ⟨url, hurl, hp⟩ hall
    · rfl
  obtain ⟨r, hr⟩ := tryTags_returns env.parses env.release _ 0 hall2
  unfold resolveAssetURLs at h
  simp only at h
  by_cases ht : trimSpace tag = ""
  · rw [if_pos ht] at h
    cases h
  · rw [if_neg ht, hr] at h
    cases r with
    | none => cases h
    | some resp =>
      simp only at h
      cases hb : resp.body with
      | error e => rw [hb] at h; cases h
      | ok assets =>
        rw [hb] at h
        simp only at h
        split_ifs at h

end updater

namespace updater

/-- How `acquire` ends: after calls naming only the scratch paths it either returns an
error, having called `persistUpdaterState` last, or returns the archive path, or panics
on a request that could not be built; when it returns the archive path and a checksum
is required, both downloads are in place and `verifySha256` has accepted them. -/
theorem acquire_exit (lo : Char → Char) (u : Updater) (env : Env) (latest : String)
    (w : os.World) :
    ∃ w', os.Confined (scratchPaths u env) w w' ∧ w'.persists = w.persists ∧
      ((∃ e, acquire lo u env latest w = (.error e, persistUpdaterState u env true false w')) ∨
       (acquire lo u env latest w = (.ok (archivePath u env), w') ∧
         (u.cfg.ChecksumRequired = true →
           ∃ ra rs, env.fetch .getTar = .ok ra ∧ env.fetch .getSum = .ok rs ∧
             w'.files.read (archivePath u env) = some ra.body ∧
             w'.files.read (checksumPath u env) = some rs.body ∧
             verifySha256 lo env (archivePath u env) (checksumPath u env) w' = none)) ∨
       ((∃ m, acquire lo u env latest w = (.panic m, w')) ∧
         ∃ url ∈ acquireURLs u env latest, env.parses url = false)) := by
  cases hres : (resolveAssetURLs u env latest (assetName u env)).1 with
  | panic m =>
    obtain ⟨url, hurl, hp⟩ := resolveAssetURLs_panic u env latest (assetName u env) m hres
    refine ⟨w, os.confined_refl _ _, rfl, Or.inr (Or.inr ⟨⟨m, ?_⟩, url, ?_, hp⟩)⟩
    · unfold acquire
      rw [hres]
    · unfold acquireURLs
      exact List.mem_append_left _ hurl
  | error e =>
    refine ⟨w, os.confined_refl _ _, rfl, Or.inl ⟨e, ?_⟩⟩
    unfold acquire
    rw [hres]
  | ok urls =>
    have hmem1 : urls.1 ∈ acquireURLs u env latest := by
      unfold acquireURLs
      rw [hres]
      refine List.mem_append_right _ ?_
      simp only
      split_ifs <;> simp
    have c1 : os.Confined (scratchPaths u env) w
        (os.exec (.mkdirAll tmpDir 0o750) (env.fault .mkTmp) w).2 :=
      os.confined_exec _ _ _ _ (by simp [os.Call.paths, scratchPaths])
    have hd1 := downloadTo_confined env .getTar urls.1 (archivePath u env)
      (os.exec (.mkdirAll tmpDir 0o750) (env.fault .mkTmp) w).2 (scratchPaths u env)
      (by simp [scratchPaths])
    have c2 := os.confined_trans c1 hd1.1
    cases h1 : (downloadTo env .getTar urls.1 (archivePath u env)
        (os.exec (.mkdirAll tmpDir 0o750) (env.fault .mkTmp) w).2).1 with
    | panic m =>
      refine ⟨_, c2, hd1.2.1, Or.inr (Or.inr ⟨⟨m, ?_⟩, urls.1, hmem1, hd1.2.2.2.1 m h1⟩)⟩
      unfold acquire
      rw [hres]
      simp only [h1]
    | error e =>
      refine ⟨_, c2, hd1.2.1, Or.inl ⟨e, ?_⟩⟩
      unfold acquire
      rw [hres]
      simp only [h1]
    | ok _ =>
      obtain ⟨ra, hra, hfa⟩ := hd1.2.2.1 h1
      by_cases hreq : u.cfg.ChecksumRequired = true
      · by_cases hsha : urls.2 = ""
        · refine ⟨_, c2, hd1.2.1,
            Or.inl ⟨"checksum required but checksum URL is empty", ?_⟩⟩
          unfold acquire
          rw [hres]
          simp only [h1, hreq, hsha, if_true]
        · have hmem2 : urls.2 ∈ acquireURLs u env latest := by
            unfold acquireURLs
            rw [hres]
            refine List.mem_append_right _ ?_
            simp only
            rw [if_pos ⟨hreq, hsha⟩]
            simp
          have hd2 := downloadTo_confined env .getSum urls.2 (checksumPath u env)
            (downloadTo env .getTar urls.1 (archivePath u env)
              (os.exec (.mkdirAll tmpDir 0o750) (env.fault .mkTmp) w).2).2 (scratchPaths u env)
            (by simp [scratchPaths])
          have c3 := os.confined_trans c2 hd2.1
          have hp3 := hd2.2.1.trans hd1.2.1
          cases h2 : (downloadTo env .getSum urls.2 (checksumPath u env)
              (downloadTo env .getTar urls.1 (archivePath u env)
                (os.exec (.mkdirAll tmpDir 0o750) (env.fault .mkTmp) w).2).2).1 with
          | panic m =>
            refine ⟨_, c3, hp3,
              Or.inr (Or.inr ⟨⟨m, ?_⟩, urls.2, hmem2, hd2.2.2.2.1 m h2⟩)⟩
            unfold acquire
            rw [hres]
            simp only [h1, hreq, hsha, if_true, if_false, h2]
          | error e =>
            refine ⟨_, c3, hp3, Or.inl ⟨e, ?_⟩⟩
            unfold acquire
            rw [hres]
            simp only [h1, hreq, hsha, if_true, if_false, h2]
          | ok _ =>
            obtain ⟨rs, hrs, hfs⟩ := hd2.2.2.1 h2
            have hkeep := (downloadTo_confined env .getSum urls.2 (checksumPath u env)
              (downloadTo env .getTar urls.1 (archivePath u env)
                (os.exec (.mkdirAll tmpDir 0o750) (env.fault .mkTmp) w).2).2
              [checksumPath u env] (by simp)).1.2 (archivePath u env)
              (by
                simp only [List.mem_singleton]
                exact fun h => append_ne_self (archivePath u env) ".sha256" (by decide) h.symm)
            cases hv : verifySha256 lo env (archivePath u env) (checksumPath u env)
                (downloadTo env .getSum urls.2 (checksumPath u env)
                  (downloadTo env .getTar urls.1 (archivePath u env)
                    (os.exec (.mkdirAll tmpDir 0o750) (env.fault .mkTmp) w).2).2).2 with
            | some e =>
              refine ⟨_, c3, hp3, Or.inl ⟨e, ?_⟩⟩
              unfold acquire
              rw [hres]
              simp only [h1, hreq, hsha, if_true, if_false, h2, hv]
            | none =>
              refine ⟨_, c3, hp3,
                Or.inr (Or.inl ⟨?_, fun _ => ⟨ra, rs, hra, hrs, ?_, hfs, hv⟩⟩)⟩
              · unfold acquire
                rw [hres]
                simp only [h1, hreq, hsha, if_true, if_false, h2, hv]
              · rw [hkeep]
                exact hfa
      · refine ⟨_, c2, hd1.2.1, Or.inr (Or.inl ⟨?_, fun h => absurd h hreq⟩)⟩
        have hoff : u.cfg.ChecksumRequired = false := by
          cases hc : u.cfg.ChecksumRequired
          · rfl
          · exact absurd hc hreq
        unfold acquire
        rw [hres]
        simp only [h1, hoff]
        rfl

end updater

namespace updater

/-- When `verifySha256` accepts, both files were read and the digest of the archive is
the hash the checksum file declares. -/
theorem verifySha256_none (lo : Char → Char) (env : Env) (tarPath sumPath : String)
    (w : os.World) (h : verifySha256 lo env tarPath sumPath w = none) :
    ∃ sumText archive, w.files.read sumPath = some sumText ∧
      w.files.read tarPath = some archive ∧
      declaredSum lo sumText = some (env.sha256hex archive) := by
  have hread : ∀ (f : os.Fault) (path content : String),
      os.readFile f w path = .ok content → w.files.read path = some content := by
    intro f path content hr
    cases f with
    | refuse e => cases hr
    | cut e kept => cases hr
    | pass =>
      simp only [os.readFile] at hr
      cases hc : w.files.read path with
      | none =>
        rw [hc] at hr
        cases hr
      | some c =>
        rw [hc] at hr
        cases hr
        rfl
  unfold verifySha256 at h
  cases hs : os.readFile (env.fault .readSum) w sumPath with
  | error e =>
    rw [hs] at h
    cases h
  | ok sumText =>
    rw [hs] at h
    simp only at h
    cases hf : fields sumText with
    | nil =>
      rw [hf] at h
      cases h
    | cons first rest =>
      rw [hf] at h
      simp only at h
      cases ha : os.readFile (env.fault .openTar) w tarPath with
      | error e =>
        rw [ha] at h
        cases h
      | ok archive =>
        rw [ha] at h
        simp only at h
        refine ⟨sumText, archive, hread _ _ _ hs, hread _ _ _ ha, ?_⟩
        unfold declaredSum
        rw [hf]
        simp only
        by_cases hne : env.sha256hex archive ≠ toLower lo (trimSpace first)
        · rw [if_pos hne] at h
          cases h
        · rw [not_not.mp hne]

end updater

namespace updater

theorem extractFrom_persists (env : Env) (outPath : String)
    (entries : List (Except String (String × String))) (w : os.World) :
    (extractFrom env outPath entries w).2.persists = w.persists := by
  induction entries with
  | nil => rfl
  | cons entry rest ih =>
    cases entry with
    | error e => rfl
    | ok file =>
      simp only [extractFrom]
      split_ifs
      · exact ih
      · rfl

theorem extractSingleBinary_persists (env : Env) (tarGzPath outPath : String) (w : os.World) :
    (extractSingleBinary env tarGzPath outPath w).2.persists = w.persists := by
  unfold extractSingleBinary
  cases os.readFile (env.fault .openArchive) w tarGzPath with
  | error e => rfl
  | ok content =>
    simp only
    cases env.untar content with
    | error e => rfl
    | ok entries => exact extractFrom_persists env outPath entries w

/-- How `stageBinary` ends: with an error after `persistUpdaterState` as its last
action, or without error and without any call of `persistUpdaterState`. -/
theorem stageBinary_exit (u : Updater) (env : Env) (tarPath : String) (w : os.World) :
    ∃ w', w'.persists = w.persists ∧
      ((∃ e, stageBinary u env tarPath w = (some e, persistUpdaterState u env true false w')) ∨
       stageBinary u env tarPath w = (none, w')) := by
  have hx := extractSingleBinary_persists env tarPath newBin
    (os.exec (.remove newBin) (env.fault .rmStaged)
      (os.exec (.mkdirAll targetDir 0o755) (env.fault .mkTarget) w).2).2
  cases h1 : (extractSingleBinary env tarPath newBin
      (os.exec (.remove newBin) (env.fault .rmStaged)
        (os.exec (.mkdirAll targetDir 0o755) (env.fault .mkTarget) w).2).2).1 with
  | some e =>
    refine ⟨_, hx, Or.inl ⟨e, ?_⟩⟩
    unfold stageBinary
    simp only [h1]
  | none =>
    cases h2 : (os.exec (.chmod newBin 0o755) (env.fault .chmod)
        (extractSingleBinary env tarPath newBin
          (os.exec (.remove newBin) (env.fault .rmStaged)
            (os.exec (.mkdirAll targetDir 0o755) (env.fault .mkTarget) w).2).2).2).1 with
    | some e =>
      refine ⟨_, (os.exec_persists (.chmod newBin 0o755) (env.fault .chmod) _).trans hx,
        Or.inl ⟨e, ?_⟩⟩
      unfold stageBinary
      simp only [h1, h2]
    | none =>
      refine ⟨_, (os.exec_persists (.chmod newBin 0o755) (env.fault .chmod) _).trans hx,
        Or.inr ?_⟩
      unfold stageBinary
      simp only [h1, h2]

theorem setAside_persists (env : Env) (w : os.World) : (setAside env w).2.persists = w.persists :=
  rfl

/-- How `replace` ends: with an error after `persistUpdaterState` as its last action, or
without error and without any call of `persistUpdaterState`. -/
theorem replace_exit (u : Updater) (env : Env) (w : os.World) :
    ∃ w', w'.persists = w.persists ∧
      ((∃ e, replace u env w = (some e, persistUpdaterState u env true false w')) ∨
       replace u env w = (none, w')) := by
  cases h1 : (os.exec (.rename newBin target) (env.fault .install) (setAside env w).2).1 with
  | some e =>
    refine ⟨(os.exec (.rename backup target) (env.fault .restore)
        (os.exec (.remove target) (env.fault .rmLive)
          (os.exec (.rename newBin target) (env.fault .install) (setAside env w).2).2).2).2,
      rfl, Or.inl ⟨"updater run: rename failed: " ++ e, ?_⟩⟩
    unfold replace
    simp only [h1]
  | none =>
    refine ⟨(os.exec (.rename newBin target) (env.fault .install) (setAside env w).2).2,
      rfl, Or.inr ?_⟩
    unfold replace
    simp only [h1]

end updater

namespace updater

theorem run_of_check_error (lo : Char → Char) (u : Updater) (env : Env) (w : os.World)
    (e : String) (hc : Check u env = .error e) :
    Run lo u env w = { result := .error e, world := persistUpdaterState u env false false w } := by
  unfold Run
  rw [hc]

theorem run_of_no_update (lo : Char → Char) (u : Updater) (env : Env) (w : os.World)
    (cr : CheckResult) (hc : Check u env = .ok cr) (hav : cr.UpdateAvailable = false) :
    Run lo u env w =
      { result := .ok { Current := cr.Current, Latest := cr.Latest, Updated := false },
        world := persistUpdaterState u env false true w } := by
  unfold Run
  rw [hc]
  simp only [hav, if_true]

theorem run_of_check_panic (lo : Char → Char) (u : Updater) (env : Env) (w : os.World)
    (m : String) (hc : Check u env = .panic m) :
    Run lo u env w = { result := .panic m, world := w } := by
  unfold Run
  rw [hc]

theorem run_of_acquire_panic (lo : Char → Char) (u : Updater) (env : Env) (w : os.World)
    (cr : CheckResult) (hc : Check u env = .ok cr) (hav : cr.UpdateAvailable = true)
    (m : String) (wa : os.World) (ha : acquire lo u env cr.Latest w = (.panic m, wa)) :
    Run lo u env w = { result := .panic m, world := wa } := by
  unfold Run
  rw [hc]
  simp only [hav, ha]
  rfl

/-- When `Check` panics, the URL of the latest release is requested and does not
parse. -/
theorem check_panic (u : Updater) (env : Env) (m : String) (h : Check u env = .panic m) :
    latestURL u.cfg.GitHubRepo ∈ requestURLs u env ∧
    env.parses (latestURL u.cfg.GitHubRepo) = false := by
  unfold Check at h
  cases hf : fetchLatestVersion u env with
  | ok latest => rw [hf] at h; cases h
  | error e => rw [hf] at h; cases h
  | panic m2 =>
    unfold fetchLatestVersion at hf
    simp only at hf
    by_cases hch : trimSpace u.cfg.UpdateChannel ≠ "" ∧ trimSpace u.cfg.UpdateChannel ≠ "latest" ∧
        trimSpace u.cfg.UpdateChannel ≠ "0"
    · rw [if_pos hch] at hf
      cases hf
    · rw [if_neg hch] at hf
      by_cases hp : env.parses (latestURL u.cfg.GitHubRepo) = false
      · refine ⟨?_, hp⟩
        unfold requestURLs
        rw [if_neg hch]
        exact List.mem_append_left _ (List.mem_singleton.mpr rfl)
      · rw [if_neg hp] at hf
        cases hl : env.latest with
        | error e => rw [hl] at hf; cases hf
        | ok resp =>
          rw [hl] at hf
          simp only at hf
          by_cases hst : resp.StatusCode ≥ 400
          · rw [if_pos hst] at hf
            cases hf
          · rw [if_neg hst] at hf
            cases hb : resp.body with
            | error e => rw [hb] at hf; cases hf
            | ok tagName =>
              rw [hb] at hf
              simp only at hf
              split_ifs at hf

theorem mem_requestURLs_of_acquire (u : Updater) (env : Env) (cr : CheckResult) (url : String)
    (hc : Check u env = .ok cr) (hav : cr.UpdateAvailable = true)
    (h : url ∈ acquireURLs u env cr.Latest) : url ∈ requestURLs u env := by
  unfold requestURLs
  rw [hc]
  simp only [hav, if_true]
  exact List.mem_append_right _ h

theorem run_of_acquire_error (lo : Char → Char) (u : Updater) (env : Env) (w : os.World)
    (cr : CheckResult) (hc : Check u env = .ok cr) (hav : cr.UpdateAvailable = true)
    (e : String) (wa : os.World) (ha : acquire lo u env cr.Latest w = (.error e, wa)) :
    Run lo u env w = { result := .error e, world := wa } := by
  unfold Run
  rw [hc]
  simp only [hav, ha]
  rfl

theorem run_of_stage_error (lo : Char → Char) (u : Updater) (env : Env) (w : os.World)
    (cr : CheckResult) (hc : Check u env = .ok cr) (hav : cr.UpdateAvailable = true)
    (tarPath : String) (wa : os.World) (ha : acquire lo u env cr.Latest w = (.ok tarPath, wa))
    (e : String) (ws : os.World) (hs : stageBinary u env tarPath wa = (some e, ws)) :
    Run lo u env w = { result := .error e, world := ws } := by
  unfold Run
  rw [hc]
  simp only [hav, ha, hs]
  rfl

theorem run_of_replace_error (lo : Char → Char) (u : Updater) (env : Env) (w : os.World)
    (cr : CheckResult) (hc : Check u env = .ok cr) (hav : cr.UpdateAvailable = true)
    (tarPath : String) (wa : os.World) (ha : acquire lo u env cr.Latest w = (.ok tarPath, wa))
    (ws : os.World) (hs : stageBinary u env tarPath wa = (none, ws))
    (e : String) (wr : os.World) (hr : replace u env ws = (some e, wr)) :
    Run lo u env w = { result := .error e, world := wr } := by
  unfold Run
  rw [hc]
  simp only [hav, ha, hs, hr]
  rfl

theorem run_of_replace_ok (lo : Char → Char) (u : Updater) (env : Env) (w : os.World)
    (cr : CheckResult) (hc : Check u env = .ok cr) (hav : cr.UpdateAvailable = true)
    (tarPath : String) (wa : os.World) (ha : acquire lo u env cr.Latest w = (.ok tarPath, wa))
    (ws : os.World) (hs : stageBinary u env tarPath wa = (none, ws))
    (wr : os.World) (hr : replace u env ws = (none, wr)) :
    Run lo u env w =
      { result := .ok { Current := cr.Current, Latest := cr.Latest, Updated := true },
        world := persistUpdaterState u env true true wr } := by
  unfold Run
  rw [hc]
  simp only [hav, ha, hs, hr]
  rfl

/-- How `Run` ends. Either it returns: its last action is one call
`persistUpdaterState upd flag`, no call of it was made before, `flag` tells whether `Run`
returns a result and no error, and `upd` whether `Check` found an update. Or it panics on
a request that could not be built, without any call of `persistUpdaterState`. -/
theorem run_ends (lo : Char → Char) (u : Updater) (env : Env) (w : os.World) :
    (∃ w' upd flag,
      (Run lo u env w).world = persistUpdaterState u env upd flag w' ∧
      w'.persists = w.persists ∧
      (flag = true ↔ ∃ r, (Run lo u env w).result = .ok r) ∧
      (flag = false ↔ ∃ e, (Run lo u env w).result = .error e) ∧
      (upd = true ↔ ∃ cr, Check u env = .ok cr ∧ cr.UpdateAvailable = true)) ∨
    ((∃ m, (Run lo u env w).result = .panic m) ∧
      (Run lo u env w).world.persists = w.persists ∧
      ∃ url ∈ requestURLs u env, env.parses url = false) := by
  cases hc : Check u env with
  | panic m =>
    refine Or.inr ⟨⟨m, ?_⟩, ?_, _, (check_panic u env m hc).1, (check_panic u env m hc).2⟩
    · rw [run_of_check_panic lo u env w m hc]
    · rw [run_of_check_panic lo u env w m hc]
  | error e =>
    refine Or.inl ⟨w, false, false, ?_, rfl, ?_, ?_, ?_⟩
    · rw [run_of_check_error lo u env w e hc]
    · rw [run_of_check_error lo u env w e hc]
      exact ⟨fun h => (by cases h), fun ⟨r, h⟩ => by cases h⟩
    · rw [run_of_check_error lo u env w e hc]
      exact ⟨fun _ => ⟨_, rfl⟩, fun _ => rfl⟩
    · exact ⟨fun h => (by cases h), fun ⟨cr, h, _⟩ => by cases h⟩
  | ok cr =>
    cases hav : cr.UpdateAvailable with
    | false =>
      refine Or.inl ⟨w, false, true, ?_, rfl, ?_, ?_, ?_⟩
      · rw [run_of_no_update lo u env w cr hc hav]
      · rw [run_of_no_update lo u env w cr hc hav]
        exact ⟨fun _ => ⟨_, rfl⟩, fun _ => rfl⟩
      · rw [run_of_no_update lo u env w cr hc hav]
        exact ⟨fun h => (by cases h), fun ⟨e, h⟩ => by cases h⟩
      · refine ⟨fun h => (by cases h), fun ⟨cr2, h, h2⟩ => ?_⟩
        cases h
        rw [hav] at h2
        cases h2
    | true =>
      have hupd : (true = true ↔ ∃ cr2, Completion.ok cr = .ok cr2 ∧
          cr2.UpdateAvailable = true) := ⟨fun _ => ⟨cr, rfl, hav⟩, fun _ => rfl⟩
      obtain ⟨wa, hpa, ha⟩ := (acquire_exit lo u env cr.Latest w).imp (fun _ h => h.2)
      rcases ha with ⟨e, ha⟩ | ⟨ha, -⟩ | ⟨⟨m, ha⟩, url, hurl, hp⟩
      · refine Or.inl ⟨wa, true, false, ?_, hpa, ?_, ?_, hupd⟩
        · rw [run_of_acquire_error lo u env w cr hc hav e _ ha]
        · rw [run_of_acquire_error lo u env w cr hc hav e _ ha]
          exact ⟨fun h => (by cases h), fun ⟨r, h⟩ => by cases h⟩
        · rw [run_of_acquire_error lo u env w cr hc hav e _ ha]
          exact ⟨fun _ => ⟨_, rfl⟩, fun _ => rfl⟩
      · obtain ⟨ws, hps, hs⟩ := stageBinary_exit u env (archivePath u env) wa
        rcases hs with ⟨e, hs⟩ | hs
        · refine Or.inl ⟨ws, true, false, ?_, hps.trans hpa, ?_, ?_, hupd⟩
          · rw [run_of_stage_error lo u env w cr hc hav _ wa ha e _ hs]
          · rw [run_of_stage_error lo u env w cr hc hav _ wa ha e _ hs]
            exact ⟨fun h => (by cases h), fun ⟨r, h⟩ => by cases h⟩
          · rw [run_of_stage_error lo u env w cr hc hav _ wa ha e _ hs]
            exact ⟨fun _ => ⟨_, rfl⟩, fun _ => rfl⟩
        · obtain ⟨wr, hpr, hr⟩ := replace_exit u env ws
          rcases hr with ⟨e, hr⟩ | hr
          · refine Or.inl ⟨wr, true, false, ?_, hpr.trans (hps.trans hpa), ?_, ?_, hupd⟩
            · rw [run_of_replace_error lo u env w cr hc hav _ wa ha ws hs e _ hr]
            · rw [run_of_replace_error lo u env w cr hc hav _ wa ha ws hs e _ hr]
              exact ⟨fun h => (by cases h), fun ⟨r, h⟩ => by cases h⟩
            · rw [run_of_replace_error lo u env w cr hc hav _ wa ha ws hs e _ hr]
              exact ⟨fun _ => ⟨_, rfl⟩, fun _ => rfl⟩
          · refine Or.inl ⟨wr, true, true, ?_, hpr.trans (hps.trans hpa), ?_, ?_, hupd⟩
            · rw [run_of_replace_ok lo u env w cr hc hav _ wa ha ws hs wr hr]
            · rw [run_of_replace_ok lo u env w cr hc hav _ wa ha ws hs wr hr]
              exact ⟨fun _ => ⟨_, rfl⟩, fun _ => rfl⟩
            · rw [run_of_replace_ok lo u env w cr hc hav _ wa ha ws hs wr hr]
              exact ⟨fun h => (by cases h), fun ⟨e, h⟩ => by cases h⟩
      · refine Or.inr ⟨⟨m, ?_⟩, ?_, url,
          mem_requestURLs_of_acquire u env cr url hc hav hurl, hp⟩
        · rw [run_of_acquire_panic lo u env w cr hc hav m _ ha]
        · rw [run_of_acquire_panic lo u env w cr hc hav m _ ha]
          exact hpa

end updater

namespace updater

/-- C11: when an update is available, a checksum is required and the digest of the
downloaded archive differs from the hash the checksum file declares, `Run` never returns
a result, it returns an error whenever its requests can be built, none of its calls on
the file system names the live path, the staging path or the backup path, and the files
at these paths are as they were. The install paths are assumed to be none of the download
paths and none of the paths of the state file. -/
theorem run_checksum_mismatch (lo : Char → Char) (u : Updater) (env : Env) (w : os.World)
    (hreq : u.cfg.ChecksumRequired = true)
    (havail : ∃ cr, Check u env = .ok cr ∧ cr.UpdateAvailable = true)
    (hmis : ∀ ra rs, env.fetch .getTar = .ok ra → env.fetch .getSum = .ok rs →
      declaredSum lo rs.body ≠ some (env.sha256hex ra.body))
    (hdisj : ∀ p ∈ installPaths, p ∉ scratchPaths u env ∧ p ∉ statePaths u) :
    (∀ r, (Run lo u env w).result ≠ .ok r) ∧
    ((∀ url ∈ requestURLs u env, env.parses url = true) →
      ∃ e, (Run lo u env w).result = .error e) ∧
    (∃ l, (Run lo u env w).world.steps = w.steps ++ l ∧
      ∀ st ∈ l, ∀ p ∈ st.call.paths, p ∉ installPaths) ∧
    (∀ p ∈ installPaths, (Run lo u env w).world.files.read p = w.files.read p) := by
  obtain ⟨cr, hc, hav⟩ := havail
  obtain ⟨wa, hconf, -, ha⟩ := acquire_exit lo u env cr.Latest w
  have hout : ∀ p ∈ installPaths, p ∉ scratchPaths u env ++ statePaths u := by
    intro p hp hin
    rcases List.mem_append.mp hin with h | h
    · exact (hdisj p hp).1 h
    · exact (hdisj p hp).2 h
  rcases ha with ⟨e, ha⟩ | ⟨-, hok⟩ | ⟨⟨m, ha⟩, url, hurl, hp⟩
  · have hrun := run_of_acquire_error lo u env w cr hc hav e _ ha
    have hall : os.Confined (scratchPaths u env ++ statePaths u) w
        (persistUpdaterState u env true false wa) :=
      os.confined_trans
        (os.confined_mono (fun p hp => List.mem_append_left _ hp) hconf)
        (os.confined_mono (fun p hp => List.mem_append_right _ hp)
          (persistUpdaterState_confined u env true false wa))
    rw [hrun]
    obtain ⟨⟨l, hl, hpaths⟩, hframe⟩ := hall
    refine ⟨fun r h => (by cases h), fun _ => ⟨e, rfl⟩, ⟨l, hl, ?_⟩,
      fun p hp => hframe p (hout p hp)⟩
    intro st hst p hp hin
    exact hout p hin (hpaths st hst p hp)
  · obtain ⟨ra, rs, hra, hrs, hfa, hfs, hv⟩ := hok hreq
    obtain ⟨sumText, archive, h1, h2, hsum⟩ := verifySha256_none lo env _ _ wa hv
    rw [hfs] at h1
    rw [hfa] at h2
    cases h1
    cases h2
    exact absurd hsum (hmis ra rs hra hrs)
  · have hrun := run_of_acquire_panic lo u env w cr hc hav m _ ha
    have hall : os.Confined (scratchPaths u env ++ statePaths u) w wa :=
      os.confined_mono (fun p hp => List.mem_append_left _ hp) hconf
    rw [hrun]
    obtain ⟨⟨l, hl, hpaths⟩, hframe⟩ := hall
    refine ⟨fun r h => (by cases h), fun hall2 => ?_, ⟨l, hl, ?_⟩,
      fun p hp => hframe p (hout p hp)⟩
    · have := hall2 url (mem_requestURLs_of_acquire u env cr url hc hav hurl)
      rw [hp] at this
      cases this
    · intro st hst p hp hin
      exact hout p hin (hpaths st hst p hp)

/-- C12: when the live binary existed and was moved to the backup path, and the rename
of the staged file onto the live path fails, `Run` returns the error of that rename, and
before it does, it removes the live path and renames the backup onto it, these being its
last calls before `persistUpdaterState`; this rename returns no error unless the system
fails it, and when it returns no error the live path holds the content it held before.
The live path is assumed to be none of the paths of the state file. -/
theorem run_restores_backup (lo : Char → Char) (u : Updater) (env : Env) (w : os.World)
    (cr : CheckResult) (tarPath : String) (wa ws : os.World) (previous e : String)
    (hc : Check u env = .ok cr) (hav : cr.UpdateAvailable = true)
    (ha : acquire lo u env cr.Latest w = (.ok tarPath, wa))
    (hs : stageBinary u env tarPath wa = (none, ws))
    (hlive : ws.files.read target = some previous)
    (hmoved : (setAside env ws).1 = none)
    (hfail : (os.exec (.rename newBin target) (env.fault .install) (setAside env ws).2).1 = some e)
    (hstate : target ∉ statePaths u) :
    (Run lo u env w).result = .error ("updater run: rename failed: " ++ e) ∧
    ∃ (w4 : os.World) (removed undone : Option String),
      (Run lo u env w).world = persistUpdaterState u env true false w4 ∧
      w4.steps = (setAside env ws).2.steps ++
        [⟨.rename newBin target, env.fault .install, some e⟩,
         ⟨.remove target, env.fault .rmLive, removed⟩,
         ⟨.rename backup target, env.fault .restore, undone⟩] ∧
      (env.fault .restore = .pass → undone = none) ∧
      (undone = none → (Run lo u env w).world.files.read target = some previous) := by
  have hne : target ≠ backup := fun h => append_ne_self target ".bak" (by decide) h.symm
  have hrep : replace u env ws = (some ("updater run: rename failed: " ++ e),
      persistUpdaterState u env true false
        (os.exec (.rename backup target) (env.fault .restore)
          (os.exec (.remove target) (env.fault .rmLive)
            (os.exec (.rename newBin target) (env.fault .install)
              (setAside env ws).2).2).2).2) := by
    unfold replace
    simp only [hfail]
  have hrun := run_of_replace_error lo u env w cr hc hav tarPath wa ha ws hs _ _ hrep
  rw [hrun]
  have h1 : os.Files.read (os.exec (.remove backup) (env.fault .rmBackup) ws).2.files target =
      some previous := by
    rw [os.exec_files, os.effect_frame _ _ _ _ (by simpa [os.Call.paths] using hne)]
    exact hlive
  have h2 : os.Files.read (setAside env ws).2.files backup = some previous := by
    have := (os.effect_rename_ok target backup (env.fault .backupLive)
      (os.exec (.remove backup) (env.fault .rmBackup) ws).2.files hmoved).1
    rw [h1] at this
    exact this
  have h3 : (os.exec (.rename newBin target) (env.fault .install) (setAside env ws).2).2.files =
      (setAside env ws).2.files :=
    os.effect_rename_error newBin target (env.fault .install) _ (by
      have herr : (os.effect (.rename newBin target) (env.fault .install)
          (setAside env ws).2.files).1 = some e := hfail
      rw [herr]
      exact Option.some_ne_none _)
  have h4 : os.Files.read (os.exec (.remove target) (env.fault .rmLive)
      (os.exec (.rename newBin target) (env.fault .install) (setAside env ws).2).2).2.files
      backup = some previous := by
    rw [os.exec_files, os.effect_frame _ _ _ _ (by simpa [os.Call.paths] using hne.symm), h3]
    exact h2
  refine ⟨rfl, _,
    (os.effect (.remove target) (env.fault .rmLive)
      (os.exec (.rename newBin target) (env.fault .install) (setAside env ws).2).2.files).1,
    (os.effect (.rename backup target) (env.fault .restore)
      (os.exec (.remove target) (env.fault .rmLive)
        (os.exec (.rename newBin target) (env.fault .install) (setAside env ws).2).2).2.files).1,
    rfl, ?_, ?_, ?_⟩
  · rw [os.exec_steps3]
    have herr : (os.effect (.rename newBin target) (env.fault .install)
        (setAside env ws).2.files).1 = some e := hfail
    rw [herr]
  · intro hpass
    rw [hpass]
    simp only [os.effect]
    rw [h4]
  · intro hundone
    have h5 := (os.effect_rename_ok backup target (env.fault .restore) _ hundone).1
    rw [← os.exec_files, h4] at h5
    rw [(persistUpdaterState_confined u env true false _).2 target hstate]
    exact h5

end updater

namespace updater

theorem run_checksum_mismatch_witness :
    (∃ e, (Run id running tampered installed).result = .error e) ∧
    (Run id running tampered installed).world.files.read target = some "binary-1.2.3" := by
  have h := run_checksum_mismatch id running tampered installed rfl
    ⟨⟨"1.2.3", "v1.3.0", true⟩, rfl, rfl⟩
    (by
      intro ra rs h1 h2
      have e1 : (Except.ok ⟨200, "archive-1.3.0"⟩ : Except String (Reply String)) = .ok ra := h1
      have e2 : (Except.ok ⟨200, "0000  os-updates-exporter_Linux_amd64.tar.gz"⟩ :
          Except String (Reply String)) = .ok rs := h2
      cases e1
      cases e2
      decide)
    (by decide)
  exact ⟨h.2.1 (by decide), h.2.2.2 target (by decide)⟩

theorem run_restores_backup_witness :
    (Run id running stuck installed).result =
      .error "updater run: rename failed: rename: text file busy" ∧
    (Run id running stuck installed).world.files.read target = some "binary-1.2.3" := by
  obtain ⟨hres, w4, removed, undone, hw, -, hpass, hrestored⟩ :=
    run_restores_backup id running stuck installed ⟨"1.2.3", "v1.3.0", true⟩
      (archivePath running stuck) (acquire id running stuck "v1.3.0" installed).2
      (stageBinary running stuck (archivePath running stuck)
        (acquire id running stuck "v1.3.0" installed).2).2
      "binary-1.2.3" "rename: text file busy" rfl rfl rfl rfl rfl rfl rfl (by decide)
  exact ⟨hres, hrestored (hpass rfl)⟩

end updater

namespace state

theorem setManager_fields (s : State) (name : String) (ms : ManagerState) :
    (SetManager s name ms).Version = s.Version ∧
    (SetManager s name ms).LastRunTS = s.LastRunTS ∧
    (SetManager s name ms).LastUpdateCheckTS = s.LastUpdateCheckTS ∧
    (SetManager s name ms).LastUpdateAvailable = s.LastUpdateAvailable ∧
    (SetManager s name ms).LastUpdateRunTS = s.LastUpdateRunTS ∧
    (SetManager s name ms).LastUpdateRunSuccess = s.LastUpdateRunSuccess := by
  unfold SetManager
  cases s.Managers <;> exact ⟨rfl, rfl, rfl, rfl, rfl, rfl⟩

/-- The entry of the manager after `UpdateOldestSeen`: the entry read before the call
with the aging timestamp of the category replaced. -/
theorem getManager_updateOldestSeen (s : State) (manager typ : String) (pending now : Int) :
    GetManager (some (UpdateOldestSeen s manager typ pending now).2) manager =
      setOldestField typ (GetManager (some s) manager)
        (Oldest (some (UpdateOldestSeen s manager typ pending now).2) manager typ) := by
  have hkeep : ∀ ms : ManagerState, setOldestField typ ms (oldestField typ ms) = ms := by
    intro ms
    unfold setOldestField oldestField
    split_ifs <;> rfl
  unfold Oldest
  unfold UpdateOldestSeen ensureManager
  simp only
  split_ifs
  · rw [getManager_setManager_self, oldestField_setOldestField]
  · rw [getManager_setManager_self, oldestField_setOldestField]
  · rw [getManager_setManager_self, hkeep]

theorem getManager_updateOldestSeen_ne (s : State) (manager typ other : String)
    (pending now : Int) (h : other ≠ manager) :
    GetManager (some (UpdateOldestSeen s manager typ pending now).2) other =
      GetManager (some s) other := by
  unfold UpdateOldestSeen ensureManager
  simp only
  split_ifs <;>
    rw [getManager_setManager_ne _ _ _ _ h, getManager_setManager_ne _ _ _ _ h]

theorem updateOldestSeen_fields (s : State) (manager typ : String) (pending now : Int) :
    (UpdateOldestSeen s manager typ pending now).2.Version = s.Version ∧
    (UpdateOldestSeen s manager typ pending now).2.LastRunTS = s.LastRunTS ∧
    (UpdateOldestSeen s manager typ pending now).2.LastUpdateCheckTS = s.LastUpdateCheckTS ∧
    (UpdateOldestSeen s manager typ pending now).2.LastUpdateAvailable =
      s.LastUpdateAvailable ∧
    (UpdateOldestSeen s manager typ pending now).2.LastUpdateRunTS = s.LastUpdateRunTS ∧
    (UpdateOldestSeen s manager typ pending now).2.LastUpdateRunSuccess =
      s.LastUpdateRunSuccess := by
  have h1 := setManager_fields s manager (GetManager (some s) manager)
  unfold UpdateOldestSeen ensureManager
  simp only
  split_ifs
  · have h2 := setManager_fields (SetManager s manager (GetManager (some s) manager)) manager
      (setOldestField typ (GetManager (some s) manager) 0)
    exact ⟨h2.1.trans h1.1, h2.2.1.trans h1.2.1, h2.2.2.1.trans h1.2.2.1,
      h2.2.2.2.1.trans h1.2.2.2.1, h2.2.2.2.2.1.trans h1.2.2.2.2.1,
      h2.2.2.2.2.2.trans h1.2.2.2.2.2⟩
  · have h2 := setManager_fields (SetManager s manager (GetManager (some s) manager)) manager
      (setOldestField typ (GetManager (some s) manager) now)
    exact ⟨h2.1.trans h1.1, h2.2.1.trans h1.2.1, h2.2.2.1.trans h1.2.2.1,
      h2.2.2.2.1.trans h1.2.2.2.1, h2.2.2.2.2.1.trans h1.2.2.2.2.1,
      h2.2.2.2.2.2.trans h1.2.2.2.2.2⟩
  · have h2 := setManager_fields (SetManager s manager (GetManager (some s) manager)) manager
      (GetManager (some s) manager)
    exact ⟨h2.1.trans h1.1, h2.2.1.trans h1.2.1, h2.2.2.1.trans h1.2.2.1,
      h2.2.2.2.1.trans h1.2.2.2.1, h2.2.2.2.2.1.trans h1.2.2.2.2.1,
      h2.2.2.2.2.2.trans h1.2.2.2.2.2⟩

end state

namespace state

theorem setManager_managers (s : State) (name : String) (ms : ManagerState) :
    ∃ m', (SetManager s name ms).Managers = some m' ∧
      ∀ other, other ≠ name → List.lookup other m' = List.lookup other (s.Managers.getD []) := by
  unfold SetManager
  cases hm : s.Managers with
  | none => exact ⟨_, rfl, fun other h => lookup_mapAssign_ne [] name other ms h⟩
  | some m => exact ⟨_, rfl, fun other h => lookup_mapAssign_ne m name other ms h⟩

theorem updateOldestSeen_managers (s : State) (manager typ : String) (pending now : Int) :
    ∃ m', (UpdateOldestSeen s manager typ pending now).2.Managers = some m' ∧
      ∀ other, other ≠ manager →
        List.lookup other m' = List.lookup other (s.Managers.getD []) := by
  obtain ⟨m1, h1, hl1⟩ := setManager_managers s manager (GetManager (some s) manager)
  have step : ∀ ms : ManagerState, ∃ m',
      (SetManager (SetManager s manager (GetManager (some s) manager)) manager ms).Managers =
        some m' ∧
      ∀ other, other ≠ manager →
        List.lookup other m' = List.lookup other (s.Managers.getD []) := by
    intro ms
    obtain ⟨m2, h2, hl2⟩ :=
      setManager_managers (SetManager s manager (GetManager (some s) manager)) manager ms
    refine ⟨m2, h2, fun other h => ?_⟩
    rw [hl2 other h, h1]
    exact hl1 other h
  unfold UpdateOldestSeen ensureManager
  simp only
  split_ifs
  · exact step _
  · exact step _
  · exact step _

/-- C23: `UpdateOldestSeen manager c pending now` changes nothing but the aging timestamp
of category `c` of that manager. The entry of the manager is the entry read before the
call with that one timestamp replaced: its pending counts, repository counts, reboot
flag and its other two aging timestamps are as before (a category other than security
and bugfix selects the timestamp of all). Every other manager reads as before, and is
present in the map exactly when it was. The version, the time of the last run and the
updater fields of the state are as before. -/
theorem updateOldestSeen_frame (s : State) (manager typ : String) (pending now : Int) :
    GetManager (some (UpdateOldestSeen s manager typ pending now).2) manager =
      setOldestField typ (GetManager (some s) manager)
        (Oldest (some (UpdateOldestSeen s manager typ pending now).2) manager typ) ∧
    (GetManager (some (UpdateOldestSeen s manager typ pending now).2) manager).PendingAll =
      (GetManager (some s) manager).PendingAll ∧
    (GetManager (some (UpdateOldestSeen s manager typ pending now).2) manager).PendingSecurity =
      (GetManager (some s) manager).PendingSecurity ∧
    (GetManager (some (UpdateOldestSeen s manager typ pending now).2) manager).PendingBugfix =
      (GetManager (some s) manager).PendingBugfix ∧
    (GetManager (some (UpdateOldestSeen s manager typ pending now).2) manager).RepoUnreachable =
      (GetManager (some s) manager).RepoUnreachable ∧
    (GetManager (some (UpdateOldestSeen s manager typ pending now).2) manager).RepoTotal =
      (GetManager (some s) manager).RepoTotal ∧
    (GetManager (some (UpdateOldestSeen s manager typ pending now).2) manager).RebootRequired =
      (GetManager (some s) manager).RebootRequired ∧
    (typ = "security" →
      (GetManager (some (UpdateOldestSeen s manager typ pending now).2) manager).OldestBugfixSeen =
        (GetManager (some s) manager).OldestBugfixSeen ∧
      (GetManager (some (UpdateOldestSeen s manager typ pending now).2) manager).OldestAllSeen =
        (GetManager (some s) manager).OldestAllSeen) ∧
    (typ = "bugfix" →
      (GetManager (some (UpdateOldestSeen s manager typ pending now).2) manager).OldestSecuritySeen =
        (GetManager (some s) manager).OldestSecuritySeen ∧
      (GetManager (some (UpdateOldestSeen s manager typ pending now).2) manager).OldestAllSeen =
        (GetManager (some s) manager).OldestAllSeen) ∧
    (typ ≠ "security" → typ ≠ "bugfix" →
      (GetManager (some (UpdateOldestSeen s manager typ pending now).2) manager).OldestSecuritySeen =
        (GetManager (some s) manager).OldestSecuritySeen ∧
      (GetManager (some (UpdateOldestSeen s manager typ pending now).2) manager).OldestBugfixSeen =
        (GetManager (some s) manager).OldestBugfixSeen) ∧
    (∀ other, other ≠ manager →
      GetManager (some (UpdateOldestSeen s manager typ pending now).2) other =
        GetManager (some s) other) ∧
    (∃ m', (UpdateOldestSeen s manager typ pending now).2.Managers = some m' ∧
      ∀ other, other ≠ manager →
        List.lookup other m' = List.lookup other (s.Managers.getD [])) ∧
    (UpdateOldestSeen s manager typ pending now).2.Version = s.Version ∧
    (UpdateOldestSeen s manager typ pending now).2.LastRunTS = s.LastRunTS ∧
    (UpdateOldestSeen s manager typ pending now).2.LastUpdateCheckTS = s.LastUpdateCheckTS ∧
    (UpdateOldestSeen s manager typ pending now).2.LastUpdateAvailable =
      s.LastUpdateAvailable ∧
    (UpdateOldestSeen s manager typ pending now).2.LastUpdateRunTS = s.LastUpdateRunTS ∧
    (UpdateOldestSeen s manager typ pending now).2.LastUpdateRunSuccess =
      s.LastUpdateRunSuccess := by
  have hentry := getManager_updateOldestSeen s manager typ pending now
  have hset : ∀ (ms : ManagerState) (v : Int),
      (setOldestField typ ms v).PendingAll = ms.PendingAll ∧
      (setOldestField typ ms v).PendingSecurity = ms.PendingSecurity ∧
      (setOldestField typ ms v).PendingBugfix = ms.PendingBugfix ∧
      (setOldestField typ ms v).RepoUnreachable = ms.RepoUnreachable ∧
      (setOldestField typ ms v).RepoTotal = ms.RepoTotal ∧
      (setOldestField typ ms v).RebootRequired = ms.RebootRequired := by
    intro ms v
    unfold setOldestField
    split_ifs <;> exact ⟨rfl, rfl, rfl, rfl, rfl, rfl⟩
  have hf := hset (GetManager (some s) manager)
    (Oldest (some (UpdateOldestSeen s manager typ pending now).2) manager typ)
  refine ⟨hentry, ?_, ?_, ?_, ?_, ?_, ?_, ?_, ?_, ?_,
    fun other h => getManager_updateOldestSeen_ne s manager typ other pending now h,
    updateOldestSeen_managers s manager typ pending now,
    updateOldestSeen_fields s manager typ pending now⟩
  · rw [hentry]; exact hf.1
  · rw [hentry]; exact hf.2.1
  · rw [hentry]; exact hf.2.2.1
  · rw [hentry]; exact hf.2.2.2.1
  · rw [hentry]; exact hf.2.2.2.2.1
  · rw [hentry]; exact hf.2.2.2.2.2
  · intro ht
    rw [hentry]
    subst ht
    exact ⟨rfl, rfl⟩
  · intro ht
    rw [hentry]
    subst ht
    exact ⟨rfl, rfl⟩
  · intro h1 h2
    rw [hentry]
    unfold setOldestField
    rw [if_neg h1, if_neg h2]
    exact ⟨rfl, rfl⟩

end state

namespace state

/-- Consecutive calls with a positive pending count on a category whose aging timestamp
is `t`, not 0: every call returns its `now` minus `t`, a difference the conversion to
`float64` keeps exact, and the timestamp stays `t`. -/
theorem updateOldestSeenAll_aging (manager typ : String) (t : Int) (ht : t ≠ 0)
    (calls : List (Int × Int)) (s : State) (hs : Oldest (some s) manager typ = t)
    (hpos : ∀ c ∈ calls, 0 < c.1) (hfit : ∀ c ∈ calls, fitsFloat64 (c.2 - t)) :
    (updateOldestSeenAll s manager typ calls).1 = calls.map (fun c => c.2 - t) ∧
    Oldest (some (updateOldestSeenAll s manager typ calls).2) manager typ = t := by
  induction calls generalizing s with
  | nil => exact ⟨rfl, hs⟩
  | cons call rest ih =>
    have hp : ¬ call.1 ≤ 0 := not_le.mpr (hpos call (List.mem_cons_self _ _))
    have hstored : Oldest (some (UpdateOldestSeen s manager typ call.1 call.2).2) manager typ =
        t := by
      rw [oldest_updateOldestSeen, if_neg hp, hs, if_neg ht]
    have hage : (UpdateOldestSeen s manager typ call.1 call.2).1 = call.2 - t := by
      rw [age_updateOldestSeen, if_neg hp, hs, if_neg ht,
        wrapInt_of_fitsInt (fitsInt_of_fitsFloat64 (hfit call (List.mem_cons_self _ _))),
        float64OfInt_exact (hfit call (List.mem_cons_self _ _))]
    obtain ⟨h1, h2⟩ := ih (UpdateOldestSeen s manager typ call.1 call.2).2 hstored
      (fun c hc => hpos c (List.mem_cons_of_mem _ hc))
      (fun c hc => hfit c (List.mem_cons_of_mem _ hc))
    refine ⟨?_, h2⟩
    simp only [updateOldestSeenAll, List.map_cons, hage, h1]

end state

namespace state

/-- C21: on a state whose aging timestamp of a category is 0, consecutive calls of
`UpdateOldestSeen` on that manager and category with positive pending counts, the first
of them at a timestamp `now1` other than 0, leave the stored timestamp at `now1` after
every call; the first call returns age 0 and each later call its own `now` minus
`now1`, for differences of magnitude at most `2 ^ 53`, which the conversion to `float64`
of the returned age keeps exact; a call with pending count 0 made after any of them
stores 0 and returns age 0. -/
theorem updateOldestSeen_set_once (s : State) (manager typ : String) (p1 now1 : Int)
    (rest : List (Int × Int)) (h0 : Oldest (some s) manager typ = 0) (hp1 : 0 < p1)
    (hn1 : now1 ≠ 0) (hpos : ∀ c ∈ rest, 0 < c.1)
    (hfit : ∀ c ∈ rest, fitsFloat64 (c.2 - now1)) :
    (∀ k, Oldest (some (updateOldestSeenAll s manager typ ((p1, now1) :: rest.take k)).2)
      manager typ = now1) ∧
    (updateOldestSeenAll s manager typ ((p1, now1) :: rest)).1 =
      0 :: rest.map (fun c => c.2 - now1) ∧
    (∀ k later,
      Oldest (some (UpdateOldestSeen
        (updateOldestSeenAll s manager typ ((p1, now1) :: rest.take k)).2
        manager typ 0 later).2) manager typ = 0 ∧
      (UpdateOldestSeen (updateOldestSeenAll s manager typ ((p1, now1) :: rest.take k)).2
        manager typ 0 later).1 = 0) := by
  have hp : ¬ p1 ≤ 0 := not_le.mpr hp1
  have hfirst : Oldest (some (UpdateOldestSeen s manager typ p1 now1).2) manager typ = now1 := by
    rw [oldest_updateOldestSeen, if_neg hp, h0, if_pos rfl]
  have hage : (UpdateOldestSeen s manager typ p1 now1).1 = 0 := by
    rw [age_updateOldestSeen, if_neg hp, h0, if_pos rfl]
  have hall := updateOldestSeenAll_aging manager typ now1 hn1 rest
    (UpdateOldestSeen s manager typ p1 now1).2 hfirst hpos hfit
  refine ⟨?_, ?_, ?_⟩
  · intro k
    exact (updateOldestSeenAll_aging manager typ now1 hn1 (rest.take k)
      (UpdateOldestSeen s manager typ p1 now1).2 hfirst
      (fun c hc => hpos c (List.mem_of_mem_take hc))
      (fun c hc => hfit c (List.mem_of_mem_take hc))).2
  · simp only [updateOldestSeenAll, hage, hall.1]
  · intro k later
    rw [oldest_updateOldestSeen, age_updateOldestSeen]
    exact ⟨if_pos (le_refl 0), if_pos (le_refl 0)⟩

theorem updateOldestSeen_set_once_witness :
    (updateOldestSeenAll New "apt" "security"
      [(2, 1700000000), (3, 1700003600), (1, 1700007200)]).1 = [0, 3600, 7200] ∧
    Oldest (some (updateOldestSeenAll New "apt" "security"
      [(2, 1700000000), (3, 1700003600)]).2) "apt" "security" = 1700000000 := by
  have h := updateOldestSeen_set_once New "apt" "security" 2 1700000000
    [(3, 1700003600), (1, 1700007200)] (by decide) (by decide) (by decide) (by decide)
    (by decide)
  exact ⟨h.2.1, h.1 1⟩

end state

namespace collector

end collector

namespace metrics

theorem scrapeSuccessValues_append (a b : List Line) :
    scrapeSuccessValues (a ++ b) = scrapeSuccessValues a ++ scrapeSuccessValues b := by
  unfold scrapeSuccessValues
  exact List.filterMap_append _ _ _

theorem successState_emitHelpType (r : Registry) (name help typ : String) :
    successState (emitHelpType r name help typ) = successState r := by
  unfold successState emitHelpType
  split_ifs
  · rfl
  · simp only [scrapeSuccessValues_append]
    simp [scrapeSuccessValues]

theorem successState_write (r : Registry) (name : String) (labels : List (String × String))
    (v : Num) (h : name ≠ "os_updates_scrape_success") :
    successState (write r name labels v) = successState r := by
  unfold successState write
  simp only [scrapeSuccessValues_append]
  simp [scrapeSuccessValues, h]

theorem successState_emit_write (r : Registry) (name help typ metric : String)
    (labels : List (String × String)) (v : Num) (h : metric ≠ "os_updates_scrape_success") :
    successState (write (emitHelpType r name help typ) metric labels v) = successState r := by
  rw [successState_write _ _ _ _ h, successState_emitHelpType]

theorem successState_SetStageError (r : Registry) (stage : String) :
    successState (SetStageError r stage true) =
      (mapAssign r.stageErrors stage true, r.scrapeSet, scrapeSuccessValues r.buf) := by
  have h := successState_emitHelpType r "os_updates_error"
    "Stage error indicator (one series per stage)" "gauge"
  unfold successState at h ⊢
  unfold SetStageError write
  simp only [if_true, scrapeSuccessValues_append]
  simp only [Prod.mk.injEq] at h
  rw [h.1, h.2.1, h.2.2]
  simp [scrapeSuccessValues]

theorem successState_SetScrapeSuccess (r : Registry) (ok : Bool) :
    successState (SetScrapeSuccess r ok) =
      (r.stageErrors, true, scrapeSuccessValues r.buf ++ [flag ok]) := by
  have h := successState_emitHelpType r "os_updates_scrape_success"
    "1 if metrics were collected and written successfully" "gauge"
  unfold successState at h ⊢
  unfold SetScrapeSuccess write
  simp only [scrapeSuccessValues_append]
  simp only [Prod.mk.injEq] at h
  rw [h.1, h.2.2]
  simp [scrapeSuccessValues]

end metrics

namespace metrics

theorem successState_SetStageDuration (r : Registry) (stage : String) (d : Int) :
    successState (SetStageDuration r stage d) = successState r :=
  successState_emit_write _ _ _ _ _ _ _ (by decide)

theorem successState_SetRunDurations (r : Registry) (d : Int) :
    successState (SetRunDurations r d) = successState r := by
  unfold SetRunDurations
  rw [successState_SetStageDuration]
  exact successState_emit_write _ _ _ _ _ _ _ (by decide)

theorem successState_SetLastRun (r : Registry) (t : Int) :
    successState (SetLastRun r t) = successState r :=
  successState_emit_write _ _ _ _ _ _ _ (by decide)

theorem successState_SetBuildInfo (r : Registry) (a b c : String) :
    successState (SetBuildInfo r a b c) = successState r :=
  successState_emit_write _ _ _ _ _ _ _ (by decide)

theorem successState_SetInfo (r : Registry) (a b c d : String) (t : Int) :
    successState (SetInfo r a b c d t) = successState r :=
  successState_emit_write _ _ _ _ _ _ _ (by decide)

theorem successState_SetPending (r : Registry) (a b : String) (v : Int) :
    successState (SetPending r a b v) = successState r :=
  successState_emit_write _ _ _ _ _ _ _ (by decide)

theorem successState_SetNewPending (r : Registry) (a b : String) (v : Int) :
    successState (SetNewPending r a b v) = successState r :=
  successState_emit_write _ _ _ _ _ _ _ (by decide)

theorem successState_SetOldestAge (r : Registry) (a b : String) (v : Int) :
    successState (SetOldestAge r a b v) = successState r :=
  successState_emit_write _ _ _ _ _ _ _ (by decide)

theorem successState_SetReboot (r : Registry) (b : Bool) :
    successState (SetReboot r b) = successState r :=
  successState_emit_write _ _ _ _ _ _ _ (by decide)

theorem successState_SetRebootReason (lo : Char → Char) (r : Registry) (reason : String) :
    successState (SetRebootReason lo r reason) = successState r := by
  unfold SetRebootReason reasons
  simp only [List.foldl]
  rw [successState_write _ _ _ _ (by decide), successState_write _ _ _ _ (by decide),
    successState_write _ _ _ _ (by decide), successState_write _ _ _ _ (by decide),
    successState_write _ _ _ _ (by decide), successState_emitHelpType]

theorem successState_SetMaintenanceWindow (r : Registry) (b : Bool) :
    successState (SetMaintenanceWindow r b) = successState r :=
  successState_emit_write _ _ _ _ _ _ _ (by decide)

theorem successState_SetCompliant (r : Registry) (b : Bool) :
    successState (SetCompliant r b) = successState r :=
  successState_emit_write _ _ _ _ _ _ _ (by decide)

theorem successState_SetCompliantEffective (r : Registry) (b : Bool) :
    successState (SetCompliantEffective r b) = successState r :=
  successState_emit_write _ _ _ _ _ _ _ (by decide)

theorem successState_SetRiskScore (r : Registry) (a : String) (v : Int) :
    successState (SetRiskScore r a v) = successState r :=
  successState_emit_write _ _ _ _ _ _ _ (by decide)

theorem successState_SetRepoTotals (r : Registry) (a : String) (t u : Int) :
    successState (SetRepoTotals r a t u) = successState r := by
  unfold SetRepoTotals
  rw [successState_emit_write _ _ _ _ _ _ _ (by decide),
    successState_emit_write _ _ _ _ _ _ _ (by decide)]

theorem successState_SetRepoNewlyUnreachable (r : Registry) (a : String) (v : Int) :
    successState (SetRepoNewlyUnreachable r a v) = successState r :=
  successState_emit_write _ _ _ _ _ _ _ (by decide)

theorem successState_SetRepoMetadataAge (r : Registry) (a : String) (x : Float64) :
    successState (SetRepoMetadataAge r a x) = successState r :=
  successState_emit_write _ _ _ _ _ _ _ (by decide)

theorem successState_SetRepoHeadLatency (r : Registry) (a : String) (x : Float64) :
    successState (SetRepoHeadLatency r a x) = successState r :=
  successState_emit_write _ _ _ _ _ _ _ (by decide)

end metrics

namespace cmd

theorem successState_populate (cfg : config.Config) (r : metrics.Registry)
    (res : collector.Result) :
    metrics.successState (populate cfg r res) = metrics.successState r := by
  unfold populate
  simp only [metrics.successState_SetPending, metrics.successState_SetInfo]

theorem successState_deltas (r : metrics.Registry) (res : collector.Result)
    (prev : state.ManagerState) :
    metrics.successState (deltas r res prev) = metrics.successState r := by
  unfold deltas
  simp only [metrics.successState_SetNewPending]

theorem successState_aging (r : metrics.Registry) (res : collector.Result)
    (ages : Int × Int × Int) :
    metrics.successState (aging r res ages) = metrics.successState r := by
  unfold aging
  simp only [metrics.successState_SetOldestAge]

theorem successState_repoMetrics (r : metrics.Registry) (res : collector.Result)
    (prev : state.ManagerState) :
    metrics.successState (repoMetrics r res prev) = metrics.successState r := by
  unfold repoMetrics
  split_ifs
  · simp only [metrics.successState_SetRepoHeadLatency, metrics.successState_SetRepoMetadataAge,
      metrics.successState_SetRepoNewlyUnreachable, metrics.successState_SetRepoTotals]
  · rfl

theorem successState_verdicts (lo : Char → Char) (cfg : config.Config) (clk : config.Clock)
    (ec : config.Clock × config.Clock × config.Clock)
    (r : metrics.Registry) (res : collector.Result) :
    metrics.successState (verdicts lo cfg clk ec r res) = metrics.successState r := by
  unfold verdicts
  simp only [metrics.successState_SetRiskScore, metrics.successState_SetCompliantEffective,
    metrics.successState_SetCompliant, metrics.successState_SetMaintenanceWindow,
    metrics.successState_SetRebootReason, metrics.successState_SetReboot]

theorem successState_startRegistry : metrics.successState startRegistry = ([], false, []) := by
  unfold startRegistry
  rw [metrics.successState_SetBuildInfo]
  rfl

end cmd

namespace metrics

theorem successState_SetStageError_of (r : Registry) (stage : String) :
    successState (SetStageError r stage true) =
      (mapAssign (successState r).1 stage true, (successState r).2.1, (successState r).2.2) :=
  successState_SetStageError r stage

theorem successState_SetScrapeSuccess_of (r : Registry) (ok : Bool) :
    successState (SetScrapeSuccess r ok) =
      ((successState r).1, true, (successState r).2.2 ++ [flag ok]) :=
  successState_SetScrapeSuccess r ok

end metrics

namespace cmd

theorem successState_loadState (cfg : config.Config) (env : Env) :
    metrics.successState (loadState cfg env).1 =
      ((match state.Load env.readFile env.unmarshal cfg.StateFile with
        | .error _ => [("state", true)]
        | .ok _ => []), false, []) := by
  unfold loadState
  cases state.Load env.readFile env.unmarshal cfg.StateFile with
  | error e =>
    simp only [metrics.successState_SetStageDuration, metrics.successState_SetStageError_of,
      successState_startRegistry]
    rfl
  | ok st =>
    simp only [metrics.successState_SetStageDuration, successState_startRegistry]

theorem successState_collectStage (lo : Char → Char) (cfg : config.Config) (env : Env)
    (r : metrics.Registry) :
    metrics.successState (collectStage lo cfg env r).1 =
      ((if cfg.OfflineMode = false ∧ env.checkRepos.2 ≠ none then
          mapAssign (if (collector.Collect lo env.probe).2 ≠ none then
            mapAssign r.stageErrors "pkgmgr" true else r.stageErrors) "repo" true
        else if (collector.Collect lo env.probe).2 ≠ none then
          mapAssign r.stageErrors "pkgmgr" true
        else r.stageErrors),
       (if cfg.OfflineMode = false ∧ env.checkRepos.2 ≠ none ∧ cfg.FailOpen = false then true
        else r.scrapeSet),
       (if cfg.OfflineMode = false ∧ env.checkRepos.2 ≠ none ∧ cfg.FailOpen = false then
          metrics.scrapeSuccessValues r.buf ++ [metrics.Num.int 0]
        else metrics.scrapeSuccessValues r.buf)) := by
  cases hf : cfg.FailOpen <;> cases ho : cfg.OfflineMode <;>
    by_cases hc : (collector.Collect lo env.probe).2 ≠ none <;>
    by_cases hr : env.checkRepos.2 ≠ none <;>
    simp only [collectStage, hc, hr, hf, ho, if_true, if_false, not_true_eq_false,
      not_false_eq_true, ne_eq, and_true, and_false, true_and, false_and, and_self,
      Bool.true_eq_false, Bool.false_eq_true, eq_self_iff_true,
      metrics.successState_SetStageDuration, metrics.successState_SetStageError_of,
      metrics.successState_SetScrapeSuccess_of] <;>
    rfl

end cmd

namespace cmd

theorem successState_conclude (cfg : config.Config) (env : Env) (r : metrics.Registry) :
    metrics.successState (conclude cfg env r) =
      if r.scrapeSet = true then metrics.successState r
      else (r.stageErrors, true,
        metrics.scrapeSuccessValues r.buf ++
          [metrics.flag (!metrics.HasFailClosed r cfg.FailOpen)]) := by
  have h2 : metrics.successState
      (metrics.SetRunDurations (metrics.SetLastRun r env.lastRun) env.sinceStart) =
      metrics.successState r := by
    rw [metrics.successState_SetRunDurations, metrics.successState_SetLastRun]
  have hf : (metrics.SetRunDurations (metrics.SetLastRun r env.lastRun)
        env.sinceStart).stageErrors = r.stageErrors ∧
      (metrics.SetRunDurations (metrics.SetLastRun r env.lastRun) env.sinceStart).scrapeSet =
        r.scrapeSet := by
    unfold metrics.successState at h2
    simp only [Prod.mk.injEq] at h2
    exact ⟨h2.1, h2.2.1⟩
  have hfc : metrics.HasFailClosed
      (metrics.SetRunDurations (metrics.SetLastRun r env.lastRun) env.sinceStart) cfg.FailOpen =
      metrics.HasFailClosed r cfg.FailOpen := by
    unfold metrics.HasFailClosed
    rw [hf.1]
  unfold conclude
  simp only [metrics.ScrapeSuccessUnset, hf.2, hfc]
  cases hset : r.scrapeSet
  · simp only [Bool.not_false, if_true, Bool.false_eq_true, if_false,
      metrics.successState_SetScrapeSuccess_of, h2]
    rfl
  · simp only [Bool.not_true, Bool.false_eq_true, if_false, if_true, h2]

/-- The snapshot `run` prepares holds exactly one sample of `os_updates_scrape_success`:
0 when the policy is fail-closed and the state load, the collection or the repository
check failed, 1 otherwise. -/
theorem scrapeSuccess_prepared (lo : Char → Char) (cfg : config.Config) (env : Env) :
    metrics.scrapeSuccessValues (metrics.Render (prepare lo cfg env).reg) =
      [metrics.flag (!(!cfg.FailOpen && stageFailed lo cfg env))] := by
  have hstage := successState_collectStage lo cfg env (loadState cfg env).1
  have hload := successState_loadState cfg env
  unfold metrics.successState at hload
  simp only [Prod.mk.injEq] at hload
  rw [hload.1, hload.2.1, hload.2.2] at hstage
  have key : ∀ R : metrics.Registry,
      metrics.successState R = metrics.successState (collectStage lo cfg env (loadState cfg env).1).1 →
      (if R.scrapeSet = true then metrics.successState R
        else (R.stageErrors, true,
          metrics.scrapeSuccessValues R.buf ++
            [metrics.flag (!metrics.HasFailClosed R cfg.FailOpen)])).2.2 =
        [metrics.flag (!(!cfg.FailOpen && stageFailed lo cfg env))] := by
    intro R hR
    rw [hstage] at hR
    unfold metrics.successState at hR
    simp only [Prod.mk.injEq] at hR
    unfold metrics.HasFailClosed metrics.successState
    rw [hR.1, hR.2.1, hR.2.2]
    unfold stageFailed
    cases hf : cfg.FailOpen <;> cases ho : cfg.OfflineMode <;>
      cases hl : state.Load env.readFile env.unmarshal cfg.StateFile <;>
      cases hc : (collector.Collect lo env.probe).2 <;>
      cases hr : env.checkRepos.2 <;>
      simp only [ne_eq, not_true_eq_false, not_false_eq_true, and_true, and_false, true_and,
        false_and, and_self, if_true, if_false, Bool.true_eq_false, Bool.false_eq_true,
        eq_self_iff_true, reduceCtorEq] <;>
      rfl
  have hvalues : ∀ R : metrics.Registry,
      metrics.scrapeSuccessValues (metrics.Render R) = (metrics.successState R).2.2 :=
    fun _ => rfl
  rw [hvalues]
  unfold prepare
  simp only
  rw [successState_conclude]
  exact key _ ((successState_verdicts lo cfg env.clock env.readings _ _).trans
    ((successState_repoMetrics _ _ _).trans ((successState_aging _ _ _).trans
      ((successState_deltas _ _ _).trans (successState_populate cfg _ _)))))

end cmd

namespace metrics

theorem mem_SetStageError (r : Registry) (stage : String) :
    Line.sample "os_updates_error" [("stage", stage)] (Num.int 1) ∈
      (SetStageError r stage true).buf := by
  unfold SetStageError
  simp only [if_true, buf_write]
  exact List.mem_append_right _ (List.mem_singleton_self _)

end metrics

namespace cmd

/-- The registry `collectStage` returns, as the calls made on the one it is given. -/
theorem collectStage_registry (lo : Char → Char) (cfg : config.Config) (env : Env)
    (r : metrics.Registry) :
    (collectStage lo cfg env r).1 =
      metrics.SetStageDuration
        (if cfg.OfflineMode = false ∧ env.checkRepos.2 ≠ none then
          (if cfg.FailOpen = false then
            metrics.SetScrapeSuccess
              (metrics.SetStageError
                (metrics.SetStageDuration
                  (if (collector.Collect lo env.probe).2 ≠ none then
                    metrics.SetStageError r "pkgmgr" true else r)
                  "pkgmgr" env.sincePkgmgr) "repo" true) false
           else
            metrics.SetStageError
              (metrics.SetStageDuration
                (if (collector.Collect lo env.probe).2 ≠ none then
                  metrics.SetStageError r "pkgmgr" true else r)
                "pkgmgr" env.sincePkgmgr) "repo" true)
         else
          metrics.SetStageDuration
            (if (collector.Collect lo env.probe).2 ≠ none then
              metrics.SetStageError r "pkgmgr" true else r)
            "pkgmgr" env.sincePkgmgr)
        "repo" env.sinceRepo := by
  cases ho : cfg.OfflineMode <;> by_cases hr : env.checkRepos.2 ≠ none <;>
    simp only [collectStage, ho, hr, if_true, if_false, not_true_eq_false, not_false_eq_true,
      ne_eq, and_true, and_false, true_and, false_and, and_self, Bool.true_eq_false,
      Bool.false_eq_true, eq_self_iff_true]

/-- The lines of a registry stay in the buffer through the repository part of
`collectStage`. -/
theorem prefix_repoPart (cfg : config.Config) (env : Env) (r2 : metrics.Registry) :
    r2.buf <+:
      (if cfg.OfflineMode = false ∧ env.checkRepos.2 ≠ none then
        (if cfg.FailOpen = false then
          metrics.SetScrapeSuccess (metrics.SetStageError r2 "repo" true) false
         else metrics.SetStageError r2 "repo" true)
       else r2).buf := by
  by_cases h : cfg.OfflineMode = false ∧ env.checkRepos.2 ≠ none
  · rw [if_pos h]
    by_cases hf : cfg.FailOpen = false
    · rw [if_pos hf]
      exact (metrics.prefix_SetStageError _ _ _).trans (metrics.prefix_SetScrapeSuccess _ _)
    · rw [if_neg hf]
      exact metrics.prefix_SetStageError _ _ _
  · rw [if_neg h]

theorem mem_repoPart (cfg : config.Config) (env : Env) (r2 : metrics.Registry)
    (h : cfg.OfflineMode = false ∧ env.checkRepos.2 ≠ none) :
    metrics.Line.sample "os_updates_error" [("stage", "repo")] (metrics.Num.int 1) ∈
      (if cfg.OfflineMode = false ∧ env.checkRepos.2 ≠ none then
        (if cfg.FailOpen = false then
          metrics.SetScrapeSuccess (metrics.SetStageError r2 "repo" true) false
         else metrics.SetStageError r2 "repo" true)
       else r2).buf := by
  rw [if_pos h]
  by_cases hf : cfg.FailOpen = false
  · rw [if_pos hf]
    exact (metrics.prefix_SetScrapeSuccess _ _).subset (metrics.mem_SetStageError _ _)
  · rw [if_neg hf]
    exact metrics.mem_SetStageError _ _

theorem prefix_collectStage (lo : Char → Char) (cfg : config.Config) (env : Env)
    (r : metrics.Registry) : r.buf <+: (collectStage lo cfg env r).1.buf := by
  have h1 : r.buf <+: (if (collector.Collect lo env.probe).2 ≠ none then
      metrics.SetStageError r "pkgmgr" true else r).buf := by
    by_cases hc : (collector.Collect lo env.probe).2 ≠ none
    · rw [if_pos hc]
      exact metrics.prefix_SetStageError r _ _
    · rw [if_neg hc]
  rw [collectStage_registry]
  exact (h1.trans (metrics.prefix_SetStageDuration _ "pkgmgr" env.sincePkgmgr)).trans
    ((prefix_repoPart cfg env _).trans (metrics.prefix_SetStageDuration _ _ _))

/-- Every line written up to the end of the collection stage is in the snapshot `run`
prepares. -/
theorem prefix_collected (lo : Char → Char) (cfg : config.Config) (env : Env) :
    (collectStage lo cfg env (loadState cfg env).1).1.buf <+: (prepare lo cfg env).reg.buf :=
  (prefix_populate cfg _ (prepare lo cfg env).res).trans
    ((prefix_deltas _ _ _).trans (prefix_prepared lo cfg env))

theorem mem_loadState (cfg : config.Config) (env : Env) (e : String)
    (h : state.Load env.readFile env.unmarshal cfg.StateFile = .error e) :
    metrics.Line.sample "os_updates_error" [("stage", "state")] (metrics.Num.int 1) ∈
      (loadState cfg env).1.buf := by
  unfold loadState
  rw [h]
  exact (metrics.prefix_SetStageDuration _ _ _).subset (metrics.mem_SetStageError _ _)

theorem mem_collectStage (lo : Char → Char) (cfg : config.Config) (env : Env)
    (r : metrics.Registry) :
    ((collector.Collect lo env.probe).2 ≠ none →
      metrics.Line.sample "os_updates_error" [("stage", "pkgmgr")] (metrics.Num.int 1) ∈
        (collectStage lo cfg env r).1.buf) ∧
    (cfg.OfflineMode = false → env.checkRepos.2 ≠ none →
      metrics.Line.sample "os_updates_error" [("stage", "repo")] (metrics.Num.int 1) ∈
        (collectStage lo cfg env r).1.buf) := by
  constructor
  · intro hc
    have h1 : metrics.Line.sample "os_updates_error" [("stage", "pkgmgr")] (metrics.Num.int 1) ∈
        (metrics.SetStageDuration (metrics.SetStageError r "pkgmgr" true) "pkgmgr"
          env.sincePkgmgr).buf :=
      (metrics.prefix_SetStageDuration _ _ _).subset (metrics.mem_SetStageError _ _)
    rw [collectStage_registry, if_pos hc]
    exact ((prefix_repoPart cfg env _).trans (metrics.prefix_SetStageDuration _ _ _)).subset h1
  · intro ho hr
    rw [collectStage_registry]
    exact (metrics.prefix_SetStageDuration _ _ _).subset (mem_repoPart cfg env _ ⟨ho, hr⟩)

/-- The snapshot written when the lock is not acquired: the run ends with exit code 75
after one write, of a snapshot with the error of the lock stage and scrape success 0. -/
theorem lockFailed_snapshot (cfg : config.Config) (env : Env) :
    ∃ content, lockFailed cfg env =
        { exit := 75, events := [Event.writeTextfile cfg.TextfileDir content cfg.FileMode] } ∧
      metrics.Line.sample "os_updates_error" [("stage", "lock")] (metrics.Num.int 1) ∈ content ∧
      metrics.scrapeSuccessValues content = [metrics.Num.int 0] := by
  refine ⟨_, rfl, ?_, ?_⟩
  · exact ((metrics.prefix_SetScrapeSuccess _ _).trans
      ((metrics.prefix_SetStageDuration _ _ _).trans
        (metrics.prefix_SetRunDurations _ _))).subset (metrics.mem_SetStageError _ _)
  · have hvalues : ∀ R : metrics.Registry,
        metrics.scrapeSuccessValues (metrics.Render R) = (metrics.successState R).2.2 :=
      fun _ => rfl
    rw [hvalues, metrics.successState_SetRunDurations, metrics.successState_SetStageDuration,
      metrics.successState_SetScrapeSuccess_of, metrics.successState_SetStageError_of,
      successState_startRegistry]
    rfl

end cmd

namespace cmd

/-- A scrape whose configuration loads and whose repository check returns attempts a
write of a metrics snapshot as its first effect. When the lock is not acquired, one
snapshot with the error of the lock stage and scrape success 0 is written and the run
returns 75. When the lock is acquired the run goes on to the write of the prepared
snapshot also when the state load, the collection or the repository check returns an
error, and that snapshot carries the error of each stage that failed. -/
theorem run_writes_first (lo : Char → Char) (env : Env) (cfg : config.Config)
    (hcfg : env.loadFromEnv = .ok cfg) :
    (∃ content rest, (run lo env).events =
      Event.writeTextfile cfg.TextfileDir content cfg.FileMode :: rest) ∧
    (env.acquire ≠ none →
      ∃ content, run lo env =
          { exit := 75, events := [Event.writeTextfile cfg.TextfileDir content cfg.FileMode] } ∧
        metrics.Line.sample "os_updates_error" [("stage", "lock")] (metrics.Num.int 1) ∈
          content ∧
        metrics.scrapeSuccessValues content = [metrics.Num.int 0]) ∧
    (env.acquire = none →
      (∃ rest, (run lo env).events =
        Event.writeTextfile cfg.TextfileDir (metrics.Render (prepare lo cfg env).reg)
          cfg.FileMode :: rest) ∧
      ((∃ e, state.Load env.readFile env.unmarshal cfg.StateFile = .error e) →
        metrics.Line.sample "os_updates_error" [("stage", "state")] (metrics.Num.int 1) ∈
          metrics.Render (prepare lo cfg env).reg) ∧
      ((collector.Collect lo env.probe).2 ≠ none →
        metrics.Line.sample "os_updates_error" [("stage", "pkgmgr")] (metrics.Num.int 1) ∈
          metrics.Render (prepare lo cfg env).reg) ∧
      (cfg.OfflineMode = false → env.checkRepos.2 ≠ none →
        metrics.Line.sample "os_updates_error" [("stage", "repo")] (metrics.Num.int 1) ∈
          metrics.Render (prepare lo cfg env).reg)) := by
  have hbusy : ∀ e, env.acquire = some e → run lo env = lockFailed cfg env := by
    intro e he
    unfold run
    rw [hcfg, he]
  have hfree : env.acquire = none → run lo env = finish cfg env (prepare lo cfg env) := by
    intro he
    unfold run
    rw [hcfg, he]
  have hfirst : ∃ rest, (finish cfg env (prepare lo cfg env)).events =
      Event.writeTextfile cfg.TextfileDir (metrics.Render (prepare lo cfg env).reg)
        cfg.FileMode :: rest := by
    unfold finish
    cases env.writeTextfile with
    | some e => exact ⟨_, rfl⟩
    | none =>
      cases env.saveAtomic with
      | some e => exact ⟨_, rfl⟩
      | none => exact ⟨_, rfl⟩
  refine ⟨?_, ?_, ?_⟩
  · cases he : env.acquire with
    | some e =>
      obtain ⟨content, hrun, -⟩ := lockFailed_snapshot cfg env
      rw [hbusy e he, hrun]
      exact ⟨content, [], rfl⟩
    | none =>
      obtain ⟨rest, hrest⟩ := hfirst
      rw [hfree he]
      exact ⟨_, rest, hrest⟩
  · intro he
    cases hacq : env.acquire with
    | none => exact absurd hacq he
    | some e =>
      obtain ⟨content, hrun, hlock, hzero⟩ := lockFailed_snapshot cfg env
      exact ⟨content, (hbusy e hacq).trans hrun, hlock, hzero⟩
  · intro he
    rw [hfree he]
    refine ⟨hfirst, ?_, ?_, ?_⟩
    · rintro ⟨e, hl⟩
      exact (prefix_collected lo cfg env).subset
        ((prefix_collectStage lo cfg env _).subset (mem_loadState cfg env e hl))
    · intro hc
      exact (prefix_collected lo cfg env).subset ((mem_collectStage lo cfg env _).1 hc)
    · intro ho hr
      exact (prefix_collected lo cfg env).subset ((mem_collectStage lo cfg env _).2 ho hr)

theorem run_writes_first_busy :
    ∃ content, run id busyRun =
        { exit := 75,
          events := [Event.writeTextfile config.defaults.TextfileDir content
            config.defaults.FileMode] } ∧
      metrics.scrapeSuccessValues content = [metrics.Num.int 0] := by
  obtain ⟨content, hrun, -, hzero⟩ :=
    (run_writes_first id busyRun config.defaults rfl).2.1 (by decide)
  exact ⟨content, hrun, hzero⟩

/-- C25: the exit code of a scrape whose configuration loads depends only on the
outcomes of the lock, of the snapshot write and of the state save: two runs that agree
on which of the three succeed return the same code. When all three succeed the code is
0 and the run writes the prepared snapshot, saves the state and releases the lock; this
holds also when the state load, the collection or the repository check failed under
the fail-closed policy, and the snapshot written then holds one sample of
`os_updates_scrape_success`, of value 0. -/
theorem run_exit_by_outcomes (lo : Char → Char) (env : Env) (cfg : config.Config)
    (hcfg : env.loadFromEnv = .ok cfg) :
    (∀ (other : Env) (cfg2 : config.Config), other.loadFromEnv = .ok cfg2 →
      (other.acquire = none ↔ env.acquire = none) →
      (other.writeTextfile = none ↔ env.writeTextfile = none) →
      (other.saveAtomic = none ↔ env.saveAtomic = none) →
      (run lo other).exit = (run lo env).exit) ∧
    (env.acquire = none → env.writeTextfile = none → env.saveAtomic = none →
      (run lo env).exit = 0 ∧
      (run lo env).events =
        [Event.writeTextfile cfg.TextfileDir (metrics.Render (prepare lo cfg env).reg)
           cfg.FileMode,
         Event.saveAtomic cfg.StateFile (persisted (prepare lo cfg env) env.unixNow),
         Event.release] ∧
      metrics.scrapeSuccessValues (metrics.Render (prepare lo cfg env).reg) =
        [metrics.flag (!(!cfg.FailOpen && stageFailed lo cfg env))] ∧
      (cfg.FailOpen = false →
        ((∃ e, state.Load env.readFile env.unmarshal cfg.StateFile = .error e) ∨
          (collector.Collect lo env.probe).2 ≠ none ∨
          (cfg.OfflineMode = false ∧ env.checkRepos.2 ≠ none)) →
        metrics.scrapeSuccessValues (metrics.Render (prepare lo cfg env).reg) =
          [metrics.Num.int 0])) := by
  refine ⟨?_, ?_⟩
  · intro other cfg2 h2 hl hw hs
    rw [run_exit lo other cfg2 h2, run_exit lo env cfg hcfg]
    by_cases h1 : env.acquire = none
    · rw [if_neg (not_not.mpr h1), if_neg (not_not.mpr (hl.mpr h1))]
      by_cases h3 : env.writeTextfile = none
      · rw [if_neg (not_not.mpr h3), if_neg (not_not.mpr (hw.mpr h3))]
        by_cases h4 : env.saveAtomic = none
        · rw [if_neg (not_not.mpr h4), if_neg (not_not.mpr (hs.mpr h4))]
        · rw [if_pos h4, if_pos (fun h => h4 (hs.mp h))]
      · rw [if_pos h3, if_pos (fun h => h3 (hw.mp h))]
    · rw [if_pos h1, if_pos (fun h => h1 (hl.mp h))]
  · intro hlock hwrite hsave
    have hrun : run lo env = finish cfg env (prepare lo cfg env) := by
      unfold run
      rw [hcfg, hlock]
    have hfin : finish cfg env (prepare lo cfg env) =
        { exit := 0,
          events :=
            [Event.writeTextfile cfg.TextfileDir (metrics.Render (prepare lo cfg env).reg)
               cfg.FileMode,
             Event.saveAtomic cfg.StateFile (persisted (prepare lo cfg env) env.unixNow),
             Event.release] } := by
      unfold finish
      rw [hwrite, hsave]
    rw [hrun, hfin]
    refine ⟨rfl, rfl, scrapeSuccess_prepared lo cfg env, ?_⟩
    intro hclosed hfailed
    have hstage : stageFailed lo cfg env = true := by
      unfold stageFailed
      rcases hfailed with ⟨e, hl⟩ | hc | ⟨ho, hr⟩
      · rw [hl]
        rfl
      · cases hcol : (collector.Collect lo env.probe).2 with
        | none => exact absurd hcol hc
        | some e => simp
      · cases hrep : env.checkRepos.2 with
        | none => exact absurd hrep hr
        | some e => simp [ho]
    rw [scrapeSuccess_prepared, hclosed, hstage]
    rfl

theorem run_exit_by_outcomes_witness :
    (run id strictRun).exit = 0 ∧
    metrics.scrapeSuccessValues
      (metrics.Render (prepare id { config.defaults with FailOpen := false } strictRun).reg) =
        [metrics.Num.int 0] := by
  have h := (run_exit_by_outcomes id strictRun { config.defaults with FailOpen := false }
    rfl).2 rfl rfl rfl
  exact ⟨h.1, h.2.2.2 rfl (Or.inl ⟨_, rfl⟩)⟩

end cmd

namespace state

/-- The calls `SaveAtomic` makes: the temporary file is written whenever the directory
creation and the serialization succeed, and a save that returns no error has made the
three calls, none of which failed. -/
theorem saveAtomic_calls (marshal : State → Except String String) (f : os.AtomicFaults)
    (path : String) (s : State) (w : os.World) :
    ((os.exec (.mkdirAll (pathDir path) 0o750) f.mkdir w).1 = none →
      ∀ b, marshal s = .ok b →
        ∃ l, (SaveAtomic marshal f path s w).2.steps = w.steps ++ l ∧
          [os.Call.mkdirAll (pathDir path) 0o750, os.Call.writeFile (path ++ ".tmp") b 0o640]
            <+: l.map os.Step.call) ∧
    ((SaveAtomic marshal f path s w).1 = none →
      ∃ b l, marshal s = .ok b ∧ (SaveAtomic marshal f path s w).2.steps = w.steps ++ l ∧
        l.map os.Step.call =
          [os.Call.mkdirAll (pathDir path) 0o750, os.Call.writeFile (path ++ ".tmp") b 0o640,
           os.Call.rename (path ++ ".tmp") path] ∧
        ∀ st ∈ l, st.err = none) ∧
    (f.rename ≠ os.Fault.pass → (SaveAtomic marshal f path s w).1 ≠ none) := by
  unfold SaveAtomic
  simp only
  cases h1 : (os.exec (.mkdirAll (pathDir path) 0o750) f.mkdir w).1 with
  | some e =>
    simp only
    refine ⟨fun h => (by cases h), fun h => (by cases h), fun _ h => by cases h⟩
  | none =>
    simp only
    cases h2 : marshal s with
    | error e =>
      simp only
      refine ⟨fun _ b hb => (by cases hb), fun h => (by cases h), fun _ h => by cases h⟩
    | ok b =>
      simp only
      cases h3 : (os.exec (.writeFile (path ++ ".tmp") b 0o640) f.write
          (os.exec (.mkdirAll (pathDir path) 0o750) f.mkdir w).2).1 with
      | some e =>
        simp only
        refine ⟨?_, fun h => (by cases h), fun _ h => by cases h⟩
        intro _ b2 hb2
        cases hb2
        exact ⟨_, os.exec_steps2 _ _ _ _ _, List.prefix_refl _⟩
      | none =>
        simp only
        refine ⟨?_, ?_, ?_⟩
        · intro _ b2 hb2
          cases hb2
          exact ⟨_, os.exec_steps3 _ _ _ _ _ _ _, ⟨[os.Call.rename (path ++ ".tmp") path], rfl⟩⟩
        · intro hok
          refine ⟨b, _, rfl, os.exec_steps3 _ _ _ _ _ _ _, rfl, ?_⟩
          intro st hst
          simp only [List.mem_cons, List.mem_singleton, List.not_mem_nil, or_false] at hst
          rcases hst with h | h | h
          · rw [h]
            exact h1
          · rw [h]
            exact h3
          · rw [h]
            exact hok
        · intro hne
          exact os.effect_fault _ _ _ hne

/-- When no call is failed by the system, the directory of the target is not a regular
file and the state serializes, `SaveAtomic` succeeds: it makes the three calls, returns
no error, leaves the content at the target and no temporary file. -/
theorem saveAtomic_pass (marshal : State → Except String String) (f : os.AtomicFaults)
    (path : String) (s : State) (w : os.World) (b : String)
    (hmk : f.mkdir = os.Fault.pass) (hwr : f.write = os.Fault.pass)
    (hrn : f.rename = os.Fault.pass)
    (hdir : os.Files.read w.files (pathDir path) = none) (hm : marshal s = .ok b) :
    (SaveAtomic marshal f path s w).1 = none ∧
    os.Files.read (SaveAtomic marshal f path s w).2.files path = some b ∧
    os.Files.read (SaveAtomic marshal f path s w).2.files (path ++ ".tmp") = none := by
  have htmp : path ++ ".tmp" ≠ path := append_ne_self path ".tmp" (by decide)
  have h1 : (os.exec (.mkdirAll (pathDir path) 0o750) f.mkdir w).1 = none := by
    rw [os.exec_err, hmk]
    simp only [os.effect, hdir, Option.isSome_none, Bool.false_eq_true, if_false]
  have hf1 : (os.exec (.mkdirAll (pathDir path) 0o750) f.mkdir w).2.files = w.files :=
    os.effect_mkdirAll _ _ _ _
  have h3 : (os.exec (.writeFile (path ++ ".tmp") b 0o640) f.write
      (os.exec (.mkdirAll (pathDir path) 0o750) f.mkdir w).2).1 = none := by
    rw [os.exec_err, hwr]
    rfl
  have hf3 : (os.exec (.writeFile (path ++ ".tmp") b 0o640) f.write
      (os.exec (.mkdirAll (pathDir path) 0o750) f.mkdir w).2).2.files =
      mapAssign w.files (path ++ ".tmp") b := by
    rw [os.exec_files, hwr, hf1]
    rfl
  have hsave : SaveAtomic marshal f path s w =
      os.exec (.rename (path ++ ".tmp") path) f.rename
        (os.exec (.writeFile (path ++ ".tmp") b 0o640) f.write
          (os.exec (.mkdirAll (pathDir path) 0o750) f.mkdir w).2).2 := by
    unfold SaveAtomic
    simp only [h1, hm, h3]
  rw [hsave]
  refine ⟨?_, ?_, ?_⟩
  · rw [os.exec_err, hf3, hrn]
    simp only [os.effect, os.read_mapAssign_self]
  · rw [os.exec_files, hf3, hrn]
    simp only [os.effect, os.read_mapAssign_self]
  · rw [os.exec_files, hf3, hrn]
    simp only [os.effect, os.read_mapAssign_self]
    rw [os.read_mapAssign_ne _ _ _ _ htmp, os.read_erase_self]

end state

namespace metrics

/-- The calls `WriteTextfileAtomic` makes: the temporary file is written whenever the
directory creation succeeds, and a write that returns no error has made the three calls,
none of which failed. -/
theorem writeTextfileAtomic_calls (f : os.AtomicFaults) (path content : String) (mode : Nat)
    (w : os.World) :
    ((os.exec (.mkdirAll (pathDir path) 0o755) f.mkdir w).1 = none →
      ∃ l, (WriteTextfileAtomic f path content mode w).2.steps = w.steps ++ l ∧
        [os.Call.mkdirAll (pathDir path) 0o755,
         os.Call.writeFile (path ++ ".tmp") content mode] <+: l.map os.Step.call) ∧
    ((WriteTextfileAtomic f path content mode w).1 = none →
      ∃ l, (WriteTextfileAtomic f path content mode w).2.steps = w.steps ++ l ∧
        l.map os.Step.call =
          [os.Call.mkdirAll (pathDir path) 0o755,
           os.Call.writeFile (path ++ ".tmp") content mode,
           os.Call.rename (path ++ ".tmp") path] ∧
        ∀ st ∈ l, st.err = none) ∧
    (f.rename ≠ os.Fault.pass → (WriteTextfileAtomic f path content mode w).1 ≠ none) := by
  unfold WriteTextfileAtomic
  simp only
  cases h1 : (os.exec (.mkdirAll (pathDir path) 0o755) f.mkdir w).1 with
  | some e =>
    simp only
    refine ⟨fun h => (by cases h), fun h => (by cases h), fun _ h => by cases h⟩
  | none =>
    simp only
    cases h3 : (os.exec (.writeFile (path ++ ".tmp") content mode) f.write
        (os.exec (.mkdirAll (pathDir path) 0o755) f.mkdir w).2).1 with
    | some e =>
      simp only
      refine ⟨?_, fun h => (by cases h), fun _ h => by cases h⟩
      intro _
      exact ⟨_, os.exec_steps2 _ _ _ _ _, List.prefix_refl _⟩
    | none =>
      simp only
      refine ⟨?_, ?_, ?_⟩
      · intro _
        exact ⟨_, os.exec_steps3 _ _ _ _ _ _ _, ⟨[os.Call.rename (path ++ ".tmp") path], rfl⟩⟩
      · intro hok
        refine ⟨_, os.exec_steps3 _ _ _ _ _ _ _, rfl, ?_⟩
        intro st hst
        simp only [List.mem_cons, List.mem_singleton, List.not_mem_nil, or_false] at hst
        rcases hst with h | h | h
        · rw [h]
          exact h1
        · rw [h]
          exact h3
        · rw [h]
          exact hok
      · intro hne
        exact os.effect_fault _ _ _ hne

/-- When no call is failed by the system and the directory of the target is not a
regular file, `WriteTextfileAtomic` succeeds: it makes the three calls, returns no
error, leaves the content at the target and no temporary file. -/
theorem writeTextfileAtomic_pass (f : os.AtomicFaults) (path content : String) (mode : Nat)
    (w : os.World)
    (hmk : f.mkdir = os.Fault.pass) (hwr : f.write = os.Fault.pass)
    (hrn : f.rename = os.Fault.pass)
    (hdir : os.Files.read w.files (pathDir path) = none) :
    (WriteTextfileAtomic f path content mode w).1 = none ∧
    os.Files.read (WriteTextfileAtomic f path content mode w).2.files path = some content ∧
    os.Files.read (WriteTextfileAtomic f path content mode w).2.files (path ++ ".tmp") =
      none := by
  have htmp : path ++ ".tmp" ≠ path := append_ne_self path ".tmp" (by decide)
  have h1 : (os.exec (.mkdirAll (pathDir path) 0o755) f.mkdir w).1 = none := by
    rw [os.exec_err, hmk]
    simp only [os.effect, hdir, Option.isSome_none, Bool.false_eq_true, if_false]
  have hf1 : (os.exec (.mkdirAll (pathDir path) 0o755) f.mkdir w).2.files = w.files :=
    os.effect_mkdirAll _ _ _ _
  have h3 : (os.exec (.writeFile (path ++ ".tmp") content mode) f.write
      (os.exec (.mkdirAll (pathDir path) 0o755) f.mkdir w).2).1 = none := by
    rw [os.exec_err, hwr]
    rfl
  have hf3 : (os.exec (.writeFile (path ++ ".tmp") content mode) f.write
      (os.exec (.mkdirAll (pathDir path) 0o755) f.mkdir w).2).2.files =
      mapAssign w.files (path ++ ".tmp") content := by
    rw [os.exec_files, hwr, hf1]
    rfl
  have hsave : WriteTextfileAtomic f path content mode w =
      os.exec (.rename (path ++ ".tmp") path) f.rename
        (os.exec (.writeFile (path ++ ".tmp") content mode) f.write
          (os.exec (.mkdirAll (pathDir path) 0o755) f.mkdir w).2).2 := by
    unfold WriteTextfileAtomic
    simp only [h1, h3]
  rw [hsave]
  refine ⟨?_, ?_, ?_⟩
  · rw [os.exec_err, hf3, hrn]
    simp only [os.effect, os.read_mapAssign_self]
  · rw [os.exec_files, hf3, hrn]
    simp only [os.effect, os.read_mapAssign_self]
  · rw [os.exec_files, hf3, hrn]
    simp only [os.effect, os.read_mapAssign_self]
    rw [os.read_mapAssign_ne _ _ _ _ htmp, os.read_erase_self]

end metrics

namespace metrics

/-- C16. `SaveAtomic` and `WriteTextfileAtomic` make at most three calls, in this order:
`MkdirAll` of the directory of the target, `WriteFile` of the complete content to the
temporary file `path + ".tmp"`, which lies in the directory of the target, and one
`Rename` of the temporary file onto the target. The temporary file is written whenever
the directory creation (and, for `SaveAtomic`, the serialization) succeeds. When the
directory creation, the serialization, the temporary write or the rename fails they
return the error, and whenever they return an error the content of the target is
unchanged. When they return no error they have made exactly the three calls, none of
which failed, and the target holds exactly the new content. They do return no error
when the system fails none of the calls, the directory of the target is not a regular
file and the state serializes; no temporary file is left then. -/
theorem atomic_write (marshal : state.State → Except String String) (f : os.AtomicFaults)
    (path content : String) (mode : Nat) (s : state.State) (w : os.World) :
    pathDir (path ++ ".tmp") = pathDir path ∧
    path ++ ".tmp" ≠ path ∧
    -- SaveAtomic
    (∃ l, (state.SaveAtomic marshal f path s w).2.steps = w.steps ++ l ∧
      l.map os.Step.call <+:
        (match marshal s with
         | .ok b => [os.Call.mkdirAll (pathDir path) 0o750,
                     os.Call.writeFile (path ++ ".tmp") b 0o640,
                     os.Call.rename (path ++ ".tmp") path]
         | .error _ => [os.Call.mkdirAll (pathDir path) 0o750])) ∧
    (f.mkdir ≠ os.Fault.pass → (state.SaveAtomic marshal f path s w).1 ≠ none) ∧
    ((∃ e, marshal s = .error e) → (state.SaveAtomic marshal f path s w).1 ≠ none) ∧
    (f.write ≠ os.Fault.pass → (state.SaveAtomic marshal f path s w).1 ≠ none) ∧
    ((state.SaveAtomic marshal f path s w).1 ≠ none →
      os.Files.read (state.SaveAtomic marshal f path s w).2.files path =
        os.Files.read w.files path) ∧
    ((state.SaveAtomic marshal f path s w).1 = none →
      ∃ b, marshal s = .ok b ∧
        os.Files.read (state.SaveAtomic marshal f path s w).2.files path = some b) ∧
    -- WriteTextfileAtomic
    (∃ l, (WriteTextfileAtomic f path content mode w).2.steps = w.steps ++ l ∧
      l.map os.Step.call <+:
        [os.Call.mkdirAll (pathDir path) 0o755,
         os.Call.writeFile (path ++ ".tmp") content mode,
         os.Call.rename (path ++ ".tmp") path]) ∧
    (f.mkdir ≠ os.Fault.pass → (WriteTextfileAtomic f path content mode w).1 ≠ none) ∧
    (f.write ≠ os.Fault.pass → (WriteTextfileAtomic f path content mode w).1 ≠ none) ∧
    ((WriteTextfileAtomic f path content mode w).1 ≠ none →
      os.Files.read (WriteTextfileAtomic f path content mode w).2.files path =
        os.Files.read w.files path) ∧
    ((WriteTextfileAtomic f path content mode w).1 = none →
      os.Files.read (WriteTextfileAtomic f path content mode w).2.files path = some content) ∧
    -- SaveAtomic: the calls made, and success
    ((os.exec (.mkdirAll (pathDir path) 0o750) f.mkdir w).1 = none →
      ∀ b, marshal s = .ok b →
        ∃ l, (state.SaveAtomic marshal f path s w).2.steps = w.steps ++ l ∧
          [os.Call.mkdirAll (pathDir path) 0o750, os.Call.writeFile (path ++ ".tmp") b 0o640]
            <+: l.map os.Step.call) ∧
    ((state.SaveAtomic marshal f path s w).1 = none →
      ∃ b l, marshal s = .ok b ∧
        (state.SaveAtomic marshal f path s w).2.steps = w.steps ++ l ∧
        l.map os.Step.call =
          [os.Call.mkdirAll (pathDir path) 0o750, os.Call.writeFile (path ++ ".tmp") b 0o640,
           os.Call.rename (path ++ ".tmp") path] ∧
        ∀ st ∈ l, st.err = none) ∧
    (f.rename ≠ os.Fault.pass → (state.SaveAtomic marshal f path s w).1 ≠ none) ∧
    (f.mkdir = os.Fault.pass → f.write = os.Fault.pass → f.rename = os.Fault.pass →
      os.Files.read w.files (pathDir path) = none → ∀ b, marshal s = .ok b →
        (state.SaveAtomic marshal f path s w).1 = none ∧
        os.Files.read (state.SaveAtomic marshal f path s w).2.files path = some b ∧
        os.Files.read (state.SaveAtomic marshal f path s w).2.files (path ++ ".tmp") = none) ∧
    -- WriteTextfileAtomic: the calls made, and success
    ((os.exec (.mkdirAll (pathDir path) 0o755) f.mkdir w).1 = none →
      ∃ l, (WriteTextfileAtomic f path content mode w).2.steps = w.steps ++ l ∧
        [os.Call.mkdirAll (pathDir path) 0o755,
         os.Call.writeFile (path ++ ".tmp") content mode] <+: l.map os.Step.call) ∧
    ((WriteTextfileAtomic f path content mode w).1 = none →
      ∃ l, (WriteTextfileAtomic f path content mode w).2.steps = w.steps ++ l ∧
        l.map os.Step.call =
          [os.Call.mkdirAll (pathDir path) 0o755,
           os.Call.writeFile (path ++ ".tmp") content mode,
           os.Call.rename (path ++ ".tmp") path] ∧
        ∀ st ∈ l, st.err = none) ∧
    (f.rename ≠ os.Fault.pass → (WriteTextfileAtomic f path content mode w).1 ≠ none) ∧
    (f.mkdir = os.Fault.pass → f.write = os.Fault.pass → f.rename = os.Fault.pass →
      os.Files.read w.files (pathDir path) = none →
        (WriteTextfileAtomic f path content mode w).1 = none ∧
        os.Files.read (WriteTextfileAtomic f path content mode w).2.files path =
          some content ∧
        os.Files.read (WriteTextfileAtomic f path content mode w).2.files (path ++ ".tmp") =
          none) := by
  have hs := state.saveAtomic_outcome marshal f path s w
  have hw := writeTextfileAtomic_outcome f path content mode w
  have hsc := state.saveAtomic_calls marshal f path s w
  have hwc := writeTextfileAtomic_calls f path content mode w
  exact ⟨pathDir_tmp path, append_ne_self path ".tmp" (by decide),
    hs.2.2.2.2.2.2, hs.2.2.1, hs.2.2.2.1, hs.2.2.2.2.1, hs.1, hs.2.1,
    hw.2.2.2.2, hw.2.2.1, hw.2.2.2.1, hw.1, hw.2.1,
    hsc.1, hsc.2.1, hsc.2.2,
    fun h1 h2 h3 hd b hb => state.saveAtomic_pass marshal f path s w b h1 h2 h3 hd hb,
    hwc.1, hwc.2.1, hwc.2.2,
    fun h1 h2 h3 hd => writeTextfileAtomic_pass f path content mode w h1 h2 h3 hd⟩

/-- On the file system `updater.installed`, where no directory of the path is a regular
file, a write that the system does not fail leaves the snapshot at the target. -/
theorem writeTextfile_example :
    (WriteTextfileAtomic os.AtomicFaults.pass "/var/lib/node_exporter/os_updates.prom"
      "snapshot" 0o644 updater.installed).1 = none ∧
    os.Files.read (WriteTextfileAtomic os.AtomicFaults.pass
      "/var/lib/node_exporter/os_updates.prom" "snapshot" 0o644 updater.installed).2.files
      "/var/lib/node_exporter/os_updates.prom" = some "snapshot" ∧
    (WriteTextfileAtomic os.AtomicFaults.pass "/var/lib/node_exporter/os_updates.prom"
      "snapshot" 0o644 updater.installed).2.steps.map os.Step.call =
      [os.Call.mkdirAll "/var/lib/node_exporter" 0o755,
       os.Call.writeFile "/var/lib/node_exporter/os_updates.prom.tmp" "snapshot" 0o644,
       os.Call.rename "/var/lib/node_exporter/os_updates.prom.tmp"
         "/var/lib/node_exporter/os_updates.prom"] := by
  decide

end metrics

namespace updater

/-- C13, as the code has it. Either `Run` returns, and then its last action is one call
`persistUpdaterState upd flag`, no other call of it is made during the run, `flag` is
true exactly when `Run` returns a result and false exactly when it returns an error, and
the status handed to `SaveAtomic` carries `flag` as its success field; the state file
holds that status as marshalled when `SaveAtomic` reports no error, which it does when
the file system fails none of its calls, and the state file is as it was before the call
when `SaveAtomic` reports an error, which `persistUpdaterState` discards. Or `Run` panics
on a request that could not be built, and calls `persistUpdaterState` not at all. -/
theorem run_persists_status (lo : Char → Char) (u : Updater) (env : Env) (w : os.World) :
    (∃ w' upd flag,
      (Run lo u env w).world = persistUpdaterState u env upd flag w' ∧
      w'.persists = w.persists ∧
      (Run lo u env w).world.persists = w.persists ++ [(upd, flag)] ∧
      (flag = true ↔ ∃ r, (Run lo u env w).result = .ok r) ∧
      (flag = false ↔ ∃ e, (Run lo u env w).result = .error e) ∧
      (upd = true ↔ ∃ cr, Check u env = .ok cr ∧ cr.UpdateAvailable = true) ∧
      (updaterStatus u env upd flag w').LastUpdateRunSuccess = flag ∧
      (updaterStatus u env upd flag w').LastUpdateAvailable = upd ∧
      ((persistSave u env upd flag w').1 = none →
        ∃ b, env.marshal (updaterStatus u env upd flag w') = .ok b ∧
          (Run lo u env w).world.files.read u.cfg.StateFile = some b) ∧
      ((persistSave u env upd flag w').1 ≠ none →
        (Run lo u env w).world.files.read u.cfg.StateFile = w'.files.read u.cfg.StateFile) ∧
      (env.save.mkdir = os.Fault.pass → env.save.write = os.Fault.pass →
        env.save.rename = os.Fault.pass → w'.files.read (pathDir u.cfg.StateFile) = none →
        ∀ b, env.marshal (updaterStatus u env upd flag w') = .ok b →
          (persistSave u env upd flag w').1 = none ∧
          (Run lo u env w).world.files.read u.cfg.StateFile = some b)) ∨
    ((∃ m, (Run lo u env w).result = .panic m) ∧
      (Run lo u env w).world.persists = w.persists ∧
      ∃ url ∈ requestURLs u env, env.parses url = false) := by
  rcases run_ends lo u env w with ⟨w', upd, flag, hworld, hpers, hflag, herr, hupd⟩ | hpanic
  · refine Or.inl ⟨w', upd, flag, hworld, hpers, ?_, hflag, herr, hupd, rfl, rfl, ?_, ?_, ?_⟩
    · rw [hworld, persistUpdaterState_persists, hpers]
    · intro hsave
      rw [hworld, persistUpdaterState_files]
      exact (state.saveAtomic_outcome env.marshal env.save u.cfg.StateFile
        (updaterStatus u env upd flag w') w').2.1 hsave
    · intro hsave
      rw [hworld, persistUpdaterState_files]
      exact (state.saveAtomic_outcome env.marshal env.save u.cfg.StateFile
        (updaterStatus u env upd flag w') w').1 hsave
    · intro h1 h2 h3 hd b hb
      have hp := state.saveAtomic_pass env.marshal env.save u.cfg.StateFile
        (updaterStatus u env upd flag w') w' b h1 h2 h3 hd hb
      refine ⟨hp.1, ?_⟩
      rw [hworld, persistUpdaterState_files]
      exact hp.2.1
  · exact Or.inr hpanic

/-- C13, as the claim states it, fails. On a host where the directory of the state file
cannot be created, a `Run` that finds no update returns a result and no error, having
called `persistUpdaterState` once with the success flag, and no status is persisted: the
state file does not exist after the run. -/
theorem run_persists_status_counterexample :
    (Run id (pinned "v1.2.3") readOnly installed).result =
      .ok { Current := "1.2.3", Latest := "v1.2.3", Updated := false } ∧
    (Run id (pinned "v1.2.3") readOnly installed).world.persists = [(false, true)] ∧
    (persistSave (pinned "v1.2.3") readOnly false true installed).1 =
      some "mkdir /var/lib/os-updates-exporter: read-only file system" ∧
    (Run id (pinned "v1.2.3") readOnly installed).world.files.read
      (pinned "v1.2.3").cfg.StateFile = none ∧
    (Run id (pinned "v1.2.3") readOnly installed).world.files = installed.files := by
  decide

/-- A `Run` whose tag request cannot be built panics without a call of
`persistUpdaterState`: with the channel pinned to `100%` the first request URL does not
parse, the discarded error of `http.NewRequestWithContext` leaves a nil request and
`req.Header.Set` dereferences it (updater.go:207-208). -/
theorem run_nil_request :
    (Run id (pinned "100%") published installed).result = .panic nilDereference ∧
    (Run id (pinned "100%") published installed).world = installed := by
  decide

/-- On the host `published` a `Run` installs the release and persists the status of a
successful run. -/
theorem run_example :
    (Run id running published installed).result =
      .ok { Current := "1.2.3", Latest := "v1.3.0", Updated := true } ∧
    (Run id running published installed).world.persists = [(true, true)] ∧
    (Run id running published installed).world.files.read running.cfg.StateFile =
      some "success" ∧
    (Run id running published installed).world.files.read target = some "binary-1.3.0" := by
  decide

end updater

namespace collector

/-- A key without a value makes `strings.Fields(u)[0]` index an empty slice. -/
theorem yumValue_unset (key : String) (out : List String) :
    yumValue key key out = .panic indexOutOfRange := by
  have hpre : hasPrefix key key = true := by
    unfold hasPrefix
    exact decide_eq_true (List.prefix_refl _)
  have htrim : trimPrefix key key = "" := by
    unfold trimPrefix
    rw [if_pos (List.prefix_refl _), List.drop_length]
  unfold yumValue
  rw [if_pos hpre, htrim]
  rfl

/-- C22, the run the claim does not cover. On a dnf or yum host with a repository file
in which the value of `baseurl` is empty, `parseYumRepos` panics at
`strings.Fields(u)[0]` (repo.go:113), whereas for the same host without that file it
returns the mirror URL. `CheckRepos` calls `parseYumRepos` and `run` calls `CheckRepos`
at main.go:98, after the lock is acquired and before the snapshot write at main.go:156,
and neither recovers. -/
theorem parseYumRepos_unset_baseurl :
    parseYumRepos unset = .panic indexOutOfRange ∧
    parseYumRepos mirrored = .ok ["https://mirror.example.org/os/"] ∧
    yumLines ["baseurl="] [] = .panic indexOutOfRange ∧
    yumLines ["mirrorlist="] [] = .panic indexOutOfRange := by
  decide

end collector

end Exporter
